import Mathlib

/-!
# HTTP server code generation (goa `http/codegen`)

A shallow embedding of `http/codegen/server.go` and `http/codegen/server_types.go`:
the functions assembling the generated files (`ServerFiles`, `server`,
`serverEncodeDecode`, `serverType`) and the code the text templates render
(`responseEncoderT`, `serverHandlerInitT`, `requestDecoderT`).

Conventions.
* A Go `for ... range` loop appending to a slice is a `List.foldl` appending to a list.
* A Go pointer that the code dereferences without a nil check and that comes from a
  registry lookup is an `Option`; dereferencing `none` is a panic, modelled by the whole
  function returning `none`.
* A text template is embedded as the function from its input data to the statements of
  the Go code it renders; template conditionals (`{{ if }}`) become `if`, `{{ range }}`
  becomes a map over the list. The rendered Go code is given a small operational
  semantics (`execEnc`, `execDec`); the handler, whose code is fixed but for two
  conditionals, is embedded directly as the function giving its calls.
-/

namespace Goa

/-! ## Design model (package `design`, read-only input) -/

/-- Modelled from the spec: the primitive kinds of package `design` (the package is not
part of the sources); these are the type names the templates compare `.Type.Name` with. -/
inductive Primitive where
  | boolean | int | int32 | int64 | uint | uint32 | uint64
  | float32 | float64 | string | bytes | any
deriving DecidableEq, Repr

/-- Modelled from the spec: `design.DataType` (primitive, array, map, object, user type);
the declaration is not part of the sources. -/
inductive DataType where
  | primitive (p : Primitive)
  | array (elem : DataType)
  | map (key : DataType) (elem : DataType)
  | object
  | userType (name : String)
deriving DecidableEq, Repr

/-- Modelled from the spec: `Primitive.Name()`, the names tested by the templates. -/
def Primitive.Name : Primitive → String
  | .boolean => "boolean"
  | .int => "int"
  | .int32 => "int32"
  | .int64 => "int64"
  | .uint => "uint"
  | .uint32 => "uint32"
  | .uint64 => "uint64"
  | .float32 => "float32"
  | .float64 => "float64"
  | .string => "string"
  | .bytes => "bytes"
  | .any => "any"

/-- Modelled from the spec: `DataType.Name()` as the templates use it
(`eq .Type.Name "array"`, `eq .Type.Name "string"`). -/
def DataType.Name : DataType → String
  | .primitive p => p.Name
  | .array _ => "array"
  | .map _ _ => "map"
  | .object => "object"
  | .userType n => n

/-- A Go value held in an `interface{}` field of the design, such as the default value of
an attribute. -/
inductive Value where
  | nil
  | bool (b : Bool)
  | int (i : Int)
  | str (s : String)
  | list (vs : List Value)
deriving Repr

mutual
/-- Decision of the equality of two values. -/
def Value.decEq : (a b : Value) → Decidable (a = b)
  | .nil, .nil => isTrue rfl
  | .bool a, .bool b =>
    if h : a = b then isTrue (by rw [h]) else isFalse (by intro h2; cases h2; exact h rfl)
  | .int a, .int b =>
    if h : a = b then isTrue (by rw [h]) else isFalse (by intro h2; cases h2; exact h rfl)
  | .str a, .str b =>
    if h : a = b then isTrue (by rw [h]) else isFalse (by intro h2; cases h2; exact h rfl)
  | .list a, .list b =>
    match Value.decEqList a b with
    | isTrue h => isTrue (by rw [h])
    | isFalse h => isFalse (by intro h2; cases h2; exact h rfl)
  | .nil, .bool _ | .nil, .int _ | .nil, .str _ | .nil, .list _
  | .bool _, .nil | .bool _, .int _ | .bool _, .str _ | .bool _, .list _
  | .int _, .nil | .int _, .bool _ | .int _, .str _ | .int _, .list _
  | .str _, .nil | .str _, .bool _ | .str _, .int _ | .str _, .list _
  | .list _, .nil | .list _, .bool _ | .list _, .int _ | .list _, .str _ =>
    isFalse (by intro h; cases h)
/-- Decision of the equality of two lists of values. -/
def Value.decEqList : (as bs : List Value) → Decidable (as = bs)
  | [], [] => isTrue rfl
  | [], _ :: _ => isFalse (by intro h; cases h)
  | _ :: _, [] => isFalse (by intro h; cases h)
  | a :: as, b :: bs =>
    match Value.decEq a b, Value.decEqList as bs with
    | isTrue h1, isTrue h2 => isTrue (by rw [h1, h2])
    | isFalse h1, _ => isFalse (by intro h; cases h; exact h1 rfl)
    | _, isFalse h2 => isFalse (by intro h; cases h; exact h2 rfl)
end

instance : DecidableEq Value := Value.decEq

/-- Modelled from the spec: an endpoint of `httpdesign.ServiceExpr.HTTPEndpoints`; only
`Name()` is read. -/
structure EndpointExpr where
  Name : String
deriving DecidableEq, Repr

/-- Modelled from the spec: `httpdesign.ServiceExpr`; the sources read `Name()` and
`HTTPEndpoints`. -/
structure ServiceExpr where
  Name : String
  HTTPEndpoints : List EndpointExpr := []
deriving DecidableEq, Repr

/-- Modelled from the spec: a `Server` declaration of the API, listing the services it
hosts (`Services("Service")` in the DSL). -/
structure ServerExpr where
  Name : String
  Services : List String
deriving DecidableEq, Repr

/-- Modelled from the spec: `httpdesign.RootExpr`; `ServerFiles` and `ServerTypeFiles`
read `HTTPServices` only. `Servers` are the `Server` declarations of the design. -/
structure RootExpr where
  Servers : List ServerExpr := []
  HTTPServices : List ServiceExpr
deriving DecidableEq, Repr

/-! ## Derived model (the data the templates consume) -/

/-- Modelled from the spec: an argument of a constructor (`InitArgData`). -/
structure InitArgData where
  Name : String
  Ref : String := ""
  FieldName : String := ""
  TypeRef : String := ""
  Pointer : Bool := false
deriving DecidableEq, Repr

/-- Modelled from the spec: `InitData`, the Init-Descriptor of a body or payload type. -/
structure InitData where
  Name : String
  Description : String := ""
  Args : List InitArgData := []
  ServerArgs : List InitArgData := []
  ReturnTypeRef : String := ""
  ReturnTypeName : String := ""
  ReturnTypeAttribute : String := ""
  ReturnIsStruct : Bool := false
  ServerCode : String := ""
deriving DecidableEq, Repr

/-- Modelled from the spec: `TypeData`, the Type-Descriptor (declared name,
structural definition, optional constructor, optional validation). -/
structure TypeData where
  Name : String := ""
  VarName : String
  Description : String := ""
  Def : String := ""
  Ref : String := ""
  Init : Option InitData := none
  ValidateDef : String := ""
  ValidateRef : String := ""
deriving DecidableEq, Repr

/-- Modelled from the spec: `ParamData`, a path or query string parameter (`Type_` is the
field `Type`). -/
structure ParamData where
  Name : String
  VarName : String
  TypeRef : String := ""
  Type_ : DataType
  Required : Bool := false
  Pointer : Bool := false
  StringSlice : Bool := false
  Slice : Bool := false
  MapStringSlice : Bool := false
  Map : Bool := false
  MapQueryParams : Bool := false
  Validate : String := ""
deriving DecidableEq, Repr

/-- Modelled from the spec: `HeaderData`, a request or response header (`Type_` is the
field `Type`). -/
structure HeaderData where
  Name : String
  CanonicalName : String := ""
  VarName : String
  FieldName : String := ""
  TypeRef : String := ""
  Type_ : DataType
  Required : Bool := false
  Pointer : Bool := false
  StringSlice : Bool := false
  Slice : Bool := false
  Validate : String := ""
  DefaultValue : Value := .nil
deriving DecidableEq, Repr

/-- Modelled from the spec: `ResponseData`, the Response-Shape. -/
structure ResponseData where
  StatusCode : String
  ServerBody : Option TypeData := none
  Headers : List HeaderData := []
  TagName : String := ""
  TagValue : String := ""
  TagRequired : Bool := false
deriving DecidableEq, Repr

/-- Modelled from the spec: `ErrorData`, an error of an endpoint with its response. -/
structure ErrorData where
  Name : String := ""
  Ref : String := ""
  Response : ResponseData
deriving DecidableEq, Repr

/-- Modelled from the spec: `RequestData`, the Payload-Shape. -/
structure RequestData where
  PathParams : List ParamData := []
  QueryParams : List ParamData := []
  Headers : List HeaderData := []
  ServerBody : Option TypeData := none
  PayloadInit : Option InitData := none
  MustValidate : Bool := false
deriving DecidableEq, Repr

/-- Modelled from the spec: `PayloadData`. -/
structure PayloadData where
  Ref : String := ""
  Request : RequestData := {}
  DecoderReturnValue : String := ""
deriving DecidableEq, Repr

/-- Modelled from the spec: `ResultData`. -/
structure ResultData where
  Ref : String := ""
  Responses : List ResponseData := []
deriving DecidableEq, Repr

/-- Modelled from the spec: `RouteData`, a verb and a path pattern. -/
structure RouteData where
  Verb : String
  Path : String
deriving DecidableEq, Repr

/-- Modelled from the spec: the data of a multipart request decoder. -/
structure MultipartData where
  FuncName : String
  InitName : String := ""
  VarName : String := ""
  ServiceName : String := ""
  MethodName : String := ""
  PayloadRef : String := ""
deriving DecidableEq, Repr

/-- Modelled from the spec: the service method an endpoint implements. -/
structure MethodData where
  Name : String
  VarName : String := ""
deriving DecidableEq, Repr

/-- Modelled from the spec: `EndpointData`, the template-facing view of one endpoint. -/
structure EndpointData where
  Method : MethodData
  ServiceName : String := ""
  Payload : PayloadData := {}
  Result : ResultData := {}
  Errors : List ErrorData := []
  Routes : List RouteData := []
  MountHandler : String := ""
  HandlerInit : String := ""
  RequestDecoder : String := ""
  ResponseEncoder : String := ""
  ErrorEncoder : String := ""
  MultipartRequestDecoder : Option MultipartData := none
deriving DecidableEq, Repr

/-- Modelled from the spec: `FileServerData`. -/
structure FileServerData where
  MountHandler : String := ""
  RequestPaths : List String := []
  FilePath : String
  IsDir : Bool := false
deriving DecidableEq, Repr

/-- Modelled from the spec: `TransformFunctionData`, a transform helper. -/
structure TransformFunctionData where
  Name : String
  ParamTypeRef : String := ""
  ResultTypeRef : String := ""
  Code : String := ""
deriving DecidableEq, Repr

/-- Modelled from the spec: the service description of package `service`
(`service.Data`); only the name and package name are read. -/
structure ServiceInfo where
  Name : String
  PkgName : String
deriving DecidableEq, Repr

/-- Modelled from the spec: `ServiceData`, the registry entry of one HTTP service. -/
structure ServiceData where
  Service : ServiceInfo
  Endpoints : List EndpointData := []
  FileServers : List FileServerData := []
  ServerStruct : String := ""
  MountPointStruct : String := ""
  ServerInit : String := ""
  MountServer : String := ""
  ServerService : String := ""
  ServerBodyAttributeTypes : List TypeData := []
  ServerTransformHelpers : List TransformFunctionData := []
deriving DecidableEq, Repr

/-- Modelled from the spec: `ServiceData.Endpoint(name)`, the endpoint data of the method
called `name`, nil when there is none (the method is declared outside the sources). -/
def ServiceData.Endpoint (d : ServiceData) (name : String) : Option EndpointData :=
  d.Endpoints.find? (fun e => e.Method.Name == name)

/-! ## Package `codegen`: files and sections -/

/-- Modelled from the spec: `codegen.ImportSpec`, an import path with its alias. -/
structure ImportSpec where
  Path : String
  Name : String := ""
deriving DecidableEq, Repr

/-- The text template constants of the sources, by name. -/
inductive Template where
  | headerT
  | serverStructT | mountPointStructT | serverInitT | serverServiceT | serverMountT
  | serverHandlerT | fileServerT | serverHandlerInitT | transformHelperT
  | requestDecoderT | responseEncoderT | errorEncoderT
  | multipartRequestDecoderTypeT | multipartRequestDecoderT
  | typeDeclT | serverTypeInitT | serverBodyInitT | validateT
deriving DecidableEq, Repr

/-- The helper map handed to a section: none, the `join` helper of `server`, or
`transTmplFuncs(svc)`. -/
inductive FuncMap where
  | empty
  | join
  | transTmplFuncs (service : String)
deriving DecidableEq, Repr

/-- The `Data` field of a section: the value its template is executed on. -/
inductive TemplateData where
  | header (title : String) (pkg : String) (imports : List ImportSpec)
  | service (d : ServiceData)
  | endpoint (e : EndpointData)
  | multipart (m : MultipartData)
  | fileServer (s : FileServerData)
  | transform (h : TransformFunctionData)
  | typeData (t : TypeData)
  | init (i : InitData)
deriving DecidableEq, Repr

/-- Modelled from the spec: `codegen.SectionTemplate`. -/
structure SectionTemplate where
  Name : String
  Source : Template
  FuncMap : FuncMap := .empty
  Data : TemplateData
deriving DecidableEq, Repr

/-- Modelled from the spec: `codegen.File`, a path and its ordered sections. -/
structure File where
  Path : String
  SectionTemplates : List SectionTemplate
deriving DecidableEq, Repr

/-- Modelled from the spec: `codegen.Header(title, pack, imports)`, the header section
(package clause and import block) every generated file starts with. -/
def Header (title pack : String) (imports : List ImportSpec) : SectionTemplate :=
  { Name := "source-header", Source := .headerT, Data := .header title pack imports }

/-- What the generator takes from outside the sources: the output directory
`codegen.Gendir`, `codegen.SnakeCase`, `filepath.Join`, the registry of derived data
`HTTPServices.Get` and the registry `service.Services.Get`. A registry lookup yields
`none` for a nil pointer. -/
structure Env where
  Gendir : String
  SnakeCase : String → String
  Join : List String → String
  HTTPServices : String → Option ServiceData
  Services : String → Option ServiceInfo

/-! ## `server.go`: file assembly -/

/-- The function `server`: the file defining the HTTP server of one service. -/
def server (env : Env) (genpkg : String) (svc : ServiceExpr) : Option File :=
  let path := env.Join [env.Gendir, "http", env.SnakeCase svc.Name, "server", "server.go"]
  match env.HTTPServices svc.Name with
  | none => none
  | some data =>
    let title := svc.Name ++ " HTTP server"
    let sections : List SectionTemplate := [
      Header title "server" [
        { Path := "context" },
        { Path := "fmt" },
        { Path := "io" },
        { Path := "mime/multipart" },
        { Path := "net/http" },
        { Path := "goa.design/goa", Name := "goa" },
        { Path := "goa.design/goa/http", Name := "goahttp" },
        { Path := genpkg ++ "/" ++ env.SnakeCase svc.Name, Name := data.Service.PkgName }
      ]]
    let sections := sections ++
      [{ Name := "server-struct", Source := .serverStructT, Data := .service data }]
    let sections := sections ++
      [{ Name := "server-mountpoint", Source := .mountPointStructT, Data := .service data }]
    let sections := data.Endpoints.foldl (fun sections e =>
      match e.MultipartRequestDecoder with
      | some m => sections ++ [{ Name := "multipart-request-decoder-type",
                                 Source := .multipartRequestDecoderTypeT,
                                 Data := .multipart m }]
      | none => sections) sections
    let sections := sections ++
      [{ Name := "server-init", Source := .serverInitT, Data := .service data }]
    let sections := sections ++
      [{ Name := "server-service", Source := .serverServiceT, Data := .service data }]
    let sections := sections ++
      [{ Name := "server-mount", Source := .serverMountT, Data := .service data }]
    let sections := data.Endpoints.foldl (fun sections e =>
      let sections := sections ++
        [{ Name := "server-handler", Source := .serverHandlerT, Data := .endpoint e }]
      sections ++
        [{ Name := "server-handler-init", Source := .serverHandlerInitT,
           Data := .endpoint e }]) sections
    let sections := data.FileServers.foldl (fun sections s =>
      sections ++ [{ Name := "server-files", Source := .fileServerT, FuncMap := .join,
                     Data := .fileServer s }]) sections
    some { Path := path, SectionTemplates := sections }

/-- The function `serverEncodeDecode`: the file defining the encoders and decoders of one
service. -/
def serverEncodeDecode (env : Env) (genpkg : String) (svc : ServiceExpr) : Option File :=
  let path :=
    env.Join [env.Gendir, "http", env.SnakeCase svc.Name, "server", "encode_decode.go"]
  match env.HTTPServices svc.Name with
  | none => none
  | some data =>
    let title := svc.Name ++ " HTTP server encoders and decoders"
    let sections : List SectionTemplate := [
      Header title "server" [
        { Path := "context" },
        { Path := "fmt" },
        { Path := "io" },
        { Path := "net/http" },
        { Path := "strconv" },
        { Path := "strings" },
        { Path := "encoding/json" },
        { Path := "mime/multipart" },
        { Path := "unicode/utf8" },
        { Path := "goa.design/goa", Name := "goa" },
        { Path := "goa.design/goa/http", Name := "goahttp" },
        { Path := genpkg ++ "/" ++ env.SnakeCase svc.Name, Name := data.Service.PkgName }
      ]]
    let sections := data.Endpoints.foldl (fun sections e =>
      let sections := sections ++
        [{ Name := "response-encoder", FuncMap := .transTmplFuncs svc.Name,
           Source := .responseEncoderT, Data := .endpoint e }]
      let sections :=
        if e.Payload.Ref ≠ "" then
          sections ++ [{ Name := "request-decoder", Source := .requestDecoderT,
                         FuncMap := .transTmplFuncs svc.Name, Data := .endpoint e }]
        else sections
      let sections :=
        match e.MultipartRequestDecoder with
        | some m => sections ++ [{ Name := "multipart-request-decoder",
                                   Source := .multipartRequestDecoderT,
                                   Data := .multipart m }]
        | none => sections
      if e.Errors.length > 0 then
        sections ++ [{ Name := "error-encoder", Source := .errorEncoderT,
                       FuncMap := .transTmplFuncs svc.Name, Data := .endpoint e }]
      else sections) sections
    let sections := data.ServerTransformHelpers.foldl (fun sections h =>
      sections ++ [{ Name := "server-transform-helper", Source := .transformHelperT,
                     Data := .transform h }]) sections
    some { Path := path, SectionTemplates := sections }

/-- One `for i, x := range xs` loop of `ServerFiles`: `fw[i+off] = f(x)`, where a panic
of `f` (`none`) aborts the loop. -/
def rangeAssign (f : ServiceExpr → Option File) (off : Nat) :
    Nat → List ServiceExpr → List (Option File) → Option (List (Option File))
  | _, [], fw => some fw
  | i, x :: xs, fw =>
    match f x with
    | none => none
    | some file => rangeAssign f off (i + 1) xs (fw.set (i + off) (some file))

/-- The function `ServerFiles`: all the server HTTP transport files. The slice `fw` is
made with `2*len(root.HTTPServices)` nil entries, which the two loops assign. -/
def ServerFiles (env : Env) (genpkg : String) (root : RootExpr) :
    Option (List (Option File)) :=
  let fw : List (Option File) := List.replicate (2 * root.HTTPServices.length) none
  match rangeAssign (server env genpkg) 0 0 root.HTTPServices fw with
  | none => none
  | some fw =>
    rangeAssign (serverEncodeDecode env genpkg) root.HTTPServices.length 0
      root.HTTPServices fw

/-! ## `server_types.go`: the type definitions file -/

/-- The state of the loops of `serverType`: the sections appended so far, the body
constructors (`initData`) and the validated types (`validatedTypes`). -/
structure TypeAcc where
  sections : List SectionTemplate
  initData : List InitData := []
  validatedTypes : List TypeData := []
deriving DecidableEq, Repr

/-- What `serverType` does with one body type `data` of a response or an error: a
declaration section named `name` when `Def` is non-empty, the constructor when there is
one, the validation when `ValidateDef` is non-empty. -/
def bodyTypeStep (name : String) (acc : TypeAcc) (data : TypeData) : TypeAcc :=
  let acc :=
    if data.Def ≠ "" then
      { acc with sections := acc.sections ++
          [{ Name := name, Source := .typeDeclT, Data := .typeData data }] }
    else acc
  let acc :=
    match data.Init with
    | some init => { acc with initData := acc.initData ++ [init] }
    | none => acc
  if data.ValidateDef ≠ "" then
    { acc with validatedTypes := acc.validatedTypes ++ [data] }
  else acc

/-- The set `seen` of `serverType`: the names of the types already generated. -/
abbrev Seen := List String

/-- The function `serverType`: the file of the type definitions of one service. The map
`seen` is passed in and handed back as the call leaves it. A nil registry entry or a nil
`rdata.Endpoint(a.Name())` is dereferenced, which is a panic (`none`). -/
def serverType (env : Env) (genpkg : String) (r : ServiceExpr) (seen : Seen) :
    Option (File × Seen) := do
  let rdata ← env.HTTPServices r.Name
  let path := env.Join [env.Gendir, "http", env.SnakeCase r.Name, "server", "types.go"]
  let svc ← env.Services r.Name
  let header := Header (r.Name ++ " HTTP server types") "server" [
    { Path := "unicode/utf8" },
    { Path := genpkg ++ "/" ++ svc.PkgName },
    { Path := "goa.design/goa", Name := "goa" }]
  let acc : TypeAcc := { sections := [header] }
  -- request body types
  let acc ← r.HTTPEndpoints.foldlM (fun (acc : TypeAcc) a => do
    let adata ← rdata.Endpoint a.Name
    match adata.Payload.Request.ServerBody with
    | some data =>
      let acc :=
        if data.Def ≠ "" then
          { acc with sections := acc.sections ++
              [{ Name := "request-body-type-decl", Source := .typeDeclT,
                 Data := .typeData data }] }
        else acc
      if data.ValidateDef ≠ "" then
        pure { acc with validatedTypes := acc.validatedTypes ++ [data] }
      else pure acc
    | none => pure acc) acc
  -- response body types
  let acc ← r.HTTPEndpoints.foldlM (fun (acc : TypeAcc) a => do
    let adata ← rdata.Endpoint a.Name
    pure (adata.Result.Responses.foldl (fun acc resp =>
      match resp.ServerBody with
      | some data => bodyTypeStep "response-server-body" acc data
      | none => acc) acc)) acc
  -- error body types
  let acc ← r.HTTPEndpoints.foldlM (fun (acc : TypeAcc) a => do
    let adata ← rdata.Endpoint a.Name
    pure (adata.Errors.foldl (fun acc herr =>
      match herr.Response.ServerBody with
      | some data => bodyTypeStep "error-body-type-decl" acc data
      | none => acc) acc)) acc
  -- body attribute types
  let acc := rdata.ServerBodyAttributeTypes.foldl (fun (acc : TypeAcc) data =>
    let acc :=
      if data.Def ≠ "" then
        { acc with sections := acc.sections ++
            [{ Name := "server-body-attributes", Source := .typeDeclT,
               Data := .typeData data }] }
      else acc
    if data.ValidateDef ≠ "" then
      { acc with validatedTypes := acc.validatedTypes ++ [data] }
    else acc) acc
  -- body constructors
  let sections := acc.initData.foldl (fun sections init =>
    sections ++ [{ Name := "server-body-init", Source := .serverBodyInitT,
                   Data := .init init }]) acc.sections
  -- request to method payload
  let sections := rdata.Endpoints.foldl (fun sections adata =>
    match adata.Payload.Request.PayloadInit with
    | some init => sections ++ [{ Name := "server-payload-init",
                                  Source := .serverTypeInitT, Data := .init init }]
    | none => sections) sections
  -- validate methods
  let sections := acc.validatedTypes.foldl (fun sections data =>
    sections ++ [{ Name := "server-validate", Source := .validateT,
                   Data := .typeData data }]) sections
  pure ({ Path := path, SectionTemplates := sections }, seen)

/-- The declared names of the type-declaration sections of a file, in order
(request-body-type-decl, response-server-body, error-body-type-decl and
server-body-attributes sections are all rendered with `typeDeclT`). -/
def File.declaredTypes (f : File) : List String :=
  f.SectionTemplates.filterMap (fun s =>
    match s.Source, s.Data with
    | .typeDeclT, .typeData t => some t.VarName
    | _, _ => none)

/-- The constructor names of the server-body-init sections of a file, in order. -/
def File.bodyConstructors (f : File) : List String :=
  f.SectionTemplates.filterMap (fun s =>
    match s.Source, s.Data with
    | .serverBodyInitT, .init i => some i.Name
    | _, _ => none)

/-- The loop of `ServerTypeFiles`: `fw[i] = serverType(genpkg, r, seen)` for each service
in order, with the one map `seen`; a panic of `serverType` (`none`) aborts the loop. -/
def typeRange (env : Env) (genpkg : String) :
    Nat → List ServiceExpr → List (Option File) → Seen → Option (List (Option File) × Seen)
  | _, [], fw, seen => some (fw, seen)
  | i, r :: rs, fw, seen =>
    match serverType env genpkg r seen with
    | none => none
    | some (file, seen2) => typeRange env genpkg (i + 1) rs (fw.set i (some file)) seen2

/-- The function `ServerTypeFiles`: the HTTP transport type files. The slice `fw` is made
with `len(root.HTTPServices)` nil entries and `seen` starts empty. -/
def ServerTypeFiles (env : Env) (genpkg : String) (root : RootExpr) :
    Option (List (Option File)) :=
  (typeRange env genpkg 0 root.HTTPServices
    (List.replicate root.HTTPServices.length none) []).map Prod.fst

/-- The import list of the header of a file (its first section). -/
def File.imports (f : File) : List ImportSpec :=
  match f.SectionTemplates with
  | s :: _ =>
    match s.Data with
    | .header _ _ imports => imports
    | _ => []
  | [] => []

/-! ## `responseEncoderT`: the generated response encoder -/

/-- The result value `res` a generated encoder receives: the string each field holds;
`none` is a nil pointer (only an optional field can be nil). -/
abbrev Result := String → Option String

/-- The condition of the `if` that `responseEncoderT` renders for a response with a tag. -/
inductive Guard where
  /-- The text `res.<Tag> == "<value>"`. -/
  | eq (tag : String) (value : String)
  /-- The text `res.<Tag> != nil && *res.<Tag> == "<value>"`. -/
  | nonNilEq (tag : String) (value : String)
deriving DecidableEq, Repr

/-- The Go text of a guard; `quote` is the formatting `printf "%q"`. -/
def Guard.text (quote : String → String) : Guard → String
  | .eq tag value => "res." ++ tag ++ " == " ++ quote value
  | .nonNilEq tag value =>
    "res." ++ tag ++ " != nil && *res." ++ tag ++ " == " ++ quote value

/-- Evaluation of a guard on a result: `==` on the field, or the nil check and, when it
passes (`&&` is short-circuit), `==` on the dereferenced field. -/
def Guard.holds (res : Result) : Guard → Bool
  | .eq tag value => res tag == some value
  | .nonNilEq tag value =>
    match res tag with
    | none => false
    | some s => s == value

/-- The guard `responseEncoderT` renders for a response: `{{ if .TagName }}` with
`{{ if .TagRequired }}` inside; none without a tag. -/
def responseGuard (r : ResponseData) : Option Guard :=
  if r.TagName ≠ "" then
    if r.TagRequired then some (.eq r.TagName r.TagValue)
    else some (.nonNilEq r.TagName r.TagValue)
  else none

/-- The statements of a generated response encoder. -/
inductive EncStmt where
  /-- The statement `res := v.(<Ref>)`. -/
  | typeAssert (ref : String)
  /-- The block `{{ template "response" . }}`: it builds the body, sets the headers and
  writes the status code of the response. -/
  | response (r : ResponseData)
  /-- The statement `w.WriteHeader(<status>)`. -/
  | writeHeader (status : String)
  /-- The statement `return enc.Encode(body)`. -/
  | returnEncode
  /-- The statement `return nil`. -/
  | returnNil
  /-- The statement `if <guard> { <body> }`. -/
  | ifThen (g : Guard) (body : List EncStmt)
deriving Repr

/-- What `responseEncoderT` renders for one response of the range: the response block
followed by a return, inside the guard when the response has a tag. -/
def renderResponse (r : ResponseData) : List EncStmt :=
  let body := [EncStmt.response r,
               if r.ServerBody.isSome then EncStmt.returnEncode else EncStmt.returnNil]
  match responseGuard r with
  | some g => [.ifThen g body]
  | none => body

/-- The body of the function literal `responseEncoderT` renders for an endpoint. Without
result type the template takes `index .Result.Responses 0`, which fails (`none`) when
there is no response. -/
def responseEncoderT (e : EndpointData) : Option (List EncStmt) :=
  if e.Result.Ref ≠ "" then
    some (.typeAssert e.Result.Ref :: e.Result.Responses.flatMap renderResponse)
  else
    match e.Result.Responses with
    | r :: _ => some [.writeHeader r.StatusCode, .returnNil]
    | [] => none

/-- What an executed encoder did to the response writer. -/
inductive EncEvent where
  /-- The response block of `r` ran: status, headers and body of `r` were written. -/
  | response (r : ResponseData)
  /-- The status code alone was written. -/
  | status (code : String)
deriving DecidableEq, Repr

/-- The value a generated encoder returns. -/
inductive EncReturn where
  /-- The result of `enc.Encode(body)`. -/
  | encodeBody
  /-- The value nil. -/
  | nil
deriving DecidableEq, Repr

mutual
/-- Execution of one statement of a generated encoder on the result `res`: the events it
causes and, when it returns from the encoder, the returned value. -/
def execEncStmt (res : Result) : EncStmt → List EncEvent × Option EncReturn
  | .typeAssert _ => ([], none)
  | .response r => ([.response r], none)
  | .writeHeader code => ([.status code], none)
  | .returnEncode => ([], some .encodeBody)
  | .returnNil => ([], some .nil)
  | .ifThen g body => if g.holds res then execEnc res body else ([], none)
/-- Execution of a statement list: in order, up to the first statement that returns. -/
def execEnc (res : Result) : List EncStmt → List EncEvent × Option EncReturn
  | [] => ([], none)
  | s :: rest =>
    match execEncStmt res s with
    | (ev, some ret) => (ev, some ret)
    | (ev, none) =>
      match execEnc res rest with
      | (ev2, ret) => (ev ++ ev2, ret)
end

/-- The tag predicate of a response in the words of the specification: the tag field of
the result holds the tag value of the response. -/
def tagPredicate (r : ResponseData) (res : Result) : Bool :=
  match res r.TagName with
  | some s => s == r.TagValue
  | none => false

/-- A response matches a result when it has no tag or its tag predicate holds. -/
def matchesResult (res : Result) (r : ResponseData) : Bool :=
  r.TagName == "" || tagPredicate r res

/-- The generated encoder of the responses `rs` selects `r` on `res`: the response block
of `r` is executed. -/
def selected (rs : List ResponseData) (res : Result) (r : ResponseData) : Prop :=
  EncEvent.response r ∈ (execEnc res (rs.flatMap renderResponse)).1

/-! ## `serverHandlerInitT`: the generated HTTP handler -/

/-- The functions a generated handler calls, by their outcome on the request at hand:
`decodeRequest(r)`, `endpoint(ctx, payload)` and `encodeResponse(ctx, w, res)` (`none`
is a nil error). -/
structure HandlerDeps (P R E : Type) where
  decodeRequest : Except E P
  endpoint : Option P → Except E R
  encodeResponse : R → Option E

/-- A call made by a generated handler. -/
inductive HandlerCall (P R E : Type) where
  /-- The call `decodeRequest(r)`. -/
  | decodeRequest
  /-- The call `endpoint(ctx, payload)`; `none` is the nil payload. -/
  | endpoint (payload : Option P)
  /-- The call `encodeResponse(ctx, w, res)`. -/
  | encodeResponse (res : R)
  /-- The call `encodeError(ctx, w, err)`, `encoder` being the constructor `encodeError`
  was built with. -/
  | encodeError (encoder : String) (err : E)
deriving DecidableEq, Repr

/-- The constructor of `encodeError` in the rendered handler:
`{{ if .Errors }}{{ .ErrorEncoder }}{{ else }}goahttp.ErrorEncoder{{ end }}`. -/
def errorEncoderName (e : EndpointData) : String :=
  if e.Errors ≠ [] then e.ErrorEncoder else "goahttp.ErrorEncoder"

/-- The rendered handler from the call of the endpoint on: `res, err := endpoint(ctx,
payload)`, the error check with its return, then the response encoder and its error
check. -/
def handlerFromEndpoint {P R E : Type} (e : EndpointData) (deps : HandlerDeps P R E)
    (payload : Option P) : List (HandlerCall P R E) :=
  match deps.endpoint payload with
  | .error err => [.endpoint payload, .encodeError (errorEncoderName e) err]
  | .ok res =>
    match deps.encodeResponse res with
    | some err =>
      [.endpoint payload, .encodeResponse res, .encodeError (errorEncoderName e) err]
    | none => [.endpoint payload, .encodeResponse res]

/-- The handler function `serverHandlerInitT` renders for an endpoint, run on one
request: the calls it makes, in order. With `{{ if .Payload.Ref }}` the request is
decoded first and a decoding error is encoded and ends the handler; otherwise the
endpoint is called with a nil payload. -/
def serverHandlerInitT {P R E : Type} (e : EndpointData) (deps : HandlerDeps P R E) :
    List (HandlerCall P R E) :=
  if e.Payload.Ref ≠ "" then
    match deps.decodeRequest with
    | .error err => [.decodeRequest, .encodeError (errorEncoderName e) err]
    | .ok payload => .decodeRequest :: handlerFromEndpoint e deps (some payload)
  else handlerFromEndpoint e deps none

/-- The error of the first failing step, in the words of the specification: the error of
the decoder (when the endpoint has a payload), else that of the endpoint function, else
that of the response encoder; `none` when no step fails. -/
def firstFailure {P R E : Type} (e : EndpointData) (deps : HandlerDeps P R E) : Option E :=
  let decoded : Except E (Option P) :=
    if e.Payload.Ref = "" then .ok none
    else match deps.decodeRequest with
      | .ok p => .ok (some p)
      | .error err => .error err
  match decoded with
  | .error err => some err
  | .ok payload =>
    match deps.endpoint payload with
    | .error err => some err
    | .ok res => deps.encodeResponse res

/-- The error encoder calls among the calls of a handler: encoder and error. -/
def errorCalls {P R E : Type} (calls : List (HandlerCall P R E)) : List (String × E) :=
  calls.filterMap (fun c =>
    match c with
    | .encodeError encoder err => some (encoder, err)
    | _ => none)

/-- The calls of a handler other than those of the error encoder. -/
def stepCalls {P R E : Type} (calls : List (HandlerCall P R E)) :
    List (HandlerCall P R E) :=
  calls.filter (fun c =>
    match c with
    | .encodeError _ _ => false
    | _ => true)

/-! ## Go values and the package `strconv` (base 10) -/

/-- A Go value of a primitive type: an integer of the integer type `t`, a boolean, a
string, or a byte slice given by the string with the same bytes. -/
inductive Scalar where
  | int (t : Primitive) (v : Int)
  | bool (b : Bool)
  | str (s : String)
  | bytes (s : String)
deriving DecidableEq, Repr

/-- The integer types: signedness and width; `intSize` is `strconv.IntSize`, the width of
`int` and `uint` on the platform. -/
def bitsOf (intSize : Nat) : Primitive → Option (Bool × Nat)
  | .int => some (true, intSize)
  | .int32 => some (true, 32)
  | .int64 => some (true, 64)
  | .uint => some (false, intSize)
  | .uint32 => some (false, 32)
  | .uint64 => some (false, 64)
  | _ => none

/-- The value is in the range of the integer type. -/
def inRange (intSize : Nat) (t : Primitive) (v : Int) : Bool :=
  match bitsOf intSize t with
  | some (true, b) => decide (-(2 : Int) ^ (b - 1) ≤ v) && decide (v < (2 : Int) ^ (b - 1))
  | some (false, b) => decide (0 ≤ v) && decide (v < (2 : Int) ^ b)
  | none => false

/-- The Go conversion `T(v)` of an integer to the integer type `T`: the value modulo
`2^bits`, taken in the range of `T`. -/
def wrapTo (intSize : Nat) (t : Primitive) (v : Int) : Int :=
  match bitsOf intSize t with
  | some (true, b) => (v + (2 : Int) ^ (b - 1)) % (2 : Int) ^ b - (2 : Int) ^ (b - 1)
  | some (false, b) => v % (2 : Int) ^ b
  | none => v

/-- The value is a value of the primitive type `P`. -/
def hasType (intSize : Nat) (P : Primitive) : Scalar → Bool
  | .int t v => decide (t = P) && inRange intSize P v
  | .bool _ => decide (P = .boolean)
  | .str _ => decide (P = .string)
  | .bytes _ => decide (P = .bytes)

/-- The decimal digit `d` as a character. -/
def digitChar (d : Nat) : Char := Char.ofNat (48 + d)

/-- The decimal digits of `n`, most significant first; `fuel` bounds the recursion and
`n + 1` is enough. -/
def natDigits : Nat → Nat → List Char
  | 0, _ => []
  | fuel + 1, n =>
    if n < 10 then [digitChar n]
    else natDigits fuel (n / 10) ++ [digitChar (n % 10)]

/-- The function `strconv.FormatUint(n, 10)`. -/
def FormatUint (n : Nat) : String := String.mk (natDigits (n + 1) n)

/-- The function `strconv.FormatInt(v, 10)` (and `strconv.Itoa`): a minus sign before the
digits of a negative number. -/
def FormatInt (v : Int) : String :=
  if v < 0 then String.mk ('-' :: natDigits (v.natAbs + 1) v.natAbs)
  else FormatUint v.toNat

/-- The function `strconv.FormatBool`. -/
def FormatBool (b : Bool) : String := if b then "true" else "false"

/-- The value of a decimal digit; `none` for any other character. -/
def digitValue (c : Char) : Option Nat :=
  if 48 ≤ c.toNat ∧ c.toNat ≤ 57 then some (c.toNat - 48) else none

/-- The errors of the parse functions of `strconv`: `ErrSyntax` and `ErrRange`. -/
inductive NumError where
  | badSyntax
  | outOfRange
deriving DecidableEq, Repr

/-- The loop of `strconv.ParseUint` in base 10: a character that is no digit is a syntax
error with value 0, a value above `maxVal` a range error with value `maxVal`. -/
def parseUintLoop (maxVal : Nat) : List Char → Nat → Nat × Option NumError
  | [], n => (n, none)
  | c :: cs, n =>
    match digitValue c with
    | none => (0, some .badSyntax)
    | some d =>
      if n * 10 + d > maxVal then (maxVal, some .outOfRange)
      else parseUintLoop maxVal cs (n * 10 + d)

/-- The function `strconv.ParseUint(s, 10, bitSize)` on the characters of `s`: the empty
string is a syntax error and no sign is allowed. -/
def parseUintChars (cs : List Char) (bitSize : Nat) : Nat × Option NumError :=
  match cs with
  | [] => (0, some .badSyntax)
  | cs => parseUintLoop (2 ^ bitSize - 1) cs 0

/-- The function `strconv.ParseUint(s, 10, bitSize)`. -/
def ParseUint (s : String) (bitSize : Nat) : Nat × Option NumError :=
  parseUintChars s.data bitSize

/-- The function `strconv.ParseInt(s, 10, bitSize)`: an optional sign, then the unsigned
parse; a syntax error gives 0, a magnitude out of the range of the signed type the nearest
bound with a range error. -/
def ParseInt (s : String) (bitSize : Nat) : Int × Option NumError :=
  match s.data with
  | [] => (0, some .badSyntax)
  | c :: cs =>
    let neg := c == '-'
    let digits := if c == '+' || c == '-' then cs else c :: cs
    match parseUintChars digits bitSize with
    | (_, some .badSyntax) => (0, some .badSyntax)
    | (un, _) =>
      let cutoff : Nat := 2 ^ (bitSize - 1)
      if !neg && decide (un ≥ cutoff) then ((cutoff : Int) - 1, some .outOfRange)
      else if neg && decide (un > cutoff) then (-(cutoff : Int), some .outOfRange)
      else (if neg then -(un : Int) else (un : Int), none)

/-- The function `strconv.ParseBool`. -/
def ParseBool (s : String) : Bool × Option NumError :=
  if s = "1" ∨ s = "t" ∨ s = "T" ∨ s = "TRUE" ∨ s = "true" ∨ s = "True" then (true, none)
  else if s = "0" ∨ s = "f" ∨ s = "F" ∨ s = "FALSE" ∨ s = "false" ∨ s = "False" then
    (false, none)
  else (false, some .badSyntax)

/-- The function `strings.Split(s, ",")` on the characters of `s`: the pieces between the
commas (one empty piece for the empty string). -/
def splitComma : List Char → List (List Char)
  | [] => [[]]
  | c :: cs =>
    if c = ',' then [] :: splitComma cs
    else
      match splitComma cs with
      | piece :: rest => (c :: piece) :: rest
      | [] => [[c]]

/-! ## `requestDecoderT`: the generated request decoder -/

/-- An expression of the generated decoder that reads the request. -/
inductive Source where
  /-- The expression `r.URL.Query().Get("<name>")`. -/
  | queryGet (name : String)
  /-- The expression `r.URL.Query()["<name>"]`. -/
  | queryValues (name : String)
  /-- The expression `r.URL.Query()`. -/
  | query
  /-- The expression `r.Header.Get("<name>")`. -/
  | headerGet (name : String)
  /-- The expression `r.Header["<canonical name>"]`. -/
  | headerValues (canonical : String)
  /-- The expression `params["<name>"]`, with `params = mux.Vars(r)`. -/
  | pathVar (name : String)
deriving DecidableEq, Repr

/-- A condition of an `if` of the generated decoder. -/
inductive DecCond where
  /-- The condition `err != nil`. -/
  | errNotNil
  /-- The condition `err == io.EOF`. -/
  | errIsEOF
  /-- The condition `<v> == ""`. -/
  | strEmpty (v : String)
  /-- The condition `<v> != ""`. -/
  | strNotEmpty (v : String)
  /-- The condition `<v> == nil`. -/
  | isNil (v : String)
  /-- The condition `<v> != nil`. -/
  | notNil (v : String)
  /-- The condition `len(<v>) == 0`. -/
  | lenZero (v : String)
  /-- The condition `len(<v>) != 0`. -/
  | lenNotZero (v : String)
deriving DecidableEq, Repr

/-- The statements of a generated request decoder. -/
inductive DecStmt where
  /-- The declaration `var ( body <type>; err error )`. -/
  | varBody (type : String)
  /-- The declaration block `var ( ... )` of the parameter variables, with `err error`
  and `params = mux.Vars(r)` when rendered. -/
  | varParams (vars : List (String × String)) (declErr : Bool) (muxVars : Bool)
  /-- The statement `err = decoder(r).Decode(&body)`. -/
  | decodeBody
  /-- The statement `<v> = <source>` (or `<v> := <source>`). -/
  | read (v : String) (src : Source)
  /-- The statement `<v> = <v>Raw`, with `&` when `addr`. -/
  | assignRaw (v : String) (addr : Bool)
  /-- The statement `err = goa.MergeErrors(err, goa.MissingFieldError("<name>", "<loc>"))`. -/
  | mergeMissing (name : String) (loc : String)
  /-- The statement `return goa.MergeErrors(err, goa.MissingFieldError("<name>", "<loc>"))`. -/
  | returnMergeMissing (name : String) (loc : String)
  /-- The code of a conversion template (`type_conversion`, `slice_conversion`, ...)
  rendered for the variable `v`. -/
  | convert (template : String) (v : String)
  /-- Go code supplied by the derived data (`ValidateRef`, `Validate`). -/
  | code (snippet : String)
  /-- The statement `return nil, goa.MissingPayloadError()`. -/
  | returnMissingPayload
  /-- The statement `return nil, goa.DecodePayloadError(err.Error())`. -/
  | returnDecodePayloadError
  /-- The statement `return nil, err`. -/
  | returnErr
  /-- The statement `return <expr>, nil`. -/
  | returnPayload (expr : String)
  /-- The statement `if <cond> { <body> }`. -/
  | ifThen (c : DecCond) (body : List DecStmt)
  /-- The block `{ <body> }`. -/
  | block (body : List DecStmt)
deriving Repr

/-- Modelled from the spec: the field `ElemType` of `design.Array` and `design.Map`;
other types have no such field and the template fails on it (`none`). -/
def DataType.ElemType : DataType → Option DataType
  | .array elem => some elem
  | .map _ elem => some elem
  | _ => none

/-- The conversion template the `Map` and `MapQueryParams` branches pick from
`.Type.ElemType.Type.Name` and `.Type.ElemType.Type.ElemType.Type.Name`. -/
def mapConversion (t : DataType) : Option String := do
  let elem ← t.ElemType
  if elem.Name = "array" then do
    let inner ← elem.ElemType
    if inner.Name = "string" then pure "map_key_conversion"
    else pure "map_slice_conversion"
  else pure "map_conversion"

/-- The template test `or (eq .Type.Name "string") (eq .Type.Name "any")`. -/
def isStringOrAny (t : DataType) : Bool :=
  t.Name == "string" || t.Name == "any"

/-- The code rendered for `{{ if .Validate }}{{ .Validate }}{{ end }}`. -/
def renderValidate (validate : String) : List DecStmt :=
  if validate ≠ "" then [.code validate] else []

/-- A conversion, enclosed in `if <present> { ... }` when the parameter is not
required (`{{ if not .Required }}`). -/
def renderConversion (required : Bool) (present : DecCond) (template v : String) :
    List DecStmt :=
  if !required then [.ifThen present [.convert template v]]
  else [.convert template v]

/-- What `requestDecoderT` renders for one path parameter. -/
def renderPathParam (p : ParamData) : List DecStmt :=
  (if isStringOrAny p.Type_ then
    [.read p.VarName (.pathVar p.Name)]
  else
    [.block [.read (p.VarName ++ "Raw") (.pathVar p.Name),
             .convert "path_conversion" p.VarName]]) ++
  renderValidate p.Validate

/-- What `requestDecoderT` renders for one query string parameter: the chain of
`{{ if }} ... {{ else if }}` over the shape of the parameter, then its validation. The
branches `.Map` and `.MapQueryParams` have the same text and are one case here. The
rendering fails (`none`) when a map branch meets a type without element type. -/
def renderQueryParam (p : ParamData) : Option (List DecStmt) := do
  let raw := p.VarName ++ "Raw"
  let stmts : List DecStmt ←
    if isStringOrAny p.Type_ && p.Required then
      pure [.read p.VarName (.queryGet p.Name),
            .ifThen (.strEmpty p.VarName) [.mergeMissing p.Name "query string"]]
    else if isStringOrAny p.Type_ then
      pure [.read raw (.queryGet p.Name),
            .ifThen (.strNotEmpty raw)
              [.assignRaw p.VarName (p.Type_.Name == "string" && p.Pointer)]]
    else if p.StringSlice then
      pure ([.read p.VarName (.queryValues p.Name)] ++
            (if p.Required then
              [.ifThen (.isNil p.VarName) [.mergeMissing p.Name "query string"]]
             else []))
    else if p.Slice then
      pure [.block ([.read raw (.queryValues p.Name)] ++
            (if p.Required then
              [.ifThen (.isNil raw) [.returnMergeMissing p.Name "query string"]]
             else []) ++
            renderConversion p.Required (.notNil raw) "slice_conversion" p.VarName)]
    else if p.MapStringSlice then
      pure ([.read p.VarName .query] ++
            (if p.Required then
              [.ifThen (.lenZero p.VarName) [.mergeMissing p.Name "query string"]]
             else []))
    else if p.Map || p.MapQueryParams then do
      let template ← mapConversion p.Type_
      pure [.block ([.read raw .query] ++
            (if p.Required then
              [.ifThen (.lenZero raw) [.mergeMissing p.Name "query string"]]
             else []) ++
            renderConversion p.Required (.lenNotZero raw) template p.VarName)]
    else
      pure [.block ([.read raw (.queryGet p.Name)] ++
            (if p.Required then
              [.ifThen (.strEmpty raw) [.mergeMissing p.Name "query string"]]
             else []) ++
            renderConversion p.Required (.strNotEmpty raw) "type_conversion" p.VarName)]
  pure (stmts ++ renderValidate p.Validate)

/-- What `requestDecoderT` renders for one request header. -/
def renderHeader (h : HeaderData) : List DecStmt :=
  let raw := h.VarName ++ "Raw"
  (if isStringOrAny h.Type_ && h.Required then
    [.read h.VarName (.headerGet h.Name),
     .ifThen (.strEmpty h.VarName) [.mergeMissing h.Name "header"]]
  else if isStringOrAny h.Type_ then
    [.read raw (.headerGet h.Name),
     .ifThen (.strNotEmpty raw)
       [.assignRaw h.VarName (h.Type_.Name == "string" && h.Pointer)]]
  else if h.StringSlice then
    [.read h.VarName (.headerValues h.CanonicalName)] ++
    (if h.Required then
      [.ifThen (.isNil h.VarName) [.mergeMissing h.Name "header"]]
     else [])
  else if h.Slice then
    [.block ([.read raw (.headerValues h.CanonicalName)] ++
      (if h.Required then
        [.ifThen (.isNil raw) [.mergeMissing h.Name "header"]]
       else []) ++
      renderConversion h.Required (.notNil raw) "slice_conversion" h.VarName)]
  else
    [.block ([.read raw (.headerGet h.Name)] ++
      (if h.Required then
        [.ifThen (.strEmpty raw) [.mergeMissing h.Name "header"]]
       else []) ++
      renderConversion h.Required (.strNotEmpty raw) "type_conversion" h.VarName)]) ++
  renderValidate h.Validate

/-- The decoding of the request body `requestDecoderT` renders: of the multipart payload
when the endpoint has a multipart decoder, else of the server body type with its
validation, else nothing. -/
def renderBody (e : EndpointData) : List DecStmt :=
  if e.MultipartRequestDecoder.isSome then
    [.varBody e.Payload.Ref, .decodeBody,
     .ifThen .errNotNil [.returnDecodePayloadError]]
  else
    match e.Payload.Request.ServerBody with
    | some body =>
      [.varBody body.VarName, .decodeBody,
       .ifThen .errNotNil
         [.ifThen .errIsEOF [.returnMissingPayload], .returnDecodePayloadError]] ++
      (if body.ValidateRef ≠ "" then
        [.code body.ValidateRef, .ifThen .errNotNil [.returnErr]]
       else [])
    | none => []

/-- The final `return` of the decoder. -/
def renderReturn (e : EndpointData) : DecStmt :=
  if e.MultipartRequestDecoder.isSome then .returnPayload "body"
  else
    match e.Payload.Request.PayloadInit with
    | some init =>
      .returnPayload (init.Name ++ "(" ++
        String.join (init.ServerArgs.map (fun a => a.Ref ++ ",")) ++ ")")
    | none =>
      if e.Payload.DecoderReturnValue ≠ "" then .returnPayload e.Payload.DecoderReturnValue
      else .returnPayload "body"

/-- The body of the function literal `requestDecoderT` renders for an endpoint: the body
decoding, then (when there is a parameter) the variable block and the code of the path
parameters, the query string parameters and the headers, then the check of `err` when
`MustValidate`, then the return. -/
def requestDecoderT (e : EndpointData) : Option (List DecStmt) := do
  let req := e.Payload.Request
  let params : List DecStmt ←
    if req.PathParams ≠ [] ∨ req.QueryParams ≠ [] ∨ req.Headers ≠ [] then do
      let query ← req.QueryParams.mapM renderQueryParam
      pure ([DecStmt.varParams
              (req.PathParams.map (fun p => (p.VarName, p.TypeRef)) ++
               req.QueryParams.map (fun p => (p.VarName, p.TypeRef)) ++
               req.Headers.map (fun h => (h.VarName, h.TypeRef)))
              (req.ServerBody.isNone && req.MustValidate)
              (req.PathParams ≠ [])] ++
            req.PathParams.flatMap renderPathParam ++
            query.flatten ++
            req.Headers.flatMap renderHeader)
    else pure []
  pure (renderBody e ++ params ++
        (if req.MustValidate then [.ifThen .errNotNil [.returnErr]] else []) ++
        [renderReturn e])

/-- An error value of the generated decoder. -/
inductive GoError where
  /-- The error `io.EOF`: the body decoder met the end of input at once. -/
  | eof
  /-- Another error of the body decoder, with its message. -/
  | decode (msg : String)
  /-- The error `goa.MissingFieldError("<name>", "<loc>")`. -/
  | missingField (name : String) (loc : String)
  /-- An error of a validation or of a conversion, with its message. -/
  | invalid (msg : String)
  /-- The error `goa.InvalidFieldTypeError("<name>", <raw>, "<kind>")`. -/
  | invalidFieldType (name : String) (raw : String) (kind : String)
deriving DecidableEq, Repr

/-- The value of a variable of the generated decoder. -/
inductive GoVal where
  /-- A string. -/
  | str (s : String)
  /-- A slice of strings; `none` is the nil slice. -/
  | strs (v : Option (List String))
  /-- A multi-map `url.Values`. -/
  | values (m : List (String × List String))
  /-- A converted value of a primitive type. -/
  | scalar (v : Scalar)
  /-- A pointer to a value of a primitive type (`&v`). -/
  | addr (v : Scalar)
  /-- A slice of converted values. -/
  | scalars (vs : List Scalar)
deriving DecidableEq, Repr

/-- The request a decoder runs on and what the code outside the template does on it: the
query string and the headers as multi-maps (header keys in canonical form), the path
variables of the muxer, the error of `decoder(r).Decode(&body)` (`none` is nil),
`textproto.CanonicalMIMEHeaderKey`, the errors that a validation snippet merges into
`err`, and what the code of a conversion template does for a variable on the value of its
raw variable: the value it assigns (`none` leaves the variable as it is) and the errors
it merges into `err`. -/
structure World where
  query : List (String × List String) := []
  header : List (String × List String) := []
  path : List (String × String) := []
  decode : Option GoError := none
  canonical : String → String := fun k => k
  snippet : String → List GoError := fun _ => []
  conversion : String → String → Option GoVal → Option GoVal × List GoError :=
    fun _ _ _ => (none, [])

/-- The state of a running decoder: the variable `err` as the list of the errors merged
into it (`[]` is nil) and the other variables. -/
structure DecState where
  err : List GoError := []
  vars : String → Option GoVal := fun _ => none

/-- Modelled from the spec: `goa.MergeErrors(err, e)` accumulates the error `e` into
`err` (the function is declared outside the sources). -/
def MergeErrors (err : List GoError) (e : List GoError) : List GoError :=
  err ++ e

/-- The value a generated decoder returns. -/
inductive DecReturn where
  /-- The statement `return <expr>, nil`. -/
  | payload (expr : String)
  /-- The statement `return nil, goa.MissingPayloadError()`. -/
  | missingPayload
  /-- The statement `return nil, goa.DecodePayloadError(err.Error())`, with the error
  whose message it carries. -/
  | decodePayloadError (err : List GoError)
  /-- A return of the accumulated error. -/
  | error (err : List GoError)
deriving DecidableEq, Repr

/-- What an executed decoder did, as far as the outside sees it. -/
inductive DecEvent where
  /-- The body was decoded. -/
  | decodeBody
  /-- The request was read through `src`. -/
  | read (src : Source)
  /-- A snippet of the derived data ran. -/
  | code (snippet : String)
  /-- A conversion ran for the variable `v`. -/
  | convert (template : String) (v : String)
deriving DecidableEq, Repr

/-- How the execution of a statement ends: it goes on in a state, or the decoder
returns. -/
inductive Flow where
  | next (st : DecState)
  | ret (r : DecReturn)

/-- The value of a request expression: `Get` gives the first value of the key or the
empty string, indexing gives the values of the key or nil. -/
def evalSource (w : World) : Source → GoVal
  | .queryGet name => .str (((w.query.lookup name).bind List.head?).getD "")
  | .queryValues name => .strs (w.query.lookup name)
  | .query => .values w.query
  | .headerGet name => .str (((w.header.lookup (w.canonical name)).bind List.head?).getD "")
  | .headerValues canonical => .strs (w.header.lookup canonical)
  | .pathVar name => .str ((w.path.lookup name).getD "")

/-- The value of a condition in a state. -/
def evalCond (st : DecState) : DecCond → Bool
  | .errNotNil => st.err != []
  | .errIsEOF => st.err == [.eof]
  | .strEmpty v => st.vars v == some (.str "")
  | .strNotEmpty v => st.vars v != some (.str "")
  | .isNil v => st.vars v == some (.strs none)
  | .notNil v => st.vars v != some (.strs none)
  | .lenZero v => st.vars v == some (.values [])
  | .lenNotZero v => st.vars v != some (.values [])

/-- The variables after `<v> = <v>Raw` (with `&` when `addr`): the string of the raw
variable, or a pointer to it. -/
def assignRawVars (st : DecState) (v : String) (addr : Bool) : String → Option GoVal :=
  fun x =>
    if x = v then
      match st.vars (v ++ "Raw") with
      | some (.str s) => some (if addr then .addr (.str s) else .str s)
      | other => other
    else st.vars x

/-- The variables after the code of a conversion template assigned `val` to `v` (`none`:
no assignment). -/
def convertVars (st : DecState) (v : String) (val : Option GoVal) : String → Option GoVal :=
  fun x =>
    if x = v then
      match val with
      | some val => some val
      | none => st.vars x
    else st.vars x

mutual
/-- Execution of one statement of a generated decoder: its events and how it ends. -/
def execDecStmt (w : World) : DecStmt → DecState → List DecEvent × Flow
  | .varBody _, st => ([], .next st)
  | .varParams _ _ _, st => ([], .next st)
  | .decodeBody, st => ([.decodeBody], .next { st with err := w.decode.toList })
  | .read v src, st =>
    ([.read src],
     .next { st with vars := fun x => if x = v then some (evalSource w src) else st.vars x })
  | .assignRaw v addr, st => ([], .next { st with vars := assignRawVars st v addr })
  | .mergeMissing name loc, st =>
    ([], .next { st with err := MergeErrors st.err [.missingField name loc] })
  | .returnMergeMissing name loc, st =>
    ([], .ret (.error (MergeErrors st.err [.missingField name loc])))
  | .convert template v, st =>
    ([.convert template v],
     .next { err := MergeErrors st.err (w.conversion template v (st.vars (v ++ "Raw"))).2,
             vars := convertVars st v (w.conversion template v (st.vars (v ++ "Raw"))).1 })
  | .code snippet, st =>
    ([.code snippet], .next { st with err := MergeErrors st.err (w.snippet snippet) })
  | .returnMissingPayload, _ => ([], .ret .missingPayload)
  | .returnDecodePayloadError, st => ([], .ret (.decodePayloadError st.err))
  | .returnErr, st => ([], .ret (.error st.err))
  | .returnPayload expr, _ => ([], .ret (.payload expr))
  | .ifThen c body, st => if evalCond st c then execDec w body st else ([], .next st)
  | .block body, st => execDec w body st
/-- Execution of a statement list: in order, up to the first statement that returns. -/
def execDec (w : World) : List DecStmt → DecState → List DecEvent × Flow
  | [], st => ([], .next st)
  | s :: rest, st =>
    match execDecStmt w s st with
    | (ev, .ret r) => (ev, .ret r)
    | (ev, .next st2) =>
      match execDec w rest st2 with
      | (ev2, flow) => (ev ++ ev2, flow)
end

/-- The run of a rendered decoder on a request: the events and the returned value
(`none` when the rendering fails or the code runs off its end). -/
def runDecoder (w : World) (e : EndpointData) : Option (List DecEvent × DecReturn) :=
  match requestDecoderT e with
  | none => none
  | some stmts =>
    match execDec w stmts {} with
    | (ev, .ret r) => some (ev, r)
    | (_, .next _) => none

/-- The name of the function a call of a handler goes to. -/
def HandlerCall.callee {P R E : Type} : HandlerCall P R E → String
  | .decodeRequest => "decodeRequest"
  | .endpoint _ => "endpoint"
  | .encodeResponse _ => "encodeResponse"
  | .encodeError _ _ => "encodeError"

/-- The names of the sections of a file, in order. -/
def File.sectionNames (f : File) : List String :=
  f.SectionTemplates.map (fun s => s.Name)

/-- The sections of a file after its first one (the header), each as its name and the
data its template is executed on. -/
def File.body (f : File) : List (String × TemplateData) :=
  f.SectionTemplates.tail.map (fun s => (s.Name, s.Data))

/-! ## `serverStructT`, `serverInitT`, `serverMountT`, `fileServerT` -/

/-- An entry `{"<Method>", "<Verb>", "<Pattern>"}` of the `Mounts` list. -/
structure MountPoint where
  Method : String
  Verb : String
  Pattern : String
deriving DecidableEq, Repr

/-- The struct type `serverStructT` renders: the field `Mounts` with its type and the
fields of type `http.Handler`. -/
structure ServerStructCode where
  MountsType : String
  Handlers : List String
deriving DecidableEq, Repr

/-- What `serverStructT` renders: `Mounts []*<MountPointStruct>`, then one line
`<VarName> http.Handler` per endpoint of the range. -/
def serverStructT (d : ServiceData) : ServerStructCode :=
  { MountsType := "[]*" ++ d.MountPointStruct,
    Handlers := d.Endpoints.foldl (fun fields e => fields ++ [e.Method.VarName]) [] }

/-- The composite literal `serverInitT` renders: the entries of `Mounts` and, for each
handler field, the constructor call with the decoder it is given. -/
structure ServerInitCode where
  Mounts : List MountPoint
  Handlers : List (String × String × String)
deriving DecidableEq, Repr

/-- What `serverInitT` renders. `Mounts`: the range over the endpoints with the range
over the routes of each inside, then the range over the file servers with the range over
the request paths of each inside. Handlers: `<VarName>: <HandlerInit>(e.<VarName>, mux,
<decoder>, enc)`, the decoder being `<InitName>(<VarName>)` of the multipart decoder when
there is one and `dec` otherwise. -/
def serverInitT (d : ServiceData) : ServerInitCode :=
  let mounts : List MountPoint := d.Endpoints.foldl (fun mounts e =>
    e.Routes.foldl (fun mounts r =>
      mounts ++ [{ Method := e.Method.VarName, Verb := r.Verb, Pattern := r.Path }])
      mounts) []
  let mounts := d.FileServers.foldl (fun mounts fs =>
    fs.RequestPaths.foldl (fun mounts path =>
      mounts ++ [{ Method := fs.FilePath, Verb := "GET", Pattern := path }]) mounts) mounts
  { Mounts := mounts,
    Handlers := d.Endpoints.map (fun e =>
      (e.Method.VarName, e.HandlerInit,
       match e.MultipartRequestDecoder with
       | some m => m.InitName ++ "(" ++ m.VarName ++ ")"
       | none => "dec")) }

/-- A statement of the mount function `serverMountT` renders. -/
inductive MountStmt where
  /-- The call `<MountHandler>(mux, h.<VarName>)`. -/
  | endpoint (mountHandler : String) (field : String)
  /-- The call `<MountHandler>(mux, http.FileServer(http.Dir(<quoted path>)))`. -/
  | dir (mountHandler : String) (quotedPath : String)
  /-- The call `<MountHandler>(mux, http.HandlerFunc(...))` whose function calls
  `http.ServeFile(w, r, <quoted path>)`. -/
  | file (mountHandler : String) (quotedPath : String)
deriving DecidableEq, Repr

/-- The statement refers to the parameter `h`. -/
def MountStmt.usesH : MountStmt → Bool
  | .endpoint _ _ => true
  | .dir _ _ => false
  | .file _ _ => false

/-- The mount function `serverMountT` renders: its parameters and its statements. -/
structure MountServerCode where
  Params : List String
  Body : List MountStmt
deriving DecidableEq, Repr

/-- What `serverMountT` renders; `quote` is `printf "%q"`. The parameter `h` is rendered
under `{{ if .Endpoints }}`. -/
def serverMountT (quote : String → String) (d : ServiceData) : MountServerCode :=
  let params := ["mux goahttp.Muxer"] ++
    (if d.Endpoints ≠ [] then ["h *" ++ d.ServerStruct] else [])
  let body : List MountStmt := d.Endpoints.foldl (fun body e =>
    body ++ [.endpoint e.MountHandler e.Method.VarName]) []
  let body := d.FileServers.foldl (fun body fs =>
    if fs.IsDir then body ++ [.dir fs.MountHandler (quote fs.FilePath)]
    else body ++ [.file fs.MountHandler (quote fs.FilePath)]) body
  { Params := params, Body := body }

/-- A registration `mux.Handle("<Verb>", "<Pattern>", ...)`. -/
structure Registration where
  Verb : String
  Pattern : String
deriving DecidableEq, Repr

/-- The registrations in the function `fileServerT` renders for a file server: one call
`mux.Handle("GET", "<path>", h.ServeHTTP)` per request path of the range. -/
def fileServerT (fs : FileServerData) : List Registration :=
  fs.RequestPaths.foldl (fun regs path => regs ++ [{ Verb := "GET", Pattern := path }]) []

/-! ## `printValue` -/

/-- What `reflect.ValueOf(v)` offers to `Len` and `Index`: the elements of a slice, the
bytes of a string; on any other value `Len` panics (`none`). -/
def Value.elems : Value → Option (List Value)
  | .list vs => some vs
  | .str s => some (s.toUTF8.toList.map (fun b => Value.int b.toNat))
  | _ => none

/-- The loop of `printValue`: `elems[i] = printValue(elem type, val.Index(i))` for `i`
from the current index on; a panic of a call (`none`) ends it. -/
def printLoop (f : Value → Option String) :
    List Value → Nat → List String → Option (List String)
  | [], _, elems => some elems
  | v :: vs, i, elems =>
    match f v with
    | none => none
    | some s => printLoop f vs (i + 1) (elems.set i s)

/-- The function `printValue`: the Go code of a literal string holding the value; `none`
is a panic. `sprintf` is `fmt.Sprintf("%v", v)`. The type switch has the cases
`*design.Array` and `design.Primitive`; every other type panics. -/
def printValue (sprintf : Value → String) : DataType → Value → Option String
  | .array elem, v =>
    match v.elems with
    | none => none
    | some vs =>
      match printLoop (printValue sprintf elem) vs 0 (List.replicate vs.length "") with
      | none => none
      | some elems => some (String.intercalate ", " elems)
  | .primitive _, v => some (sprintf v)
  | _, _ => none

/-- The results of a list of calls, when none of them panics. -/
def allSome {α : Type} : List (Option α) → Option (List α)
  | [] => some []
  | none :: _ => none
  | some x :: rest =>
    match allSome rest with
    | none => none
    | some xs => some (x :: xs)

/-- The reference definition of `printValue` in the words of the specification: the
default formatting for a primitive; for an array the results for the elements, in order,
joined with a comma and a space; a panic for every other type. -/
def printValueRef (sprintf : Value → String) : DataType → Value → Option String
  | .primitive _, v => some (sprintf v)
  | .array elem, v =>
    match v.elems with
    | none => none
    | some vs =>
      (allSome (vs.map (printValueRef sprintf elem))).map (String.intercalate ", ")
  | _, _ => none

/-- Evaluation of `printValue` reaches a type that is neither a primitive nor an array:
the type itself, or the element type for some element of an array. -/
def reachesUnsupported : DataType → Value → Bool
  | .primitive _, _ => false
  | .array elem, v =>
    match v.elems with
    | none => false
    | some vs => vs.any (reachesUnsupported elem)
  | _, _ => true

/-- The value is a sequence wherever `printValue` meets an array type (a default value
of an array attribute is a slice). -/
def sequenceAt : DataType → Value → Bool
  | .array elem, v =>
    match v.elems with
    | none => false
    | some vs => vs.all (sequenceAt elem)
  | _, _ => true

/-! ## `header_conversion` and the `response` template -/

/-- The expression `header_conversion` renders for the string of a header value; `deref`
is the `*` rendered under `{{ if not .Required }}`. -/
inductive FormatExpr where
  /-- The call `strconv.FormatBool(<target>)`. -/
  | formatBool (deref : Bool)
  /-- The call `strconv.Itoa(<target>)`. -/
  | itoa (deref : Bool)
  /-- The call `strconv.FormatInt(<target>, 10)`, the target inside `int64(...)` when
  `cast`. -/
  | formatInt (cast : Bool) (deref : Bool)
  /-- The call `strconv.FormatUint(<target>, 10)`, the target inside `uint64(...)` when
  `cast`. -/
  | formatUint (cast : Bool) (deref : Bool)
  /-- The call `strconv.FormatFloat(<target>, 'f', -1, <bitSize>)`, the target inside
  `float64(...)` when `cast`. -/
  | formatFloat (cast : Bool) (deref : Bool) (bitSize : Nat)
  /-- The target itself (a string). -/
  | target
  /-- The conversion `string(<target>)`. -/
  | stringOf
  /-- The call `fmt.Sprintf("%v", <target>)`. -/
  | sprintf
  /-- The call `strings.Join(<target>, ", ")`. -/
  | join
  /-- The loop converting each element `e` with `elem`, then `strings.Join` of the
  results with `", "`. -/
  | joinConverted (elem : FormatExpr)
  /-- The comment `// unsupported type <name> for header field ...`. -/
  | unsupported (typeName : String)
deriving DecidableEq, Repr

/-- The scalar cases of `header_conversion`, by type name; the name `array` on a type
without element type makes the template fail (`none`). -/
def scalarFormat (typeName : String) (required : Bool) : Option FormatExpr :=
  if typeName = "boolean" then some (.formatBool (!required))
  else if typeName = "int" then some (.itoa (!required))
  else if typeName = "int32" then some (.formatInt true (!required))
  else if typeName = "int64" then some (.formatInt false (!required))
  else if typeName = "uint" then some (.formatUint true (!required))
  else if typeName = "uint32" then some (.formatUint true (!required))
  else if typeName = "uint64" then some (.formatUint false (!required))
  else if typeName = "float32" then some (.formatFloat true (!required) 32)
  else if typeName = "float64" then some (.formatFloat false (!required) 64)
  else if typeName = "string" then some .target
  else if typeName = "bytes" then some .stringOf
  else if typeName = "any" then some .sprintf
  else if typeName = "array" then none
  else some (.unsupported typeName)

/-- The template `header_conversion` on the data `headerConversionData type varName
required target`: the chain over `.Type.Name`; for an array, `strings.Join` when the
elements are strings and else the template itself on the element type with `required`
true. -/
def header_conversion : DataType → Bool → Option FormatExpr
  | .array elem, _ =>
    if elem.Name = "string" then some .join
    else (header_conversion elem true).map .joinConverted
  | t, required => scalarFormat t.Name required

/-- The rendered expression dereferences its target. -/
def FormatExpr.derefs : FormatExpr → Bool
  | .formatBool deref => deref
  | .itoa deref => deref
  | .formatInt _ deref => deref
  | .formatUint _ deref => deref
  | .formatFloat _ deref _ => deref
  | _ => false

/-- The statements the `response` template renders. -/
inductive RespStmt where
  /-- The statement `enc := encoder(ctx, w)`. -/
  | newEncoder
  /-- The statement `body := <Init>(<args>)`. -/
  | bodyInit (call : String)
  /-- The statement `body := res`. -/
  | bodyRes
  /-- The statement `w.Header().Set("<name>", res.<field>)`, with `*` before `res` when
  `deref`. -/
  | setField (name : String) (deref : Bool) (field : String)
  /-- The statement `val := res.<field>`. -/
  | valAssign (field : String)
  /-- The code of `header_conversion` assigning `<varName> := <expr>` from `val`; `none`
  when that template fails. -/
  | convert (varName : String) (expr : FormatExpr)
  /-- The statement `w.Header().Set("<name>", <varName>)`. -/
  | setVar (name : String) (varName : String)
  /-- The statement `w.Header().Set("<name>", "<text>")` of the default value. -/
  | setDefault (name : String) (text : String)
  /-- The statement `if res.<field> != nil { <body> }`. -/
  | ifNotNil (field : String) (body : List RespStmt)
  /-- The statement `if res.<field> != nil { <body> } else { <orElse> }`. -/
  | ifNotNilElse (field : String) (body : List RespStmt) (orElse : List RespStmt)
  /-- The statement `if res.<field> == nil { <body> }`. -/
  | ifNil (field : String) (body : List RespStmt)
  /-- The statement `w.WriteHeader(<status>)`. -/
  | writeHeader (status : String)
deriving Repr

/-- The emptiness test of the template engine on a value: false, 0, nil, the empty string
and the empty slice are empty. -/
def Value.truthy : Value → Bool
  | .nil => false
  | .bool b => b
  | .int i => i != 0
  | .str s => s != ""
  | .list vs => !vs.isEmpty

/-- The header assignment of the `response` template: the direct `Set` for a string, else
`val`, its conversion into `<VarName>s` and the `Set` of that variable. The rendering
fails (`none`) when `header_conversion` does. -/
def renderHeaderAssign (h : HeaderData) : Option (List RespStmt) :=
  if h.Type_.Name = "string" then
    some [.setField h.Name (!h.Required) h.FieldName]
  else
    match header_conversion h.Type_ h.Required with
    | none => none
    | some expr =>
      some [.valAssign h.FieldName, .convert (h.VarName ++ "s") expr,
            .setVar h.Name (h.VarName ++ "s")]

/-- What the `response` template renders for one header of a response whose tag name is
`tagName` (`$.TagName`): with `$initDef := and (or .Pointer .Slice) .DefaultValue (not
$.TagName)` and `$checkNil := and (or (not .Required) $initDef) (not $.TagName)`, the
assignment inside the nil guard when `$checkNil`, followed by the default branch when
`$initDef`. `printValue` may panic (`none`). -/
def renderResponseHeader (sprintf : Value → String) (tagName : String) (h : HeaderData) :
    Option (List RespStmt) :=
  let initDef := (h.Pointer || h.Slice) && h.DefaultValue.truthy && (tagName == "")
  let checkNil := (!h.Required || initDef) && (tagName == "")
  match renderHeaderAssign h with
  | none => none
  | some assign =>
    if initDef then
      match printValue sprintf h.Type_ h.DefaultValue with
      | none => none
      | some text =>
        if checkNil then some [.ifNotNilElse h.FieldName assign [.setDefault h.Name text]]
        else some (assign ++ [.ifNil h.FieldName [.setDefault h.Name text]])
    else if checkNil then some [.ifNotNil h.FieldName assign]
    else some assign

/-- The range over the headers of a response. -/
def renderResponseHeaders (sprintf : Value → String) (tagName : String) :
    List HeaderData → Option (List RespStmt)
  | [] => some []
  | h :: hs =>
    match renderResponseHeader sprintf tagName h, renderResponseHeaders sprintf tagName hs with
    | some a, some b => some (a ++ b)
    | _, _ => none

/-- The start of the `response` template: under `{{ if .ServerBody }}` the encoder, then
the body, built by the constructor of the body type when it has one and `res` itself
otherwise. -/
def renderResponseBody (r : ResponseData) : List RespStmt :=
  match r.ServerBody with
  | some b =>
    [.newEncoder,
     match b.Init with
     | some init =>
       .bodyInit (init.Name ++ "(" ++
         String.join (init.ServerArgs.map (fun a => a.Ref ++ ", ")) ++ ")")
     | none => .bodyRes]
  | none => []

/-- The template `response` on a response: the encoder and the body when the response has
a body, the headers, then the status code. -/
def responseT (sprintf : Value → String) (r : ResponseData) : Option (List RespStmt) :=
  match renderResponseHeaders sprintf r.TagName r.Headers with
  | none => none
  | some headers => some (renderResponseBody r ++ headers ++ [.writeHeader r.StatusCode])

/-- The text a header is set to by an executed response block. -/
inductive HeaderText where
  /-- The string held by a result field. -/
  | field (value : String)
  /-- The conversion of the value of a result field. -/
  | converted (field : String)
  /-- The text of the default value. -/
  | default (text : String)
deriving DecidableEq, Repr

/-- What an executed response block did to the response writer. -/
inductive RespEvent where
  | setHeader (name : String) (text : HeaderText)
  | status (code : String)
deriving DecidableEq, Repr

mutual
/-- Execution of one statement of a response block on the result `res`, `val` being the
field last assigned to the variable `val`: the events and the new `val`, or `none` when
the statement dereferences a nil pointer (a panic). -/
def execRespStmt (res : Result) : RespStmt → Option String →
    Option (List RespEvent × Option String)
  | .newEncoder, val => some ([], val)
  | .bodyInit _, val => some ([], val)
  | .bodyRes, val => some ([], val)
  | .setField name deref field, val =>
    match res field with
    | some s => some ([.setHeader name (.field s)], val)
    | none => if deref then none else some ([.setHeader name (.field "")], val)
  | .valAssign field, _ => some ([], some field)
  | .convert _ expr, val =>
    match val with
    | some field => if expr.derefs && (res field).isNone then none else some ([], val)
    | none => some ([], val)
  | .setVar name _, val => some ([.setHeader name (.converted (val.getD ""))], val)
  | .setDefault name text, val => some ([.setHeader name (.default text)], val)
  | .ifNotNil field body, val =>
    if (res field).isSome then execResp res body val else some ([], val)
  | .ifNotNilElse field body orElse, val =>
    if (res field).isSome then execResp res body val else execResp res orElse val
  | .ifNil field body, val =>
    if (res field).isNone then execResp res body val else some ([], val)
  | .writeHeader status, val => some ([.status status], val)
/-- Execution of the statements of a response block, in order. -/
def execResp (res : Result) : List RespStmt → Option String →
    Option (List RespEvent × Option String)
  | [], val => some ([], val)
  | s :: rest, val =>
    match execRespStmt res s val with
    | none => none
    | some (ev, val2) =>
      match execResp res rest val2 with
      | none => none
      | some (ev2, val3) => some (ev ++ ev2, val3)
end

/-- The template variable `$initDef` of the `response` template for a header:
`and (or .Pointer .Slice) .DefaultValue (not $.TagName)`. -/
def initDef (tagName : String) (h : HeaderData) : Bool :=
  (h.Pointer || h.Slice) && h.DefaultValue.truthy && (tagName == "")

/-- The template variable `$checkNil`: `and (or (not .Required) $initDef) (not
$.TagName)`. -/
def checkNil (tagName : String) (h : HeaderData) : Bool :=
  (!h.Required || initDef tagName h) && (tagName == "")

/-- A brace of the rendered text. -/
inductive Brace where
  | opening
  | closing
deriving DecidableEq, Repr

/-- The braces the `response` template itself writes around the assignment of one header,
in the order of the text: `if res.<Field> != nil {` under `$checkNil`; under `$initDef`
either `} else {` (when `$checkNil`) or `if res.<Field> == nil {`; and the closing `}`
under `or $checkNil $initDef`. -/
def headerBraces (tagName : String) (h : HeaderData) : List Brace :=
  (if checkNil tagName h then [Brace.opening] else []) ++
  (if initDef tagName h then
    (if checkNil tagName h then [Brace.closing, Brace.opening] else [Brace.opening])
   else []) ++
  (if checkNil tagName h || initDef tagName h then [Brace.closing] else [])

/-- The braces are balanced from the nesting depth `depth`: no closing brace without an
open block, and every block closed at the end. -/
def balanced : List Brace → Nat → Bool
  | [], depth => depth == 0
  | .opening :: rest, depth => balanced rest (depth + 1)
  | .closing :: rest, depth =>
    match depth with
    | 0 => false
    | d + 1 => balanced rest d

/-- The statement is the stand-alone form `if res.<Field> == nil { ... }`. -/
def RespStmt.isIfNil : RespStmt → Bool
  | .ifNil _ _ => true
  | _ => false

/-! ## `type_conversion`, `slice_item_conversion`, `path_conversion` -/

/-- The parse functions of `strconv` the conversion templates call. -/
inductive ParseFn where
  | ParseInt
  | ParseUint
  | ParseFloat
  | ParseBool
deriving DecidableEq, Repr

/-- The bit size argument of a rendered parse call: `strconv.IntSize` or a literal. -/
inductive BitSize where
  | IntSize
  | bits (n : Nat)
deriving DecidableEq, Repr

/-- The number a bit size argument stands for on a platform. -/
def BitSize.value (intSize : Nat) : BitSize → Nat
  | .IntSize => intSize
  | .bits n => n

/-- The code `type_conversion` and `slice_item_conversion` render for one type name. -/
inductive Conversion where
  /-- The assignment of `[]byte(<raw>)`. -/
  | bytes
  /-- The assignment of the raw string itself. -/
  | raw
  /-- The call `v, err2 := strconv.<fn>(<raw>, <base>, <bitSize>)` (the arguments the
  call has), the merge of `goa.InvalidFieldTypeError(<name>, <raw>, "<kind>")` when
  `err2 != nil`, then the assignment of `v`: inside `<cast>(v)` when `cast` is a type,
  and of its address (`&v`, or `pv := <cast>(v)` and `&pv`) when `addr`. -/
  | parse (fn : ParseFn) (base : Option Nat) (bitSize : Option BitSize) (kind : String)
      (cast : Option Primitive) (addr : Bool)
  /-- The comment `// unsupported type <name> for var ...`. -/
  | unsupported (typeName : String)
deriving DecidableEq, Repr

/-- The template `type_conversion`: the chain over `.Type.Name`; `pointer` is the truth
of `.Pointer` in the template data. -/
def type_conversion (typeName : String) (pointer : Bool) : Conversion :=
  if typeName = "bytes" then .bytes
  else if typeName = "int" then
    .parse .ParseInt (some 10) (some .IntSize) "integer" (some .int) pointer
  else if typeName = "int32" then
    .parse .ParseInt (some 10) (some (.bits 32)) "integer" (some .int32) pointer
  else if typeName = "int64" then
    .parse .ParseInt (some 10) (some (.bits 64)) "integer" none pointer
  else if typeName = "uint" then
    .parse .ParseUint (some 10) (some .IntSize) "unsigned integer" (some .uint) pointer
  else if typeName = "uint32" then
    .parse .ParseUint (some 10) (some (.bits 32)) "unsigned integer" (some .uint32) pointer
  else if typeName = "uint64" then
    .parse .ParseUint (some 10) (some (.bits 64)) "unsigned integer" none pointer
  else if typeName = "float32" then
    .parse .ParseFloat none (some (.bits 32)) "float" (some .float32) pointer
  else if typeName = "float64" then
    .parse .ParseFloat none (some (.bits 64)) "float" none pointer
  else if typeName = "boolean" then
    .parse .ParseBool none none "boolean" none pointer
  else .unsupported typeName

/-- The template `slice_item_conversion`: the chain over `.Type.ElemType.Type.Name`,
storing into `<var>[i]`. -/
def slice_item_conversion (elemName : String) : Conversion :=
  if elemName = "string" then .raw
  else if elemName = "bytes" then .bytes
  else if elemName = "int" then
    .parse .ParseInt (some 10) (some .IntSize) "array of integers" (some .int) false
  else if elemName = "int32" then
    .parse .ParseInt (some 10) (some (.bits 32)) "array of integers" (some .int32) false
  else if elemName = "int64" then
    .parse .ParseInt (some 10) (some (.bits 64)) "array of integers" none false
  else if elemName = "uint" then
    .parse .ParseUint (some 10) (some .IntSize) "array of unsigned integers" (some .uint)
      false
  else if elemName = "uint32" then
    .parse .ParseUint (some 10) (some (.bits 32)) "array of unsigned integers"
      (some .int32) false
  else if elemName = "uint64" then
    .parse .ParseUint (some 10) (some (.bits 64)) "array of unsigned integers" none false
  else if elemName = "float32" then
    .parse .ParseFloat none (some (.bits 32)) "array of floats" (some .float32) false
  else if elemName = "float64" then
    .parse .ParseFloat none (some (.bits 64)) "array of floats" none false
  else if elemName = "boolean" then
    .parse .ParseBool none none "array of booleans" none false
  else if elemName = "any" then .raw
  else .unsupported elemName

/-- The Go type of the result of a parse function of `strconv`. -/
def ParseFn.resultType : ParseFn → Primitive
  | .ParseInt => .int64
  | .ParseUint => .uint64
  | .ParseFloat => .float64
  | .ParseBool => .boolean

/-- The parse call of a rendered conversion: function, base and bit size. -/
def Conversion.parseCall : Conversion → Option (ParseFn × Option Nat × Option BitSize)
  | .parse fn base bitSize _ _ _ => some (fn, base, bitSize)
  | _ => none

/-- The Go type of the value a rendered conversion assigns: the type of the cast, or
that of the parse result. -/
def Conversion.storedType : Conversion → Option Primitive
  | .bytes => some .bytes
  | .raw => some .string
  | .parse fn _ _ _ cast _ => some (cast.getD fn.resultType)
  | .unsupported _ => none

/-- The rendered conversion assigns the address of the converted value. -/
def Conversion.takesAddress : Conversion → Bool
  | .parse _ _ _ _ _ addr => addr
  | _ => false

/-- The value a rendered conversion computes from the raw string `input` and the errors
it merges, `reported` being the raw value the error carries; `none` for the code without
integer or boolean semantics here (floats, an unsupported type). -/
def Conversion.evalScalar (intSize : Nat) (name reported input : String) :
    Conversion → Option (Scalar × List GoError)
  | .bytes => some (.bytes input, [])
  | .raw => some (.str input, [])
  | .parse .ParseInt (some 10) (some bs) kind cast _ =>
    let r := ParseInt input (bs.value intSize)
    some (.int (cast.getD .int64)
            (match cast with
             | some t => wrapTo intSize t r.1
             | none => r.1),
          if r.2.isSome then [.invalidFieldType name reported kind] else [])
  | .parse .ParseUint (some 10) (some bs) kind cast _ =>
    let r := ParseUint input (bs.value intSize)
    some (.int (cast.getD .uint64)
            (match cast with
             | some t => wrapTo intSize t (r.1 : Int)
             | none => (r.1 : Int)),
          if r.2.isSome then [.invalidFieldType name reported kind] else [])
  | .parse .ParseBool none none kind none _ =>
    let r := ParseBool input
    some (.bool r.1, if r.2.isSome then [.invalidFieldType name reported kind] else [])
  | _ => none

/-- The assignment a rendered scalar conversion makes to its variable from the raw
string: the value, or its address. -/
def Conversion.assign (intSize : Nat) (name input : String) (c : Conversion) :
    Option GoVal × List GoError :=
  match c.evalScalar intSize name input input with
  | some (v, errs) => (some (if c.takesAddress then .addr v else .scalar v), errs)
  | none => (none, [])

/-- The loop `for i, rv := range <pieces>` over `slice_item_conversion`: the converted
elements in order and the errors merged. -/
def convertItems (intSize : Nat) (name reported : String) (c : Conversion) :
    List String → Option (List Scalar × List GoError)
  | [] => some ([], [])
  | piece :: rest =>
    match c.evalScalar intSize name reported piece, convertItems intSize name reported c rest with
    | some (v, errs), some (vs, errs2) => some (v :: vs, errs ++ errs2)
    | _, _ => none

/-- The code `path_conversion` renders. -/
inductive PathConversion where
  /-- The split `strings.Split(<raw>, ",")`, the slice made of the length of the pieces,
  and the loop converting each piece with `item`. -/
  | array (item : Conversion)
  /-- The code of `type_conversion`. -/
  | scalar (c : Conversion)
deriving DecidableEq, Repr

/-- The template `path_conversion`: the array rule when `.Type.Name` is `array` (the
template fails on a type without element type), else `type_conversion`. -/
def path_conversion (t : DataType) (pointer : Bool) : Option PathConversion :=
  if t.Name = "array" then
    t.ElemType.map (fun e => .array (slice_item_conversion e.Name))
  else some (.scalar (type_conversion t.Name pointer))

/-- The assignment the rendered `path_conversion` makes from the raw string. -/
def PathConversion.assign (intSize : Nat) (name input : String) :
    PathConversion → Option GoVal × List GoError
  | .scalar c => c.assign intSize name input
  | .array item =>
    match convertItems intSize name input item ((splitComma input.data).map String.mk) with
    | some (vs, errs) => (some (.scalars vs), errs)
    | none => (none, [])

/-- The value of a scalar the rendered expression of `header_conversion` computes;
`none` where the expression does not apply to the value (another type, floats, `any`). -/
def FormatExpr.formatScalar : FormatExpr → Scalar → Option String
  | .formatBool _, .bool b => some (FormatBool b)
  | .itoa _, .int .int v => some (FormatInt v)
  | .formatInt true _, .int .int32 v => some (FormatInt v)
  | .formatInt false _, .int .int64 v => some (FormatInt v)
  | .formatUint true _, .int .uint v => some (FormatUint v.toNat)
  | .formatUint true _, .int .uint32 v => some (FormatUint v.toNat)
  | .formatUint false _, .int .uint64 v => some (FormatUint v.toNat)
  | .target, .str s => some s
  | .stringOf, .bytes s => some s
  | _, _ => none

/-- The string of a string scalar. -/
def Scalar.asString : Scalar → Option String
  | .str s => some s
  | _ => none

/-- The value of an array the rendered expression of `header_conversion` computes: the
strings of the elements joined with a comma and a blank. -/
def FormatExpr.formatList : FormatExpr → List Scalar → Option String
  | .join, vs => (allSome (vs.map Scalar.asString)).map (fun ss => ", ".intercalate ss)
  | .joinConverted elem, vs =>
    (allSome (vs.map elem.formatScalar)).map (fun ss => ", ".intercalate ss)
  | _, _ => none

/-- A request whose conversion code is the one the templates render for the parameter
`p` on a platform with `intSize` bits: `type_conversion` on the data of `p`, and
`path_conversion` likewise. -/
def typedWorld (intSize : Nat) (p : ParamData) (w : World) : World :=
  { w with
    conversion := fun template v raw =>
      match raw with
      | some (.str input) =>
        if template = "type_conversion" ∧ v = p.VarName then
          (type_conversion p.Type_.Name p.Pointer).assign intSize p.VarName input
        else if template = "path_conversion" ∧ v = p.VarName then
          match path_conversion p.Type_ p.Pointer with
          | some c => c.assign intSize p.VarName input
          | none => (none, [])
        else w.conversion template v raw
      | _ => w.conversion template v raw }

/-- The decoding of one query string parameter: the code `requestDecoderT` renders for
it, run on the request; the value of the parameter variable at the end (`none`: never
assigned, the nil pointer) and the errors merged. -/
def decodeQueryParam (intSize : Nat) (w : World) (p : ParamData) :
    Option (Option GoVal × List GoError) :=
  match renderQueryParam p with
  | none => none
  | some stmts =>
    match execDec (typedWorld intSize p w) stmts {} with
    | (_, .next st) => some (st.vars p.VarName, st.err)
    | (_, .ret _) => none

/-- The decoding of one path parameter, likewise. -/
def decodePathParam (intSize : Nat) (w : World) (p : ParamData) :
    Option (Option GoVal × List GoError) :=
  match execDec (typedWorld intSize p w) (renderPathParam p) {} with
  | (_, .next st) => some (st.vars p.VarName, st.err)
  | (_, .ret _) => none

/-- The data a conversion template is executed on: a parameter or header (field
`Pointer` present), or the map `conversionData` builds (no key `Pointer`); `Type_` is
the entry `Type`. -/
structure ConversionData where
  VarName : String
  Name : String
  Type_ : DataType
  Pointer : Option Bool
deriving DecidableEq, Repr

/-- The function `conversionData`: a map with the keys `VarName`, `Name` and `Type`. -/
def conversionData (varName name : String) (dt : DataType) : ConversionData :=
  { VarName := varName, Name := name, Type_ := dt, Pointer := none }

/-- The data of a parameter as the templates see it. -/
def ParamData.conversionData (p : ParamData) : ConversionData :=
  { VarName := p.VarName, Name := p.Name, Type_ := p.Type_, Pointer := some p.Pointer }

/-- The template `type_conversion` executed on its data: `{{ if .Pointer }}` is false on
a map without the key. -/
def ConversionData.type_conversion (d : ConversionData) : Conversion :=
  Goa.type_conversion d.Type_.Name (d.Pointer.getD false)

/-- The number a string of decimal digits denotes, continuing from `n`; `none` when a
character is no digit. -/
def decimalValue : List Char → Nat → Option Nat
  | [], n => some n
  | c :: cs, n =>
    match digitValue c with
    | none => none
    | some d => decimalValue cs (n * 10 + d)

/-- The integer a decimal numeral denotes: a non-empty string of digits, which may follow
a sign `+` or `-` when `signed` (the numerals `strconv.ParseInt` reads); without `signed`
no sign is allowed (the numerals `strconv.ParseUint` reads). -/
def numeral (signed : Bool) (s : String) : Option Int :=
  match s.data with
  | [] => none
  | c :: cs =>
    if signed && (c == '+' || c == '-') then
      match cs with
      | [] => none
      | _ => (decimalValue cs 0).map (fun n => if c == '-' then -(n : Int) else (n : Int))
    else (decimalValue (c :: cs) 0).map (fun n => (n : Int))

/-- A query string parameter of a primitive type that has no default value: a pointer
when it is not required. -/
def queryParamOf (name varName : String) (P : Primitive) (required : Bool) : ParamData :=
  { Name := name, VarName := varName, Type_ := .primitive P, Required := required,
    Pointer := !required }

/-- The value of the variable of a parameter that holds `v`: the value itself when the
parameter is required, else a pointer to it; a byte slice is held as itself. -/
def heldValue (required : Bool) : Scalar → GoVal
  | .str s => if required then .str s else .addr (.str s)
  | .bytes s => .scalar (.bytes s)
  | v => if required then .scalar v else .addr v

/-- A path parameter holding an array of elements of a primitive type. -/
def arrayParamOf (name varName : String) (P : Primitive) : ParamData :=
  { Name := name, VarName := varName, Type_ := .array (.primitive P), Required := true }

/-! ## Example designs (`codegen/server/testdata/dsls.go`) -/

/-- Modelled from the spec: the derived data of a service with the single method `Method`
routed `GET /`, which has no payload, no result type and no error (the services of
`NoServerDSL` and `ServerHostingServiceSubsetDSL`). The design declares no response; the
analysis that gives the method its default response is outside the sources, and the
status code `http.StatusOK` (200) is the one the specification states for `NoServerDSL`. -/
def methodOnlyData (name pkg : String) : ServiceData :=
  { Service := { Name := name, PkgName := pkg },
    Endpoints := [{ Method := { Name := "Method", VarName := "Method" },
                    ServiceName := name,
                    Routes := [{ Verb := "GET", Path := "/" }],
                    Result := { Responses := [{ StatusCode := "http.StatusOK" }] } }] }

/-- The design of `ServerHostingServiceSubsetDSL`: the server `SingleHost` lists
`Service` only, the root has the HTTP services `Service` and `IgnoredService`. -/
def subsetRoot : RootExpr :=
  { Servers := [{ Name := "SingleHost", Services := ["Service"] }],
    HTTPServices := [{ Name := "Service", HTTPEndpoints := [{ Name := "Method" }] },
                     { Name := "IgnoredService", HTTPEndpoints := [{ Name := "Method" }] }] }

/-- An environment for the example designs: output directory `gen`, the registry holding
the services `Service` and `IgnoredService`. -/
def exampleEnv : Env :=
  { Gendir := "gen",
    SnakeCase := fun s =>
      if s = "Service" then "service"
      else if s = "IgnoredService" then "ignored_service" else s,
    Join := fun parts => String.intercalate "/" parts,
    HTTPServices := fun n =>
      if n = "Service" then some (methodOnlyData "Service" "service")
      else if n = "IgnoredService" then some (methodOnlyData "IgnoredService" "ignoredservice")
      else none,
    Services := fun n =>
      if n = "Service" then some { Name := "Service", PkgName := "service" }
      else if n = "IgnoredService" then
        some { Name := "IgnoredService", PkgName := "ignoredservice" }
      else none }

/-- The service `Service` of `NoServerDSL`. -/
def noServerService : ServiceExpr :=
  { Name := "Service", HTTPEndpoints := [{ Name := "Method" }] }

/-- The derived data of a service `Upload` whose single endpoint has a multipart request
decoder. -/
def uploadData : ServiceData :=
  { Service := { Name := "Upload", PkgName := "upload" },
    Endpoints := [{ Method := { Name := "Put", VarName := "Put" },
                    ServiceName := "Upload",
                    Payload := { Ref := "*upload.PutPayload" },
                    Routes := [{ Verb := "POST", Path := "/upload" }],
                    MultipartRequestDecoder :=
                      some { FuncName := "UploadPutDecoderFunc",
                             InitName := "NewUploadPutDecoder",
                             VarName := "uploadPutDecoderFn",
                             ServiceName := "Upload", MethodName := "Put",
                             PayloadRef := "*upload.PutPayload" } }] }

/-- An environment whose registry holds the service `Upload`. -/
def uploadEnv : Env :=
  { exampleEnv with
    HTTPServices := fun n => if n = "Upload" then some uploadData else none }

/-- The service expression of `Upload`. -/
def uploadService : ServiceExpr :=
  { Name := "Upload", HTTPEndpoints := [{ Name := "Put" }] }

/-- The order C2 states for `server.go`: the five per-service structural sections
directly follow the header, before any per-endpoint section. -/
def structuralSectionsFirst (names : List String) : Prop :=
  (names.drop 1).take 5 =
    ["server-struct", "server-mountpoint", "server-init", "server-service", "server-mount"]

/-- A request body type shared by two endpoints. -/
def postRequestBody : TypeData :=
  { Name := "PostRequestBody", VarName := "PostRequestBody",
    Def := "struct \x7b Title *string \x7d", Ref := "*PostRequestBody" }

/-- A response body type, with its constructor, shared by two endpoints. -/
def postResponseBody : TypeData :=
  { Name := "PostResponseBody", VarName := "PostResponseBody",
    Def := "struct \x7b ID *string \x7d", Ref := "*PostResponseBody",
    Init := some { Name := "NewPostResponseBody", ReturnTypeRef := "*PostResponseBody" } }

/-- An endpoint of the service `Blog` using the shared body types. -/
def blogEndpoint (name verb : String) : EndpointData :=
  { Method := { Name := name, VarName := name },
    ServiceName := "Blog",
    Payload := { Ref := "*blog.Post", Request := { ServerBody := some postRequestBody } },
    Result := { Ref := "*blog.Stored",
                Responses := [{ StatusCode := "http.StatusOK",
                                ServerBody := some postResponseBody }] },
    Routes := [{ Verb := verb, Path := "/posts" }] }

/-- The derived data of the service `Blog`: the endpoints `Create` and `Update` refer to
the same request body type and the same response body type. -/
def blogData : ServiceData :=
  { Service := { Name := "Blog", PkgName := "blog" },
    Endpoints := [blogEndpoint "Create" "POST", blogEndpoint "Update" "PUT"] }

/-- The service expression of `Blog`. -/
def blogService : ServiceExpr :=
  { Name := "Blog", HTTPEndpoints := [{ Name := "Create" }, { Name := "Update" }] }

/-- An environment whose registries hold the service `Blog`. -/
def blogEnv : Env :=
  { exampleEnv with
    HTTPServices := fun n => if n = "Blog" then some blogData else none,
    Services := fun n => if n = "Blog" then some { Name := "Blog", PkgName := "blog" } else none }

/-- A response selected by the required result field `Outcome`. -/
def createdResponse : ResponseData :=
  { StatusCode := "http.StatusCreated", TagName := "Outcome", TagValue := "created",
    TagRequired := true }

/-- A response selected by the optional result field `Kind`. -/
def draftResponse : ResponseData :=
  { StatusCode := "http.StatusAccepted", TagName := "Kind", TagValue := "draft" }

/-- A response without tag. -/
def okResponse : ResponseData :=
  { StatusCode := "http.StatusOK" }

/-- An endpoint with two tagged responses followed by an untagged one. -/
def taggedEndpoint : EndpointData :=
  { Method := { Name := "Store", VarName := "Store" },
    ServiceName := "Blog",
    Result := { Ref := "*blog.Stored",
                Responses := [createdResponse, draftResponse, okResponse] } }

/-- A result whose field `Outcome` is `created` and whose field `Kind` points to
`draft`. -/
def createdDraft : Result := fun field =>
  if field = "Outcome" then some "created"
  else if field = "Kind" then some "draft"
  else none

/-- An endpoint with a payload and a declared error. -/
def showEndpoint : EndpointData :=
  { Method := { Name := "Show", VarName := "Show" },
    ServiceName := "Blog",
    Payload := { Ref := "*blog.ShowPayload" },
    Result := { Ref := "*blog.Stored", Responses := [okResponse] },
    Errors := [{ Name := "not_found", Ref := "*blog.NotFound",
                 Response := { StatusCode := "http.StatusNotFound" } }],
    RequestDecoder := "DecodeShowRequest",
    ResponseEncoder := "EncodeShowResponse",
    ErrorEncoder := "EncodeShowError" }

/-- A request on which decoding succeeds and the endpoint function fails. -/
def endpointFails : HandlerDeps String String String :=
  { decodeRequest := .ok "payload",
    endpoint := fun _ => .error "not found",
    encodeResponse := fun _ => none }

/-- A required query string parameter `ids`, an array of integers. -/
def idsParam : ParamData :=
  { Name := "ids", VarName := "ids", TypeRef := "[]int",
    Type_ := .array (.primitive .int), Required := true, Slice := true }

/-- A required query string parameter `name`, a string. -/
def nameParam : ParamData :=
  { Name := "name", VarName := "name", TypeRef := "string",
    Type_ := .primitive .string, Required := true }

/-- An endpoint whose payload is made of the required query string parameters `ids` and
`name`. -/
def listEndpoint : EndpointData :=
  { Method := { Name := "List", VarName := "List" },
    ServiceName := "Blog",
    Payload := { Ref := "*blog.ListPayload",
                 Request := { QueryParams := [idsParam, nameParam],
                              MustValidate := true,
                              PayloadInit := some
                                { Name := "NewListPayload",
                                  ServerArgs := [{ Name := "ids", Ref := "ids" },
                                                 { Name := "name", Ref := "name" }] } } },
    RequestDecoder := "DecodeListRequest" }

/-- The same payload carried by two required headers. -/
def listHeaderEndpoint : EndpointData :=
  { Method := { Name := "List", VarName := "List" },
    ServiceName := "Blog",
    Payload := { Ref := "*blog.ListPayload",
                 Request := { Headers := [{ Name := "ids", CanonicalName := "Ids",
                                            VarName := "ids", TypeRef := "[]int",
                                            Type_ := .array (.primitive .int),
                                            Required := true, Slice := true },
                                          { Name := "name", CanonicalName := "Name",
                                            VarName := "name", TypeRef := "string",
                                            Type_ := .primitive .string,
                                            Required := true }],
                              MustValidate := true } },
    RequestDecoder := "DecodeListRequest" }

/-- A request without query string, header or body. -/
def emptyRequest : World := {}

/-- A request body type with a validation. -/
def validatedBody : TypeData :=
  { postRequestBody with ValidateRef := "err = goa.MergeErrors(err, body.Validate())" }

/-- An endpoint whose request has a validated body and a required header. -/
def createEndpoint : EndpointData :=
  { Method := { Name := "Create", VarName := "Create" },
    ServiceName := "Blog",
    Payload := { Ref := "*blog.Post",
                 Request := { ServerBody := some validatedBody,
                              Headers := [{ Name := "Authorization",
                                            CanonicalName := "Authorization",
                                            VarName := "token", TypeRef := "string",
                                            Type_ := .primitive .string,
                                            Required := true }],
                              MustValidate := true } },
    RequestDecoder := "DecodeCreateRequest" }

/-- A request with an empty body. -/
def emptyBodyRequest : World := { decode := some .eof }

/-- The statements of the decoder rendered for `createEndpoint`. -/
def createDecoder : List DecStmt :=
  [.varBody "PostRequestBody",
   .decodeBody,
   .ifThen .errNotNil [.ifThen .errIsEOF [.returnMissingPayload], .returnDecodePayloadError],
   .code "err = goa.MergeErrors(err, body.Validate())",
   .ifThen .errNotNil [.returnErr],
   .varParams [("token", "string")] false false,
   .read "token" (.headerGet "Authorization"),
   .ifThen (.strEmpty "token") [.mergeMissing "Authorization" "header"],
   .ifThen .errNotNil [.returnErr],
   .returnPayload "body"]

/-- The derived data of the service of `ServerHostingServiceWithFileServerDSL`:
`Files("/file.json", "path.json")` and no method. -/
def fileServerData : ServiceData :=
  { Service := { Name := "Service", PkgName := "service" },
    FileServers := [{ MountHandler := "MountPathJSON", RequestPaths := ["/file.json"],
                      FilePath := "path.json", IsDir := false }] }

/-- A formatting `%v` for the examples: booleans, strings and natural numbers below
ten. -/
def exampleSprintf : Value → String
  | .bool true => "true"
  | .bool false => "false"
  | .str s => s
  | .int 0 => "0"
  | .int 1 => "1"
  | _ => "?"

/-- An optional header `X-Lang` of type string with the default value `en`. -/
def langHeader : HeaderData :=
  { Name := "X-Lang", CanonicalName := "X-Lang", VarName := "lang", FieldName := "Lang",
    TypeRef := "*string", Type_ := .primitive .string, Pointer := true,
    DefaultValue := .str "en" }

/-- An optional header `X-Rate` of type int with the default value 0. -/
def rateHeader : HeaderData :=
  { Name := "X-Rate", CanonicalName := "X-Rate", VarName := "rate", FieldName := "Rate",
    TypeRef := "*int", Type_ := .primitive .int, Pointer := true,
    DefaultValue := .int 0 }

/-- A response with the tag `Kind` and the header `X-Lang`. -/
def taggedLangResponse : ResponseData :=
  { StatusCode := "http.StatusAccepted", TagName := "Kind", TagValue := "draft",
    Headers := [langHeader] }

/-- A response without tag with the header `X-Lang`. -/
def langResponse : ResponseData :=
  { StatusCode := "http.StatusOK", Headers := [langHeader] }

/-- A response without tag with the header `X-Rate`. -/
def rateResponse : ResponseData :=
  { StatusCode := "http.StatusOK", Headers := [rateHeader] }

/-- A result whose field `Kind` points to `draft` and whose fields `Lang` and `Rate` are
nil. -/
def draftNoLang : Result := fun field =>
  if field = "Kind" then some "draft" else none

/-- A root with the service `Service`, whose derived data `exampleEnv` holds, and the
service `Unknown`, absent from its registries. -/
def partialRoot : RootExpr :=
  { Servers := [],
    HTTPServices := [{ Name := "Service", HTTPEndpoints := [{ Name := "Method" }] },
                     { Name := "Unknown", HTTPEndpoints := [{ Name := "Method" }] }] }

/-- An environment whose registries hold the services `Blog` and `Admin`, which use the
same body types. -/
def sharedEnv : Env :=
  { exampleEnv with
    HTTPServices := fun n =>
      if n = "Blog" then some blogData
      else if n = "Admin" then
        some { blogData with Service := { Name := "Admin", PkgName := "admin" } }
      else none,
    Services := fun n =>
      if n = "Blog" then some { Name := "Blog", PkgName := "blog" }
      else if n = "Admin" then some { Name := "Admin", PkgName := "admin" }
      else none }

/-- A root with the services `Blog` and `Admin`. -/
def sharedRoot : RootExpr :=
  { Servers := [],
    HTTPServices := [blogService,
                     { Name := "Admin",
                       HTTPEndpoints := [{ Name := "Create" }, { Name := "Update" }] }] }

/-- The service `IgnoredService` of `ServerHostingServiceSubsetDSL`. -/
def ignoredService : ServiceExpr :=
  { Name := "IgnoredService", HTTPEndpoints := [{ Name := "Method" }] }

/-! ## Theorems -/

/-- A loop appending `f x` for each `x` yields the initial list followed by the
concatenation of the `f x`. -/
theorem foldl_append_flatMap {α β : Type} (f : α → List β) (l : List α) (init : List β) :
    l.foldl (fun acc x => acc ++ f x) init = init ++ l.flatMap f := by
  induction l generalizing init with
  | nil => simp
  | cons x xs ih => simp [List.foldl_cons, ih, List.flatMap_cons, List.append_assoc]

/-- The loop `rangeAssign` assigns entry `i+off+j` to the file of the `j`-th service and
leaves every other entry alone, when no call panics. -/
theorem rangeAssign_spec (f : ServiceExpr → Option File) (off : Nat) :
    ∀ (xs : List ServiceExpr) (i : Nat) (fw : List (Option File)),
      (∀ x ∈ xs, (f x).isSome) → i + off + xs.length ≤ fw.length →
      ∃ fw2, rangeAssign f off i xs fw = some fw2 ∧ fw2.length = fw.length ∧
        ∀ k, fw2[k]? =
          if i + off ≤ k ∧ k < i + off + xs.length then (xs[k - (i + off)]?).map f
          else fw[k]? := by
  intro xs
  induction xs with
  | nil =>
    intro i fw _ _
    refine ⟨fw, rfl, rfl, ?_⟩
    intro k
    have : ¬ (i + off ≤ k ∧ k < i + off + ([] : List ServiceExpr).length) := by
      simp
    rw [if_neg this]
  | cons x xs ih =>
    intro i fw hsome hlen
    have hx : (f x).isSome := hsome x (List.mem_cons_self x xs)
    obtain ⟨file, hfile⟩ := Option.isSome_iff_exists.mp hx
    have hlen2 : i + 1 + off + xs.length ≤ (fw.set (i + off) (some file)).length := by
      simp only [List.length_set, List.length_cons] at *
      omega
    obtain ⟨fw2, h1, h2, h3⟩ :=
      ih (i + 1) (fw.set (i + off) (some file))
        (fun y hy => hsome y (List.mem_cons_of_mem x hy)) hlen2
    refine ⟨fw2, ?_, ?_, ?_⟩
    · simp only [rangeAssign, hfile]
      exact h1
    · rw [h2, List.length_set]
    · intro k
      rw [h3 k]
      simp only [List.length_cons] at hlen ⊢
      by_cases hk : k = i + off
      · subst hk
        have hlt : i + off < fw.length := by omega
        simp [List.getElem?_set, hlt, hfile]
      · by_cases hin : i + 1 + off ≤ k ∧ k < i + 1 + off + xs.length
        · have hin2 : i + off ≤ k ∧ k < i + off + (xs.length + 1) := by omega
          rw [if_pos hin, if_pos hin2]
          have : k - (i + off) = (k - (i + 1 + off)) + 1 := by omega
          rw [this, List.getElem?_cons_succ]
        · have hin2 : ¬ (i + off ≤ k ∧ k < i + off + (xs.length + 1)) := by omega
          rw [if_neg hin, if_neg hin2, List.getElem?_set]
          have : ¬ (i + off = k) := fun h => hk h.symm
          rw [if_neg this]

/-- `server` returns a file exactly when the registry holds the data of the service. -/
theorem server_isSome (env : Env) (genpkg : String) (svc : ServiceExpr) :
    (server env genpkg svc).isSome = (env.HTTPServices svc.Name).isSome := by
  unfold server
  cases env.HTTPServices svc.Name <;> rfl

/-- `serverEncodeDecode` returns a file exactly when the registry holds the data of the
service. -/
theorem serverEncodeDecode_isSome (env : Env) (genpkg : String) (svc : ServiceExpr) :
    (serverEncodeDecode env genpkg svc).isSome = (env.HTTPServices svc.Name).isSome := by
  unfold serverEncodeDecode
  cases env.HTTPServices svc.Name <;> rfl

/-- C1: for a root with `n` HTTP services whose derived data are in the registry,
`ServerFiles` returns `2n` files; entry `i` is the file `server` builds for service `i`
and entry `n+i` the file `serverEncodeDecode` builds for it, whatever the `Server`
declarations of the root list; without services the list is empty. -/
theorem ServerFiles_layout (env : Env) (genpkg : String) (root : RootExpr)
    (hreg : ∀ s ∈ root.HTTPServices, (env.HTTPServices s.Name).isSome) :
    ∃ fw, ServerFiles env genpkg root = some fw ∧
      fw.length = 2 * root.HTTPServices.length ∧
      (∀ i, i < root.HTTPServices.length →
        ∃ s f g, root.HTTPServices[i]? = some s ∧
          server env genpkg s = some f ∧ fw[i]? = some (some f) ∧
          serverEncodeDecode env genpkg s = some g ∧
          fw[root.HTTPServices.length + i]? = some (some g)) ∧
      (root.HTTPServices = [] → fw = []) := by
  have hs : ∀ s ∈ root.HTTPServices, (server env genpkg s).isSome := by
    intro s hmem
    rw [server_isSome]
    exact hreg s hmem
  have he : ∀ s ∈ root.HTTPServices, (serverEncodeDecode env genpkg s).isSome := by
    intro s hmem
    rw [serverEncodeDecode_isSome]
    exact hreg s hmem
  obtain ⟨fw1, h11, h12, h13⟩ :=
    rangeAssign_spec (server env genpkg) 0 root.HTTPServices 0
      (List.replicate (2 * root.HTTPServices.length) none) hs
      (by simp only [List.length_replicate]; omega)
  obtain ⟨fw2, h21, h22, h23⟩ :=
    rangeAssign_spec (serverEncodeDecode env genpkg) root.HTTPServices.length
      root.HTTPServices 0 fw1 he
      (by rw [h12]; simp only [List.length_replicate]; omega)
  refine ⟨fw2, ?_, ?_, ?_, ?_⟩
  · simp only [ServerFiles, h11]
    exact h21
  · rw [h22, h12, List.length_replicate]
  · intro i hi
    have hget : root.HTTPServices[i]? = some root.HTTPServices[i] :=
      List.getElem?_eq_getElem hi
    obtain ⟨f, hf⟩ := Option.isSome_iff_exists.mp (hs _ (List.getElem_mem hi))
    obtain ⟨g, hg⟩ := Option.isSome_iff_exists.mp (he _ (List.getElem_mem hi))
    refine ⟨root.HTTPServices[i], f, g, hget, hf, ?_, hg, ?_⟩
    · rw [h23 i]
      have hout : ¬ (0 + root.HTTPServices.length ≤ i ∧
          i < 0 + root.HTTPServices.length + root.HTTPServices.length) := by omega
      rw [if_neg hout, h13 i]
      have hin : 0 + 0 ≤ i ∧ i < 0 + 0 + root.HTTPServices.length := by omega
      rw [if_pos hin]
      simp [hget, hf]
    · rw [h23 (root.HTTPServices.length + i)]
      have hin : 0 + root.HTTPServices.length ≤ root.HTTPServices.length + i ∧
          root.HTTPServices.length + i <
            0 + root.HTTPServices.length + root.HTTPServices.length := by omega
      rw [if_pos hin]
      have : root.HTTPServices.length + i - (0 + root.HTTPServices.length) = i := by omega
      rw [this]
      simp [hget, hg]
  · intro hnil
    apply List.eq_nil_of_length_eq_zero
    rw [h22, h12, List.length_replicate, hnil]
    rfl

/-- A loop appending `f x` and then `g x` for each `x`. -/
theorem foldl_append_two {α β : Type} (f g : α → List β) (l : List α) (init : List β) :
    l.foldl (fun acc x => acc ++ f x ++ g x) init = init ++ l.flatMap (fun x => f x ++ g x) := by
  induction l generalizing init with
  | nil => simp
  | cons x xs ih =>
    rw [List.foldl_cons, ih]
    simp [List.flatMap_cons, List.append_assoc]

/-- A loop appending the one element `f x` for each `x`. -/
theorem foldl_append_single {α β : Type} (f : α → β) (l : List α) (init : List β) :
    l.foldl (fun acc x => acc ++ [f x]) init = init ++ l.map f := by
  induction l generalizing init with
  | nil => simp
  | cons x xs ih =>
    rw [List.foldl_cons, ih]
    simp [List.append_assoc]

/-- The first loop of `server`: one section per endpoint with a multipart decoder. -/
theorem foldl_multipart_type (es : List EndpointData) (init : List SectionTemplate) :
    es.foldl (fun sections e =>
      match e.MultipartRequestDecoder with
      | some m => sections ++ [{ Name := "multipart-request-decoder-type",
                                 Source := .multipartRequestDecoderTypeT,
                                 Data := .multipart m }]
      | none => sections) init =
    init ++ es.filterMap (fun e => e.MultipartRequestDecoder.map (fun m =>
      ({ Name := "multipart-request-decoder-type",
         Source := .multipartRequestDecoderTypeT,
         Data := .multipart m } : SectionTemplate))) := by
  induction es generalizing init with
  | nil => simp
  | cons e es ih =>
    rw [List.foldl_cons, ih]
    cases hm : e.MultipartRequestDecoder <;> simp [List.filterMap_cons, hm]

/-- C2 (amended): the file `server` returns has, after its header, the sections
server-struct and server-mountpoint, then one multipart-request-decoder-type section
per endpoint with a multipart decoder (in endpoint order), then server-init,
server-service and server-mount, then server-handler and server-handler-init for each endpoint in
declaration order, then one server-files section per file server in declaration order. -/
theorem server_section_order (env : Env) (genpkg : String) (svc : ServiceExpr)
    (data : ServiceData) (hdata : env.HTTPServices svc.Name = some data) :
    ∃ f, server env genpkg svc = some f ∧
      (f.SectionTemplates.head?).map (fun s => s.Source) = some Template.headerT ∧
      f.body =
        [("server-struct", .service data), ("server-mountpoint", .service data)] ++
        data.Endpoints.filterMap (fun e => e.MultipartRequestDecoder.map (fun m =>
          ("multipart-request-decoder-type", TemplateData.multipart m))) ++
        [("server-init", .service data), ("server-service", .service data),
         ("server-mount", .service data)] ++
        data.Endpoints.flatMap (fun e =>
          [("server-handler", .endpoint e), ("server-handler-init", .endpoint e)]) ++
        data.FileServers.map (fun s => ("server-files", TemplateData.fileServer s)) := by
  unfold server
  simp only [hdata]
  rw [foldl_append_single (fun s : FileServerData =>
      ({ Name := "server-files", Source := .fileServerT, FuncMap := .join,
          Data := .fileServer s } : SectionTemplate)),
    foldl_append_two (fun e : EndpointData =>
      [({ Name := "server-handler", Source := .serverHandlerT,
          Data := .endpoint e } : SectionTemplate)])
      (fun e : EndpointData =>
      [({ Name := "server-handler-init", Source := .serverHandlerInitT,
          Data := .endpoint e } : SectionTemplate)]),
    foldl_multipart_type]
  refine ⟨_, rfl, ?_, ?_⟩
  · simp [Header]
  · simp [File.body, List.map_filterMap, List.map_flatMap, Function.comp_def]

/-- Witness of C2 (amended) on the service `Upload`. -/
theorem server_section_order_witness :
    uploadEnv.HTTPServices uploadService.Name = some uploadData ∧
    ∃ f, server uploadEnv "goa.design/gen" uploadService = some f ∧
      (f.SectionTemplates.head?).map (fun s => s.Source) = some Template.headerT ∧
      f.body =
        [("server-struct", .service uploadData), ("server-mountpoint", .service uploadData)] ++
        uploadData.Endpoints.filterMap (fun e => e.MultipartRequestDecoder.map (fun m =>
          ("multipart-request-decoder-type", TemplateData.multipart m))) ++
        [("server-init", .service uploadData), ("server-service", .service uploadData),
         ("server-mount", .service uploadData)] ++
        uploadData.Endpoints.flatMap (fun e =>
          [("server-handler", .endpoint e), ("server-handler-init", .endpoint e)]) ++
        uploadData.FileServers.map (fun s => ("server-files", TemplateData.fileServer s)) :=
  ⟨rfl, server_section_order uploadEnv "goa.design/gen" uploadService uploadData rfl⟩

/-- Counterexample to C2 as stated: for the service `Upload`, whose endpoint has a
multipart decoder, the per-endpoint section multipart-request-decoder-type comes before
the structural sections server-init, server-service and server-mount. -/
theorem server_multipart_type_before_init :
    (server uploadEnv "goa.design/gen" uploadService).map File.sectionNames =
      some ["source-header", "server-struct", "server-mountpoint",
            "multipart-request-decoder-type", "server-init", "server-service",
            "server-mount", "server-handler", "server-handler-init"] ∧
    ¬ structuralSectionsFirst
        ["source-header", "server-struct", "server-mountpoint",
         "multipart-request-decoder-type", "server-init", "server-service",
         "server-mount", "server-handler", "server-handler-init"] := by
  constructor
  · rfl
  · unfold structuralSectionsFirst
    decide

/-- A loop whose body appends `G x` to the accumulator. -/
theorem foldl_eq_append_flatMap {α β : Type} (G : α → List β) (F : List β → α → List β)
    (l : List α) (init : List β) (hF : ∀ acc x, F acc x = acc ++ G x) :
    l.foldl F init = init ++ l.flatMap G := by
  induction l generalizing init with
  | nil => simp
  | cons x xs ih =>
    rw [List.foldl_cons, ih, hF]
    simp [List.flatMap_cons, List.append_assoc]

/-- C3: the file `serverEncodeDecode` returns has after its header, for each endpoint in
declaration order, a response-encoder section, a request-decoder section exactly when
`Payload.Ref` is non-empty, a multipart-request-decoder section exactly when the endpoint
has a multipart decoder and an error-encoder section exactly when it has an error, in
that order; the server-transform-helper sections follow the last endpoint. -/
theorem serverEncodeDecode_section_order (env : Env) (genpkg : String) (svc : ServiceExpr)
    (data : ServiceData) (hdata : env.HTTPServices svc.Name = some data) :
    ∃ f, serverEncodeDecode env genpkg svc = some f ∧
      (f.SectionTemplates.head?).map (fun s => s.Source) = some Template.headerT ∧
      f.body =
        data.Endpoints.flatMap (fun e =>
          [("response-encoder", TemplateData.endpoint e)] ++
          (if e.Payload.Ref = "" then [] else [("request-decoder", .endpoint e)]) ++
          (e.MultipartRequestDecoder.toList.map (fun m =>
            ("multipart-request-decoder", TemplateData.multipart m))) ++
          (if e.Errors = [] then [] else [("error-encoder", .endpoint e)])) ++
        data.ServerTransformHelpers.map (fun h =>
          ("server-transform-helper", TemplateData.transform h)) := by
  unfold serverEncodeDecode
  simp only [hdata]
  rw [foldl_append_single (fun h : TransformFunctionData =>
      ({ Name := "server-transform-helper", Source := .transformHelperT,
         Data := .transform h } : SectionTemplate)),
    foldl_eq_append_flatMap (fun e : EndpointData =>
      [({ Name := "response-encoder", FuncMap := .transTmplFuncs svc.Name,
          Source := .responseEncoderT, Data := .endpoint e } : SectionTemplate)] ++
      (if e.Payload.Ref = "" then []
       else [({ Name := "request-decoder", Source := .requestDecoderT,
                FuncMap := .transTmplFuncs svc.Name, Data := .endpoint e } : SectionTemplate)]) ++
      (e.MultipartRequestDecoder.toList.map (fun m =>
        ({ Name := "multipart-request-decoder", Source := .multipartRequestDecoderT,
           Data := .multipart m } : SectionTemplate))) ++
      (if e.Errors = [] then []
       else [({ Name := "error-encoder", Source := .errorEncoderT,
                FuncMap := .transTmplFuncs svc.Name, Data := .endpoint e } : SectionTemplate)]))]
  · refine ⟨_, rfl, ?_, ?_⟩
    · simp [Header]
    · simp only [File.body, List.cons_append, List.nil_append, List.tail_cons,
        List.map_append, List.map_flatMap, List.map_map]
      congr 2
      funext e
      by_cases h1 : e.Payload.Ref = "" <;> by_cases h2 : e.Errors = [] <;>
        cases h3 : e.MultipartRequestDecoder <;> simp [h1, h2]
  · intro acc e
    by_cases h1 : e.Payload.Ref = "" <;> by_cases h2 : e.Errors = [] <;>
      cases h3 : e.MultipartRequestDecoder <;>
      simp [h1, h2, List.length_pos]

/-- Witness of C3 on `NoServerDSL`: the method has no payload, so the service gets a
response encoder and no request decoder. -/
theorem serverEncodeDecode_section_order_witness :
    exampleEnv.HTTPServices noServerService.Name = some (methodOnlyData "Service" "service") ∧
    ∃ f, serverEncodeDecode exampleEnv "goa.design/gen" noServerService = some f ∧
      (f.SectionTemplates.head?).map (fun s => s.Source) = some Template.headerT ∧
      f.body =
        (methodOnlyData "Service" "service").Endpoints.flatMap (fun e =>
          [("response-encoder", TemplateData.endpoint e)] ++
          (if e.Payload.Ref = "" then [] else [("request-decoder", .endpoint e)]) ++
          (e.MultipartRequestDecoder.toList.map (fun m =>
            ("multipart-request-decoder", TemplateData.multipart m))) ++
          (if e.Errors = [] then [] else [("error-encoder", .endpoint e)])) ++
        (methodOnlyData "Service" "service").ServerTransformHelpers.map (fun h =>
          ("server-transform-helper", TemplateData.transform h)) :=
  ⟨rfl, serverEncodeDecode_section_order exampleEnv "goa.design/gen" noServerService
    (methodOnlyData "Service" "service") rfl⟩

/-- On `NoServerDSL` the encode/decode file is the header followed by one
response-encoder section. -/
theorem serverEncodeDecode_noServer :
    (serverEncodeDecode exampleEnv "goa.design/gen" noServerService).map File.sectionNames =
      some ["source-header", "response-encoder"] := by
  rfl

/-- C4 (failing input): for the service `Blog`, whose two endpoints share one request body
type and one response body type with a constructor, `serverType` declares each type
twice and emits the constructor twice; `seen` is neither read nor written. -/
theorem serverType_duplicates :
    (serverType blogEnv "goa.design/gen" blogService []).map
        (fun p => (p.1.sectionNames, p.1.declaredTypes, p.1.bodyConstructors, p.2)) =
      some (["source-header", "request-body-type-decl", "request-body-type-decl",
             "response-server-body", "response-server-body",
             "server-body-init", "server-body-init"],
            ["PostRequestBody", "PostRequestBody", "PostResponseBody", "PostResponseBody"],
            ["NewPostResponseBody", "NewPostResponseBody"],
            []) := by
  rfl

/-- Both forms of the rendered guard evaluate to the tag predicate of the response. -/
theorem responseGuard_holds (r : ResponseData) (res : Result) (g : Guard)
    (hg : responseGuard r = some g) : g.holds res = tagPredicate r res := by
  unfold responseGuard at hg
  by_cases ht : r.TagName = ""
  · simp [ht] at hg
  · by_cases hr : r.TagRequired = true
    · simp [ht, hr] at hg
      subst hg
      simp only [Guard.holds, tagPredicate]
      cases res r.TagName <;> simp
    · simp [ht, hr] at hg
      subst hg
      simp only [Guard.holds, tagPredicate]
      cases res r.TagName <;> rfl

/-- The block of one response returns when the response matches the result and does
nothing otherwise. -/
theorem execEnc_renderResponse_cons (res : Result) (r : ResponseData) (rest : List EncStmt) :
    execEnc res (renderResponse r ++ rest) =
      if matchesResult res r then
        ([EncEvent.response r],
         some (if r.ServerBody.isSome then EncReturn.encodeBody else EncReturn.nil))
      else execEnc res rest := by
  unfold renderResponse
  cases hg : responseGuard r with
  | none =>
    have ht : r.TagName = "" := by
      unfold responseGuard at hg
      by_cases ht : r.TagName = ""
      · exact ht
      · by_cases hr : r.TagRequired = true <;> simp [ht, hr] at hg
    cases hb : r.ServerBody.isSome <;>
      simp [execEnc, execEncStmt, matchesResult, ht, hb]
  | some g =>
    have ht : r.TagName ≠ "" := by
      intro ht
      simp [responseGuard, ht] at hg
    have hh := responseGuard_holds r res g hg
    cases hp : tagPredicate r res <;> cases hb : r.ServerBody.isSome <;>
      simp [execEnc, execEncStmt, matchesResult, ht, hb, hh, hp]

/-- The rendered range over the responses executes the block of the first response that
matches the result and returns; when no response matches it executes nothing and falls
through. -/
theorem execEnc_responses (res : Result) (rs : List ResponseData) :
    execEnc res (rs.flatMap renderResponse) =
      match rs.find? (matchesResult res) with
      | some r =>
        ([EncEvent.response r],
         some (if r.ServerBody.isSome then EncReturn.encodeBody else EncReturn.nil))
      | none => ([], none) := by
  induction rs with
  | nil => simp [execEnc]
  | cons r rs ih =>
    rw [List.flatMap_cons, execEnc_renderResponse_cons, List.find?_cons]
    cases hm : matchesResult res r
    · simpa using ih
    · simp

/-- C5: with a result type, the rendered response encoder goes through the responses in
declaration order and executes the block of exactly the first response that has no tag or
whose tag predicate holds on the result, then returns (nothing of a later response runs);
when no response matches, no block is executed. -/
theorem responseEncoderT_first_match (e : EndpointData) (res : Result)
    (hRef : e.Result.Ref ≠ "") :
    ∃ stmts, responseEncoderT e = some stmts ∧
      (∀ before r after, e.Result.Responses = before ++ r :: after →
        (∀ x ∈ before, x.TagName ≠ "" ∧ tagPredicate x res = false) →
        (r.TagName = "" ∨ tagPredicate r res = true) →
        execEnc res stmts =
          ([EncEvent.response r],
           some (if r.ServerBody.isSome then EncReturn.encodeBody else EncReturn.nil))) ∧
      ((∀ x ∈ e.Result.Responses, x.TagName ≠ "" ∧ tagPredicate x res = false) →
        execEnc res stmts = ([], none)) := by
  have hrender : responseEncoderT e =
      some (.typeAssert e.Result.Ref :: e.Result.Responses.flatMap renderResponse) := by
    simp [responseEncoderT, hRef]
  refine ⟨_, hrender, ?_, ?_⟩
  · intro before r after hsplit hbefore hr
    have hfind : e.Result.Responses.find? (matchesResult res) = some r := by
      rw [List.find?_eq_some]
      refine ⟨?_, before, after, hsplit, ?_⟩
      · rcases hr with h | h <;> simp [matchesResult, h]
      · intro a ha
        obtain ⟨h1, h2⟩ := hbefore a ha
        simp [matchesResult, h1, h2]
    have hexec := execEnc_responses res e.Result.Responses
    rw [hfind] at hexec
    simp only [execEnc, execEncStmt, hexec, List.nil_append]
  · intro hall
    have hfind : e.Result.Responses.find? (matchesResult res) = none := by
      rw [List.find?_eq_none]
      intro x hx
      obtain ⟨h1, h2⟩ := hall x hx
      simp [matchesResult, h1, h2]
    have hexec := execEnc_responses res e.Result.Responses
    rw [hfind] at hexec
    simp only [execEnc, execEncStmt, hexec, List.nil_append]

/-- Witness of C5: an endpoint with the responses `created`, `draft` and an untagged
one. -/
theorem responseEncoderT_first_match_witness :
    taggedEndpoint.Result.Ref ≠ "" ∧
    ∃ stmts, responseEncoderT taggedEndpoint = some stmts ∧
      (∀ before r after, taggedEndpoint.Result.Responses = before ++ r :: after →
        (∀ x ∈ before, x.TagName ≠ "" ∧ tagPredicate x createdDraft = false) →
        (r.TagName = "" ∨ tagPredicate r createdDraft = true) →
        execEnc createdDraft stmts =
          ([EncEvent.response r],
           some (if r.ServerBody.isSome then EncReturn.encodeBody else EncReturn.nil))) ∧
      ((∀ x ∈ taggedEndpoint.Result.Responses,
          x.TagName ≠ "" ∧ tagPredicate x createdDraft = false) →
        execEnc createdDraft stmts = ([], none)) :=
  ⟨by decide, responseEncoderT_first_match taggedEndpoint createdDraft (by decide)⟩

/-- C6: for a response with a tag the rendered guard is the plain comparison
`res.<Tag> == "<value>"` when the tag field is required and the nil check followed by the
dereferenced comparison `res.<Tag> != nil && *res.<Tag> == "<value>"` when it is
optional; a response without tag is rendered without guard. -/
theorem responseGuard_form (quote : String → String) (r : ResponseData) (res : Result) :
    (responseGuard r).map (fun g => (g.text quote, g.holds res)) =
      (if r.TagName = "" then none
       else if r.TagRequired then
         some ("res." ++ r.TagName ++ " == " ++ quote r.TagValue,
               res r.TagName == some r.TagValue)
       else
         some ("res." ++ r.TagName ++ " != nil && *res." ++ r.TagName ++ " == " ++
                 quote r.TagValue,
               (res r.TagName).isSome && res r.TagName == some r.TagValue)) ∧
    renderResponse r =
      (if r.TagName = "" then
         [EncStmt.response r,
          if r.ServerBody.isSome then EncStmt.returnEncode else EncStmt.returnNil]
       else
         [EncStmt.ifThen
           (if r.TagRequired then Guard.eq r.TagName r.TagValue
            else Guard.nonNilEq r.TagName r.TagValue)
           [EncStmt.response r,
            if r.ServerBody.isSome then EncStmt.returnEncode else EncStmt.returnNil]]) := by
  constructor
  · unfold responseGuard
    by_cases ht : r.TagName = ""
    · simp [ht]
    · by_cases hr : r.TagRequired = true
      · simp [ht, hr, Guard.text, Guard.holds]
      · simp [ht, hr, Guard.text, Guard.holds]
        cases res r.TagName <;> simp
  · unfold renderResponse responseGuard
    by_cases ht : r.TagName = ""
    · simp [ht]
    · by_cases hr : r.TagRequired = true <;> simp [ht, hr]

/-- Counterexample to C7 as stated: the tag predicate of the response `draft` holds on the
result (its field `Kind` points to `draft`), yet the encoder does not select it, because
the earlier response `created` matches too. -/
theorem tagged_response_not_selected :
    draftResponse.TagName ≠ "" ∧ draftResponse ∈ taggedEndpoint.Result.Responses ∧
    tagPredicate draftResponse createdDraft = true ∧
    ¬ selected taggedEndpoint.Result.Responses createdDraft draftResponse := by
  refine ⟨by decide, by decide, by decide, ?_⟩
  unfold selected
  rw [execEnc_responses]
  decide

/-- C7 (amended): the generated encoder selects a tagged response `R` exactly when the tag
predicate of `R` holds on the result and no response declared before it matches (none is
untagged and none has a tag predicate that holds); at most one response is selected. -/
theorem selected_iff_first_match (rs : List ResponseData) (res : Result)
    (R : ResponseData) (hR : R.TagName ≠ "") :
    (selected rs res R ↔
      tagPredicate R res = true ∧
      ∃ before after, rs = before ++ R :: after ∧
        ∀ x ∈ before, x.TagName ≠ "" ∧ tagPredicate x res = false) ∧
    (execEnc res (rs.flatMap renderResponse)).1.length ≤ 1 := by
  have hexec := execEnc_responses res rs
  constructor
  · unfold selected
    rw [hexec]
    cases hfind : rs.find? (matchesResult res) with
    | none =>
      simp only [List.not_mem_nil, false_iff, not_and, not_exists]
      intro hp before after hsplit hbefore
      rw [List.find?_eq_none] at hfind
      have hmem : R ∈ rs := by rw [hsplit]; simp
      exact hfind R hmem (by simp [matchesResult, hp])
    | some r =>
      simp only [List.mem_singleton, EncEvent.response.injEq]
      constructor
      · intro hEq
        subst hEq
        rw [List.find?_eq_some] at hfind
        obtain ⟨hm, before, after, hsplit, hbefore⟩ := hfind
        refine ⟨?_, before, after, hsplit, ?_⟩
        · simpa [matchesResult, hR] using hm
        · intro x hx
          have := hbefore x hx
          simpa [matchesResult] using this
      · rintro ⟨hp, before, after, hsplit, hbefore⟩
        have hfind2 : rs.find? (matchesResult res) = some R := by
          rw [List.find?_eq_some]
          refine ⟨by simp [matchesResult, hp], before, after, hsplit, ?_⟩
          intro a ha
          obtain ⟨h1, h2⟩ := hbefore a ha
          simp [matchesResult, h1, h2]
        rw [hfind] at hfind2
        exact Option.some.inj hfind2.symm |>.symm ▸ rfl
  · rw [hexec]
    cases rs.find? (matchesResult res) <;> simp

/-- Witness of C7 (amended): the tagged response `created`, declared first. -/
theorem selected_iff_first_match_witness :
    createdResponse.TagName ≠ "" ∧
    ((selected taggedEndpoint.Result.Responses createdDraft createdResponse ↔
      tagPredicate createdResponse createdDraft = true ∧
      ∃ before after, taggedEndpoint.Result.Responses = before ++ createdResponse :: after ∧
        ∀ x ∈ before, x.TagName ≠ "" ∧ tagPredicate x createdDraft = false) ∧
    (execEnc createdDraft
      (taggedEndpoint.Result.Responses.flatMap renderResponse)).1.length ≤ 1) :=
  ⟨by decide, selected_iff_first_match taggedEndpoint.Result.Responses createdDraft
    createdResponse (by decide)⟩

/-- C8: the rendered handler calls the decoder (only when `Payload.Ref` is non-empty),
the endpoint function and the response encoder in that order; the endpoint function is
called only after a successful decoding, with the decoded payload (nil without decoder),
the response encoder only with the result of a successful endpoint call; the error
encoder is called exactly once, with the error of the first failing step, when a step
fails and not at all otherwise, and it is the endpoint's own encoder when the endpoint
declares errors and `goahttp.ErrorEncoder` otherwise. -/
theorem serverHandlerInitT_calls {P R E : Type} (e : EndpointData)
    (deps : HandlerDeps P R E) :
    ((stepCalls (serverHandlerInitT e deps)).map HandlerCall.callee <+:
      (if e.Payload.Ref = "" then [] else ["decodeRequest"]) ++
        ["endpoint", "encodeResponse"]) ∧
    (HandlerCall.decodeRequest ∈ serverHandlerInitT e deps ↔ e.Payload.Ref ≠ "") ∧
    (∀ payload, HandlerCall.endpoint payload ∈ serverHandlerInitT e deps ↔
      (e.Payload.Ref = "" ∧ payload = none) ∨
      (e.Payload.Ref ≠ "" ∧ ∃ p, deps.decodeRequest = .ok p ∧ payload = some p)) ∧
    (∀ res, HandlerCall.encodeResponse res ∈ serverHandlerInitT e deps ↔
      ∃ payload, HandlerCall.endpoint payload ∈ serverHandlerInitT e deps ∧
        deps.endpoint payload = .ok res) ∧
    errorCalls (serverHandlerInitT e deps) =
      (firstFailure e deps).toList.map (fun err =>
        (if e.Errors = [] then "goahttp.ErrorEncoder" else e.ErrorEncoder, err)) := by
  have hname : errorEncoderName e =
      (if e.Errors = [] then "goahttp.ErrorEncoder" else e.ErrorEncoder) := by
    unfold errorEncoderName
    by_cases h : e.Errors = [] <;> simp [h]
  by_cases hRef : e.Payload.Ref = ""
  · cases hep : deps.endpoint none with
    | error err =>
      simp [serverHandlerInitT, handlerFromEndpoint, firstFailure, errorCalls, stepCalls,
        HandlerCall.callee, hRef, hep, hname]
    | ok res =>
      cases hen : deps.encodeResponse res <;>
        simp [serverHandlerInitT, handlerFromEndpoint, firstFailure, errorCalls, stepCalls,
          HandlerCall.callee, hRef, hep, hen, hname] <;>
        exact fun _ => eq_comm
  · cases hdec : deps.decodeRequest with
    | error err =>
      simp [serverHandlerInitT, firstFailure, errorCalls, stepCalls,
        HandlerCall.callee, hRef, hdec, hname]
    | ok p =>
      cases hep : deps.endpoint (some p) with
      | error err =>
        simp [serverHandlerInitT, handlerFromEndpoint, firstFailure, errorCalls, stepCalls,
          HandlerCall.callee, hRef, hdec, hep, hname]
      | ok res =>
        cases hen : deps.encodeResponse res <;>
          simp [serverHandlerInitT, handlerFromEndpoint, firstFailure, errorCalls,
            stepCalls, HandlerCall.callee, hRef, hdec, hep, hen, hname] <;>
          exact fun _ => eq_comm

/-- On a request whose decoding succeeds and whose endpoint call fails, the handler of
`Show` calls the decoder, the endpoint function and then its own error encoder, once. -/
theorem serverHandlerInitT_endpoint_error :
    serverHandlerInitT showEndpoint endpointFails =
      [.decodeRequest, .endpoint (some "payload"),
       .encodeError "EncodeShowError" "not found"] := by
  rfl

/-- C9 (failing input): for the required query string parameter `ids` of an array type
other than string array, the missing-value check is rendered as a `return` of the merged
error and not as an assignment to `err`; on a request that has neither `ids` nor `name`
the decoder returns the error of `ids` alone and never reads `name`. With the same
parameters as headers both missing fields are reported. -/
theorem requestDecoderT_slice_returns :
    renderQueryParam idsParam =
      some [.block [.read "idsRaw" (.queryValues "ids"),
                    .ifThen (.isNil "idsRaw") [.returnMergeMissing "ids" "query string"],
                    .convert "slice_conversion" "ids"]] ∧
    runDecoder emptyRequest listEndpoint =
      some ([.read (.queryValues "ids")],
            .error [.missingField "ids" "query string"]) ∧
    runDecoder emptyRequest listHeaderEndpoint =
      some ([.read (.headerValues "Ids"), .convert "slice_conversion" "ids",
             .read (.headerGet "name")],
            .error [.missingField "ids" "header", .missingField "name" "header"]) := by
  refine ⟨rfl, rfl, rfl⟩

/-- The rendered decoder starts with the decoding of the body. -/
theorem requestDecoderT_starts_with_body (e : EndpointData) (stmts : List DecStmt)
    (hrender : requestDecoderT e = some stmts) :
    ∃ rest, stmts = renderBody e ++ rest := by
  unfold requestDecoderT at hrender
  simp only [bind, Option.bind, pure] at hrender
  split at hrender
  · split at hrender
    · exact absurd hrender (by simp)
    · have h := Option.some.inj hrender
      exact ⟨_, by rw [← h, List.append_assoc, List.append_assoc]⟩
  · have h := Option.some.inj hrender
    exact ⟨_, by rw [← h, List.append_assoc, List.append_assoc]⟩

/-- A decoder that starts with the declaration of `body` and the decoding statement has
the decoding of the body as its first event. -/
theorem execDec_decodeBody_first (w : World) (type : String) (tail : List DecStmt)
    (st : DecState) :
    ∃ evs flow,
      execDec w (.varBody type :: .decodeBody :: tail) st = (DecEvent.decodeBody :: evs, flow) := by
  rcases h : execDec w tail { st with err := w.decode.toList } with ⟨ev2, flow⟩
  exact ⟨ev2, flow, by simp [execDec, execDecStmt, h]⟩

/-- C10: for an endpoint with a structured request body and no multipart decoder, the
rendered decoder decodes the body before it reads any parameter; when decoding fails it
returns at once without payload and without reading a parameter, `MissingPayloadError`
for the end of input and `DecodePayloadError` with the decoding error otherwise; when the
body type has a validation reference and validation fails, it returns the error before
reading a parameter. -/
theorem requestDecoderT_body_first (w : World) (e : EndpointData) (body : TypeData)
    (stmts : List DecStmt)
    (hmp : e.MultipartRequestDecoder = none)
    (hbody : e.Payload.Request.ServerBody = some body)
    (hrender : requestDecoderT e = some stmts) :
    (∃ evs flow, execDec w stmts {} = (DecEvent.decodeBody :: evs, flow)) ∧
    (w.decode = some .eof →
      execDec w stmts {} = ([.decodeBody], .ret .missingPayload)) ∧
    (∀ err, w.decode = some err → err ≠ .eof →
      execDec w stmts {} = ([.decodeBody], .ret (.decodePayloadError [err]))) ∧
    (w.decode = none → body.ValidateRef ≠ "" → w.snippet body.ValidateRef ≠ [] →
      execDec w stmts {} =
        ([.decodeBody, .code body.ValidateRef],
         .ret (.error (w.snippet body.ValidateRef)))) := by
  obtain ⟨rest, hrest⟩ := requestDecoderT_starts_with_body e stmts hrender
  have hb : renderBody e =
      [.varBody body.VarName, .decodeBody,
       .ifThen .errNotNil
         [.ifThen .errIsEOF [.returnMissingPayload], .returnDecodePayloadError]] ++
      (if body.ValidateRef ≠ "" then
        [.code body.ValidateRef, .ifThen .errNotNil [.returnErr]]
       else []) := by
    simp [renderBody, hmp, hbody]
  rw [hrest, hb]
  refine ⟨?_, ?_, ?_, ?_⟩
  · simp only [List.cons_append]
    exact execDec_decodeBody_first w _ _ _
  · intro hd
    simp [execDec, execDecStmt, evalCond, hd]
  · intro err hd hne
    simp [execDec, execDecStmt, evalCond, hd, hne]
  · intro hd hv hs
    simp [execDec, execDecStmt, evalCond, hd, hv, hs, MergeErrors]

/-- Witness of C10: the endpoint `Create` (validated body, required header) on a request
with an empty body. -/
theorem requestDecoderT_body_first_witness :
    createEndpoint.MultipartRequestDecoder = none ∧
    createEndpoint.Payload.Request.ServerBody = some validatedBody ∧
    requestDecoderT createEndpoint = some createDecoder ∧
    ((∃ evs flow, execDec emptyBodyRequest createDecoder {} =
        (DecEvent.decodeBody :: evs, flow)) ∧
     (emptyBodyRequest.decode = some .eof →
       execDec emptyBodyRequest createDecoder {} = ([.decodeBody], .ret .missingPayload)) ∧
     (∀ err, emptyBodyRequest.decode = some err → err ≠ .eof →
       execDec emptyBodyRequest createDecoder {} =
         ([.decodeBody], .ret (.decodePayloadError [err]))) ∧
     (emptyBodyRequest.decode = none → validatedBody.ValidateRef ≠ "" →
       emptyBodyRequest.snippet validatedBody.ValidateRef ≠ [] →
       execDec emptyBodyRequest createDecoder {} =
         ([.decodeBody, .code validatedBody.ValidateRef],
          .ret (.error (emptyBodyRequest.snippet validatedBody.ValidateRef))))) :=
  ⟨rfl, rfl, rfl,
   requestDecoderT_body_first emptyBodyRequest createEndpoint validatedBody createDecoder
     rfl rfl rfl⟩

/-- On a request with an empty body the decoder of `Create` returns
`MissingPayloadError` and reads no header. -/
theorem runDecoder_empty_body :
    runDecoder emptyBodyRequest createEndpoint = some ([.decodeBody], .missingPayload) := by
  rfl

/-- Witness of C1 on `ServerHostingServiceSubsetDSL`: `Service` and `IgnoredService` each
get their pair of files. -/
theorem ServerFiles_layout_witness :
    (∀ s ∈ subsetRoot.HTTPServices, (exampleEnv.HTTPServices s.Name).isSome) ∧
    ∃ fw, ServerFiles exampleEnv "goa.design/gen" subsetRoot = some fw ∧
      fw.length = 2 * subsetRoot.HTTPServices.length ∧
      (∀ i, i < subsetRoot.HTTPServices.length →
        ∃ s f g, subsetRoot.HTTPServices[i]? = some s ∧
          server exampleEnv "goa.design/gen" s = some f ∧ fw[i]? = some (some f) ∧
          serverEncodeDecode exampleEnv "goa.design/gen" s = some g ∧
          fw[subsetRoot.HTTPServices.length + i]? = some (some g)) ∧
      (subsetRoot.HTTPServices = [] → fw = []) :=
  ⟨by decide, ServerFiles_layout exampleEnv "goa.design/gen" subsetRoot (by decide)⟩

/-- The loop of `printValue` fills the slots after `pre` with the results of the calls,
in order. -/
theorem printLoop_eq (f : Value → Option String) :
    ∀ (vs : List Value) (pre post : List String),
      printLoop f vs pre.length (pre ++ List.replicate vs.length "" ++ post) =
        (allSome (vs.map f)).map (fun ss => pre ++ ss ++ post) := by
  intro vs
  induction vs with
  | nil => intro pre post; simp [printLoop, allSome]
  | cons v vs ih =>
    intro pre post
    cases hv : f v with
    | none => simp [printLoop, hv, allSome]
    | some str =>
      have hset : (pre ++ List.replicate (v :: vs).length "" ++ post).set pre.length str =
          (pre ++ [str]) ++ List.replicate vs.length "" ++ post := by
        simp [List.replicate_succ, List.set_append]
      have hlen : pre.length + 1 = (pre ++ [str]).length := by simp
      simp only [printLoop, hv]
      rw [hset, hlen, ih (pre ++ [str]) post]
      simp only [List.map_cons, hv, allSome]
      cases allSome (List.map f vs) <;> simp

/-- The results of a list of calls are missing exactly when a call panics. -/
theorem allSome_map_eq_none_iff {α β : Type} (f : α → Option β) (l : List α) :
    allSome (l.map f) = none ↔ ∃ x ∈ l, f x = none := by
  induction l with
  | nil => simp [allSome]
  | cons x xs ih =>
    cases hx : f x with
    | none => simp [allSome, hx]
    | some y =>
      cases hxs : allSome (List.map f xs) with
      | none =>
        simp only [List.map_cons, hx, allSome, hxs, true_iff]
        obtain ⟨z, hz, hfz⟩ := ih.mp hxs
        exact ⟨z, List.mem_cons_of_mem x hz, hfz⟩
      | some ys =>
        simp only [List.map_cons, hx, allSome, hxs, false_iff, reduceCtorEq]
        rintro ⟨z, hz, hfz⟩
        rcases List.mem_cons.mp hz with h | h
        · rw [h, hx] at hfz
          exact absurd hfz (by simp)
        · have : allSome (List.map f xs) = none := ih.mpr ⟨z, h, hfz⟩
          rw [hxs] at this
          exact absurd this (by simp)

/-- The function `printValue` computes the reference definition. -/
theorem printValue_ref (sprintf : Value → String) :
    ∀ (dt : DataType) (v : Value), printValue sprintf dt v = printValueRef sprintf dt v := by
  intro dt
  induction dt with
  | primitive p => intro v; simp [printValue, printValueRef]
  | array elem ih =>
    intro v
    have hf : printValue sprintf elem = printValueRef sprintf elem := funext ih
    simp only [printValue, printValueRef, hf]
    cases hv : v.elems with
    | none => rfl
    | some vs =>
      have h := printLoop_eq (printValueRef sprintf elem) vs [] []
      simp only [List.length_nil, List.nil_append, List.append_nil] at h
      simp only [h]
      cases allSome (List.map (printValueRef sprintf elem) vs) <;> simp
  | map k e _ _ => intro v; simp [printValue, printValueRef]
  | object => intro v; simp [printValue, printValueRef]
  | userType n => intro v; simp [printValue, printValueRef]

/-- On a value that is a sequence wherever an array type is met, the reference
definition panics exactly when a type that is neither a primitive nor an array is
reached. -/
theorem printValueRef_none_iff (sprintf : Value → String) :
    ∀ (dt : DataType) (v : Value), sequenceAt dt v = true →
      (printValueRef sprintf dt v = none ↔ reachesUnsupported dt v = true) := by
  intro dt
  induction dt with
  | primitive p => intro v _; simp [printValueRef, reachesUnsupported]
  | array elem ih =>
    intro v hseq
    simp only [sequenceAt] at hseq
    simp only [printValueRef, reachesUnsupported]
    cases hv : v.elems with
    | none => simp [hv] at hseq
    | some vs =>
      simp only [hv, List.all_eq_true] at hseq
      simp only [Option.map_eq_none', allSome_map_eq_none_iff, List.any_eq_true]
      constructor
      · rintro ⟨x, hx, hfx⟩
        exact ⟨x, hx, (ih x (hseq x hx)).mp hfx⟩
      · rintro ⟨x, hx, hfx⟩
        exact ⟨x, hx, (ih x (hseq x hx)).mpr hfx⟩
  | map k e _ _ => intro v _; simp [printValueRef, reachesUnsupported]
  | object => intro v _; simp [printValueRef, reachesUnsupported]
  | userType n => intro v _; simp [printValueRef, reachesUnsupported]

/-- C18 (counterexample): for the type array of `int` and the value `5`, which is no
sequence, `printValue` panics (`reflect.Value.Len` on an integer) although evaluation
reaches no type other than an array and a primitive. -/
theorem printValue_scalar_for_array :
    printValue exampleSprintf (.array (.primitive .int)) (.int 5) = none ∧
    reachesUnsupported (.array (.primitive .int)) (.int 5) = false := by
  decide

/-- C18 (amended): `printValue` equals the reference definition for every data type and
value (the default formatting for a primitive; for an array the results for the elements
joined with a comma and a space, the empty string for an empty array, and a panic on a
value that is no sequence; a panic for every other type); it does not panic for an array
of primitives whose value is a slice, and on a value that is a sequence wherever an array
type is met it panics exactly when evaluation reaches a type that is neither a primitive
nor an array. -/
theorem printValue_reference (sprintf : Value → String) :
    (∀ dt v, printValue sprintf dt v = printValueRef sprintf dt v) ∧
    (∀ elem, printValue sprintf (.array elem) (.list []) = some "") ∧
    (∀ p vs, printValue sprintf (.array (.primitive p)) (.list vs) =
      some (String.intercalate ", " (vs.map sprintf))) ∧
    (∀ dt v, sequenceAt dt v = true →
      (printValue sprintf dt v = none ↔ reachesUnsupported dt v = true)) := by
  refine ⟨printValue_ref sprintf, ?_, ?_, ?_⟩
  · intro elem
    rw [printValue_ref]
    simp [printValueRef, Value.elems, allSome, String.intercalate]
  · intro p vs
    rw [printValue_ref]
    have hf : printValueRef sprintf (.primitive p) = fun v => some (sprintf v) := by
      funext v
      simp [printValueRef]
    have hm : allSome (vs.map (fun v => some (sprintf v))) = some (vs.map sprintf) := by
      induction vs with
      | nil => rfl
      | cons x xs ih => simp only [List.map_cons, allSome, ih]
    simp only [printValueRef, Value.elems, hf, hm, Option.map_some']
  · intro dt v hseq
    rw [printValue_ref]
    exact printValueRef_none_iff sprintf dt v hseq

/-- A nested loop appending one element per inner item. -/
theorem foldl_foldl_append {α β γ : Type} (inner : α → List β) (g : α → β → γ)
    (l : List α) (init : List γ) :
    l.foldl (fun acc x => (inner x).foldl (fun acc y => acc ++ [g x y]) acc) init =
      init ++ l.flatMap (fun x => (inner x).map (g x)) := by
  induction l generalizing init with
  | nil => simp
  | cons x xs ih =>
    rw [List.foldl_cons, ih, foldl_append_single]
    simp [List.flatMap_cons, List.append_assoc]

/-- C19: the `Mounts` list rendered by `serverInitT` has one entry per endpoint and route,
in endpoint order and then route order, with the name of the method (`Method.VarName`),
the verb and the path of the route, followed by one entry per file server and request
path, in declaration order, with the file path, the verb GET and the request path; its
length is the sum of the route counts plus the sum of the request-path counts; the server
struct has one handler field per endpoint; for `Files("/file.json", "path.json")` the
only entry is `{"path.json", "GET", "/file.json"}`. -/
theorem serverInitT_mounts (d : ServiceData) :
    (serverInitT d).Mounts =
      d.Endpoints.flatMap (fun e => e.Routes.map (fun r =>
        ({ Method := e.Method.VarName, Verb := r.Verb, Pattern := r.Path } : MountPoint))) ++
      d.FileServers.flatMap (fun fs => fs.RequestPaths.map (fun path =>
        ({ Method := fs.FilePath, Verb := "GET", Pattern := path } : MountPoint))) ∧
    (serverInitT d).Mounts.length =
      (d.Endpoints.map (fun e => e.Routes.length)).sum +
      (d.FileServers.map (fun fs => fs.RequestPaths.length)).sum ∧
    (serverStructT d).Handlers = d.Endpoints.map (fun e => e.Method.VarName) ∧
    (serverStructT d).Handlers.length = d.Endpoints.length ∧
    (serverInitT fileServerData).Mounts =
      [{ Method := "path.json", Verb := "GET", Pattern := "/file.json" }] := by
  have hm : (serverInitT d).Mounts =
      d.Endpoints.flatMap (fun e => e.Routes.map (fun r =>
        ({ Method := e.Method.VarName, Verb := r.Verb, Pattern := r.Path } : MountPoint))) ++
      d.FileServers.flatMap (fun fs => fs.RequestPaths.map (fun path =>
        ({ Method := fs.FilePath, Verb := "GET", Pattern := path } : MountPoint))) := by
    simp only [serverInitT]
    rw [foldl_foldl_append (fun fs : FileServerData => fs.RequestPaths)
        (fun fs path => ({ Method := fs.FilePath, Verb := "GET", Pattern := path } : MountPoint)),
      foldl_foldl_append (fun e : EndpointData => e.Routes)
        (fun e r => ({ Method := e.Method.VarName, Verb := r.Verb, Pattern := r.Path } : MountPoint))]
    simp
  have hf : (serverStructT d).Handlers = d.Endpoints.map (fun e => e.Method.VarName) := by
    simp only [serverStructT]
    rw [foldl_append_single (fun e : EndpointData => e.Method.VarName)]
    simp
  refine ⟨hm, ?_, hf, by rw [hf, List.length_map], by rfl⟩
  rw [hm]
  simp [List.length_flatMap, Function.comp_def]

/-- A `flatMap` of singletons is a `map`. -/
theorem flatMap_singleton_map {α β : Type} (f : α → β) (l : List α) :
    l.flatMap (fun x => [f x]) = l.map f := by
  induction l with
  | nil => rfl
  | cons x xs ih => simp [List.flatMap_cons, ih]

/-- C20: for every file server the mount function rendered by `serverMountT` mounts
`http.FileServer(http.Dir(<path>))` when the path is a directory and a handler calling
`http.ServeFile` with the quoted path otherwise; `fileServerT` registers the handler under
GET for each request path of the file server and nothing else; the mount function has the
parameter `h` exactly when the service has an endpoint and refers to `h` exactly then. -/
theorem serverMountT_file_servers (quote : String → String) (d : ServiceData) :
    (serverMountT quote d).Body =
      d.Endpoints.map (fun e => MountStmt.endpoint e.MountHandler e.Method.VarName) ++
      d.FileServers.map (fun fs =>
        if fs.IsDir then MountStmt.dir fs.MountHandler (quote fs.FilePath)
        else MountStmt.file fs.MountHandler (quote fs.FilePath)) ∧
    (∀ fs : FileServerData, fileServerT fs =
      fs.RequestPaths.map (fun path => ({ Verb := "GET", Pattern := path } : Registration))) ∧
    (serverMountT quote d).Params =
      (if d.Endpoints = [] then ["mux goahttp.Muxer"]
       else ["mux goahttp.Muxer", "h *" ++ d.ServerStruct]) ∧
    ((serverMountT quote d).Body.any MountStmt.usesH = true ↔ d.Endpoints ≠ []) ∧
    (serverMountT quote fileServerData).Body = [.file "MountPathJSON" (quote "path.json")] ∧
    fileServerT { FilePath := "path.json", RequestPaths := ["/file.json"] } =
      [{ Verb := "GET", Pattern := "/file.json" }] := by
  have hb : (serverMountT quote d).Body =
      d.Endpoints.map (fun e => MountStmt.endpoint e.MountHandler e.Method.VarName) ++
      d.FileServers.map (fun fs =>
        if fs.IsDir then MountStmt.dir fs.MountHandler (quote fs.FilePath)
        else MountStmt.file fs.MountHandler (quote fs.FilePath)) := by
    simp only [serverMountT]
    rw [foldl_eq_append_flatMap (fun fs : FileServerData =>
        [if fs.IsDir then MountStmt.dir fs.MountHandler (quote fs.FilePath)
         else MountStmt.file fs.MountHandler (quote fs.FilePath)]),
      foldl_append_single (fun e : EndpointData =>
        MountStmt.endpoint e.MountHandler e.Method.VarName)]
    · rw [flatMap_singleton_map]
      simp
    · intro acc fs
      by_cases h : fs.IsDir = true <;> simp [h]
  refine ⟨hb, ?_, ?_, ?_, by rfl, by rfl⟩
  · intro fs
    simp only [fileServerT]
    rw [foldl_append_single (fun path : String =>
        ({ Verb := "GET", Pattern := path } : Registration))]
    simp
  · by_cases h : d.Endpoints = [] <;> simp [serverMountT, h]
  · rw [hb, List.any_eq_true]
    constructor
    · rintro ⟨stmt, hmem, huse⟩
      rcases List.mem_append.mp hmem with h | h
      · obtain ⟨e, he, _⟩ := List.mem_map.mp h
        exact List.ne_nil_of_mem he
      · obtain ⟨fs, _, hfs⟩ := List.mem_map.mp h
        by_cases hd : fs.IsDir = true <;> simp [hd] at hfs <;>
          simp [← hfs, MountStmt.usesH] at huse
    · intro hne
      obtain ⟨e, he⟩ := List.exists_mem_of_ne_nil _ hne
      exact ⟨.endpoint e.MountHandler e.Method.VarName,
        List.mem_append.mpr (Or.inl (List.mem_map.mpr ⟨e, he, rfl⟩)), rfl⟩

/-- Execution of two statement lists in a row. -/
theorem execResp_append (res : Result) (a b : List RespStmt) (val : Option String) :
    execResp res (a ++ b) val =
      match execResp res a val with
      | none => none
      | some (ev, val2) =>
        match execResp res b val2 with
        | none => none
        | some (ev2, val3) => some (ev ++ ev2, val3) := by
  induction a generalizing val with
  | nil =>
    cases hb : execResp res b val with
    | none => simp [execResp, hb]
    | some p => simp [execResp, hb]
  | cons s rest ih =>
    rw [List.cons_append, execResp, execResp]
    cases hs : execRespStmt res s val with
    | none => rfl
    | some p =>
      obtain ⟨ev, val2⟩ := p
      simp only []
      rw [ih]
      cases execResp res rest val2 with
      | none => rfl
      | some q =>
        obtain ⟨ev2, val3⟩ := q
        simp only []
        cases execResp res b val3 with
        | none => rfl
        | some q2 => simp [List.append_assoc]

/-- With `required` true the scalar cases of `header_conversion` render no
dereference. -/
theorem scalarFormat_required (name : String) (expr : FormatExpr)
    (h : scalarFormat name true = some expr) : expr.derefs = false := by
  unfold scalarFormat at h
  by_cases h0 : name = "boolean"
  · rw [if_pos h0] at h; cases h; rfl
  rw [if_neg h0] at h
  by_cases h1 : name = "int"
  · rw [if_pos h1] at h; cases h; rfl
  rw [if_neg h1] at h
  by_cases h2 : name = "int32"
  · rw [if_pos h2] at h; cases h; rfl
  rw [if_neg h2] at h
  by_cases h3 : name = "int64"
  · rw [if_pos h3] at h; cases h; rfl
  rw [if_neg h3] at h
  by_cases h4 : name = "uint"
  · rw [if_pos h4] at h; cases h; rfl
  rw [if_neg h4] at h
  by_cases h5 : name = "uint32"
  · rw [if_pos h5] at h; cases h; rfl
  rw [if_neg h5] at h
  by_cases h6 : name = "uint64"
  · rw [if_pos h6] at h; cases h; rfl
  rw [if_neg h6] at h
  by_cases h7 : name = "float32"
  · rw [if_pos h7] at h; cases h; rfl
  rw [if_neg h7] at h
  by_cases h8 : name = "float64"
  · rw [if_pos h8] at h; cases h; rfl
  rw [if_neg h8] at h
  by_cases h9 : name = "string"
  · rw [if_pos h9] at h; cases h; rfl
  rw [if_neg h9] at h
  by_cases h10 : name = "bytes"
  · rw [if_pos h10] at h; cases h; rfl
  rw [if_neg h10] at h
  by_cases h11 : name = "any"
  · rw [if_pos h11] at h; cases h; rfl
  rw [if_neg h11] at h
  by_cases ha : name = "array"
  · rw [if_pos ha] at h; cases h
  rw [if_neg ha] at h; cases h; rfl

/-- With `required` true `header_conversion` renders no dereference. -/
theorem header_conversion_required (t : DataType) (expr : FormatExpr)
    (h : header_conversion t true = some expr) : expr.derefs = false := by
  cases t with
  | array elem =>
    rw [header_conversion] at h
    split at h
    · cases h; rfl
    · cases he : header_conversion elem true with
      | none => rw [he] at h; cases h
      | some e => rw [he] at h; cases h; rfl
  | primitive p => exact scalarFormat_required _ _ h
  | map k e => exact scalarFormat_required _ _ h
  | object => exact scalarFormat_required _ _ h
  | userType n => exact scalarFormat_required _ _ h

/-- The assignment of a header does not panic when the field is not nil. -/
theorem execResp_assign_of_isSome (res : Result) (h : HeaderData) (assign : List RespStmt)
    (val : Option String) (hassign : renderHeaderAssign h = some assign)
    (hfield : (res h.FieldName).isSome = true) :
    (execResp res assign val).isSome = true := by
  unfold renderHeaderAssign at hassign
  obtain ⟨str, hstr⟩ := Option.isSome_iff_exists.mp hfield
  split at hassign
  · cases hassign
    simp [execResp, execRespStmt, hstr]
  · split at hassign
    · cases hassign
    · cases hassign
      simp [execResp, execRespStmt, hstr]

/-- The assignment of a required header does not panic. -/
theorem execResp_assign_of_required (res : Result) (h : HeaderData)
    (assign : List RespStmt) (val : Option String)
    (hassign : renderHeaderAssign h = some assign) (hreq : h.Required = true) :
    (execResp res assign val).isSome = true := by
  unfold renderHeaderAssign at hassign
  split at hassign
  · cases hassign
    cases hf : res h.FieldName <;> simp [execResp, execRespStmt, hf, hreq]
  · split at hassign
    · cases hassign
    · rename_i expr hexpr
      cases hassign
      rw [hreq] at hexpr
      have hd := header_conversion_required _ _ hexpr
      simp [execResp, execRespStmt, hd]

/-- The code of one header of a response without tag does not panic. -/
theorem execResp_header_untagged (sprintf : Value → String) (res : Result)
    (h : HeaderData) (stmts : List RespStmt) (val : Option String)
    (hrender : renderResponseHeader sprintf "" h = some stmts) :
    (execResp res stmts val).isSome = true := by
  unfold renderResponseHeader at hrender
  cases hassign : renderHeaderAssign h with
  | none => simp [hassign] at hrender
  | some assign =>
    simp only [hassign, beq_self_eq_true, Bool.and_true] at hrender
    by_cases hinit : ((h.Pointer || h.Slice) && h.DefaultValue.truthy) = true
    · simp only [hinit, Bool.or_true, if_true] at hrender
      cases hp : printValue sprintf h.Type_ h.DefaultValue with
      | none => simp [hp] at hrender
      | some text =>
        simp only [hp] at hrender
        cases hrender
        cases hf : (res h.FieldName).isSome with
        | true =>
          have := execResp_assign_of_isSome res h assign val hassign hf
          obtain ⟨p, hp2⟩ := Option.isSome_iff_exists.mp this
          simp [execResp, execRespStmt, hf, hp2]
        | false => simp [execResp, execRespStmt, hf]
    · have hinit2 : ((h.Pointer || h.Slice) && h.DefaultValue.truthy) = false := by
        simpa using hinit
      simp only [hinit2, Bool.or_false, Bool.false_eq_true, if_false] at hrender
      by_cases hreq : h.Required = true
      · simp only [hreq, Bool.not_true, Bool.false_eq_true, if_false] at hrender
        cases hrender
        exact execResp_assign_of_required res h stmts val hassign hreq
      · have hreq2 : h.Required = false := by simpa using hreq
        simp only [hreq2, Bool.not_false, if_true] at hrender
        cases hrender
        cases hf : (res h.FieldName).isSome with
        | true =>
          have := execResp_assign_of_isSome res h assign val hassign hf
          obtain ⟨p, hp2⟩ := Option.isSome_iff_exists.mp this
          simp [execResp, execRespStmt, hf, hp2]
        | false => simp [execResp, execRespStmt, hf]

/-- The code of the headers of a response without tag does not panic. -/
theorem execResp_headers_untagged (sprintf : Value → String) (res : Result) :
    ∀ (hs : List HeaderData) (stmts : List RespStmt) (val : Option String),
      renderResponseHeaders sprintf "" hs = some stmts →
      (execResp res stmts val).isSome = true := by
  intro hs
  induction hs with
  | nil =>
    intro stmts val hrender
    simp only [renderResponseHeaders] at hrender
    cases hrender
    rfl
  | cons h hs ih =>
    intro stmts val hrender
    simp only [renderResponseHeaders] at hrender
    cases ha : renderResponseHeader sprintf "" h with
    | none => simp [ha] at hrender
    | some a =>
      cases hb : renderResponseHeaders sprintf "" hs with
      | none => simp [ha, hb] at hrender
      | some b =>
        simp only [ha, hb] at hrender
        cases hrender
        rw [execResp_append]
        obtain ⟨p, hp⟩ := Option.isSome_iff_exists.mp
          (execResp_header_untagged sprintf res h a val ha)
        obtain ⟨ev, val2⟩ := p
        obtain ⟨q, hq⟩ := Option.isSome_iff_exists.mp (ih b val2 hb)
        simp [hp, hq]

/-- When the headers of a response render, each of them does. -/
theorem renderResponseHeaders_mem (sprintf : Value → String) (tagName : String) :
    ∀ (hs : List HeaderData) (stmts : List RespStmt),
      renderResponseHeaders sprintf tagName hs = some stmts →
      ∀ h ∈ hs, ∃ hstmts, renderResponseHeader sprintf tagName h = some hstmts := by
  intro hs
  induction hs with
  | nil => intro stmts _ h hmem; cases hmem
  | cons x xs ih =>
    intro stmts hrender h hmem
    simp only [renderResponseHeaders] at hrender
    cases ha : renderResponseHeader sprintf tagName x with
    | none => simp [ha] at hrender
    | some a =>
      cases hb : renderResponseHeaders sprintf tagName xs with
      | none => simp [ha, hb] at hrender
      | some b =>
        rcases List.mem_cons.mp hmem with h1 | h1
        · exact ⟨a, by rw [h1]; exact ha⟩
        · exact ih b hb h h1

/-- Counterexample to C16 as stated: for a response with a tag the optional header
`X-Lang` is assigned from `*res.Lang` without nil guard, and the block panics on a result
whose field `Lang` is nil. -/
theorem tagged_optional_header_unguarded :
    langHeader.Required = false ∧
    responseT exampleSprintf taggedLangResponse =
      some [.setField "X-Lang" true "Lang", .writeHeader "http.StatusAccepted"] ∧
    execResp draftNoLang
      [.setField "X-Lang" true "Lang", .writeHeader "http.StatusAccepted"] none = none := by
  refine ⟨rfl, rfl, rfl⟩

/-- C16 (amended): in the block rendered for a response without tag, the assignment of
every optional header is enclosed in the nil guard `if res.<Field> != nil` (followed by
the default branch when there is one), and the block never dereferences a nil field: its
execution does not panic on any result. -/
theorem response_nil_guard (sprintf : Value → String) (r : ResponseData)
    (stmts : List RespStmt) (hTag : r.TagName = "")
    (hrender : responseT sprintf r = some stmts) :
    (∀ h ∈ r.Headers, h.Required = false →
      ∃ assign, renderHeaderAssign h = some assign ∧
        (renderResponseHeader sprintf r.TagName h = some [.ifNotNil h.FieldName assign] ∨
         ∃ text, renderResponseHeader sprintf r.TagName h =
           some [.ifNotNilElse h.FieldName assign [.setDefault h.Name text]])) ∧
    (∀ res val, (execResp res stmts val).isSome = true) := by
  unfold responseT at hrender
  rw [hTag] at hrender ⊢
  cases hh : renderResponseHeaders sprintf "" r.Headers with
  | none => simp [hh] at hrender
  | some headers =>
    simp only [hh] at hrender
    constructor
    · intro h hmem hreq
      obtain ⟨hstmts, hhs⟩ := renderResponseHeaders_mem sprintf "" r.Headers headers hh h hmem
      unfold renderResponseHeader at hhs ⊢
      cases hassign : renderHeaderAssign h with
      | none => simp [hassign] at hhs
      | some assign =>
        refine ⟨assign, rfl, ?_⟩
        simp only [hassign, beq_self_eq_true, Bool.and_true, hreq, Bool.not_false,
          Bool.true_or, if_true] at hhs ⊢
        by_cases hinit : ((h.Pointer || h.Slice) && h.DefaultValue.truthy) = true
        · simp only [hinit, if_true] at hhs ⊢
          cases hp : printValue sprintf h.Type_ h.DefaultValue with
          | none => simp [hp] at hhs
          | some text => exact Or.inr ⟨text, rfl⟩
        · have hinit2 : ((h.Pointer || h.Slice) && h.DefaultValue.truthy) = false := by
            simpa using hinit
          simp [hinit2]
    · intro res val
      have hs := Option.some.inj hrender
      rw [← hs, List.append_assoc, execResp_append]
      have hbody : ∃ val2, execResp res (renderResponseBody r) val = some ([], val2) := by
        unfold renderResponseBody
        cases hsb : r.ServerBody with
        | none => exact ⟨val, rfl⟩
        | some b =>
          cases hinit : b.Init with
          | none => exact ⟨val, by simp [execResp, execRespStmt, hinit]⟩
          | some init => exact ⟨val, by simp [execResp, execRespStmt, hinit]⟩
      obtain ⟨val2, hb⟩ := hbody
      rw [hb]
      simp only []
      rw [execResp_append]
      obtain ⟨p, hp⟩ := Option.isSome_iff_exists.mp
        (execResp_headers_untagged sprintf res r.Headers headers val2 hh)
      obtain ⟨ev, val3⟩ := p
      rw [hp]
      simp [execResp, execRespStmt]

/-- Witness of C16 (amended): the response without tag carrying the optional header
`X-Lang`. -/
theorem response_nil_guard_witness :
    langResponse.TagName = "" ∧
    responseT exampleSprintf langResponse =
      some [.ifNotNilElse "Lang" [.setField "X-Lang" true "Lang"]
              [.setDefault "X-Lang" "en"],
            .writeHeader "http.StatusOK"] ∧
    ((∀ h ∈ langResponse.Headers, h.Required = false →
      ∃ assign, renderHeaderAssign h = some assign ∧
        (renderResponseHeader exampleSprintf langResponse.TagName h =
            some [.ifNotNil h.FieldName assign] ∨
         ∃ text, renderResponseHeader exampleSprintf langResponse.TagName h =
           some [.ifNotNilElse h.FieldName assign [.setDefault h.Name text]])) ∧
     (∀ res val, (execResp res
        [.ifNotNilElse "Lang" [.setField "X-Lang" true "Lang"] [.setDefault "X-Lang" "en"],
         .writeHeader "http.StatusOK"] val).isSome = true)) :=
  ⟨rfl, rfl, response_nil_guard exampleSprintf langResponse _ rfl rfl⟩

/-- Counterexample to C17 as stated: the header `X-Lang` has the pointer flag and the
default value `en`, yet for a response with a tag no default branch is rendered and on a
nil field the block panics; the header `X-Rate` has the pointer flag and the default
value 0, for which `printValue` gives the text `0`, yet no default branch is rendered and
on a nil field the header is not set. -/
theorem default_branch_missing :
    (langHeader.Pointer = true ∧
     printValue exampleSprintf langHeader.Type_ langHeader.DefaultValue = some "en" ∧
     responseT exampleSprintf taggedLangResponse =
       some [.setField "X-Lang" true "Lang", .writeHeader "http.StatusAccepted"] ∧
     execResp draftNoLang
       [.setField "X-Lang" true "Lang", .writeHeader "http.StatusAccepted"] none = none) ∧
    (rateHeader.Pointer = true ∧
     printValue exampleSprintf rateHeader.Type_ rateHeader.DefaultValue = some "0" ∧
     responseT exampleSprintf rateResponse =
       some [.ifNotNil "Rate" [.valAssign "Rate", .convert "rates" (.itoa true),
                               .setVar "X-Rate" "rates"],
             .writeHeader "http.StatusOK"] ∧
     execResp draftNoLang
       [.ifNotNil "Rate" [.valAssign "Rate", .convert "rates" (.itoa true),
                          .setVar "X-Rate" "rates"],
        .writeHeader "http.StatusOK"] none =
       some ([.status "http.StatusOK"], none)) := by
  refine ⟨⟨rfl, rfl, rfl, rfl⟩, ⟨rfl, rfl, rfl, rfl⟩⟩

/-- C17 (amended): for a response without tag and a header whose field can be nil (pointer
or slice flag) and whose default value is not empty for the template engine, the
`response` template renders, as the else branch of the nil guard, the statement setting
the header to the text `printValue` gives for the type and the default value; on a result
whose field is nil the header is set to that text. -/
theorem response_default_branch (sprintf : Value → String) (r : ResponseData)
    (h : HeaderData) (text : String) (assign : List RespStmt)
    (hTag : r.TagName = "")
    (hnil : h.Pointer = true ∨ h.Slice = true)
    (hdef : h.DefaultValue.truthy = true)
    (hprint : printValue sprintf h.Type_ h.DefaultValue = some text)
    (hassign : renderHeaderAssign h = some assign) :
    renderResponseHeader sprintf r.TagName h =
      some [.ifNotNilElse h.FieldName assign [.setDefault h.Name text]] ∧
    (∀ res val, res h.FieldName = none →
      execResp res [.ifNotNilElse h.FieldName assign [.setDefault h.Name text]] val =
        some ([.setHeader h.Name (.default text)], val)) := by
  have hps : (h.Pointer || h.Slice) = true := by
    rcases hnil with h1 | h1 <;> simp [h1]
  constructor
  · unfold renderResponseHeader
    simp [hTag, hps, hdef, hprint, hassign]
  · intro res val hf
    simp [execResp, execRespStmt, hf]

/-- Witness of C17 (amended): the header `X-Lang` of a response without tag. -/
theorem response_default_branch_witness :
    langResponse.TagName = "" ∧
    (langHeader.Pointer = true ∨ langHeader.Slice = true) ∧
    langHeader.DefaultValue.truthy = true ∧
    printValue exampleSprintf langHeader.Type_ langHeader.DefaultValue = some "en" ∧
    renderHeaderAssign langHeader = some [.setField "X-Lang" true "Lang"] ∧
    (renderResponseHeader exampleSprintf langResponse.TagName langHeader =
      some [.ifNotNilElse langHeader.FieldName [.setField "X-Lang" true "Lang"]
              [.setDefault langHeader.Name "en"]] ∧
    (∀ res val, res langHeader.FieldName = none →
      execResp res [.ifNotNilElse langHeader.FieldName [.setField "X-Lang" true "Lang"]
                      [.setDefault langHeader.Name "en"]] val =
        some ([.setHeader langHeader.Name (.default "en")], val))) :=
  ⟨rfl, Or.inl rfl, rfl, rfl, rfl,
   response_default_branch exampleSprintf langResponse langHeader "en"
     [.setField "X-Lang" true "Lang"] rfl (Or.inl rfl) rfl rfl rfl⟩

/-- C13: for every supported element type but `uint32`, `slice_item_conversion` renders
the parse call `type_conversion` renders for the scalar type and stores a value of the
element type; for `uint32` the parse call is the same but the value stored into the slice
is `int32(v)`, a value of type `int32` (`4294967295` becomes `-1`), where
`type_conversion` assigns `uint32(v)`. -/
theorem slice_item_conversion_uint32_stores_int32 :
    (∀ P ∈ [Primitive.int, .int32, .int64, .uint, .uint64, .float32, .float64, .boolean,
            .bytes],
      (slice_item_conversion P.Name).parseCall = (type_conversion P.Name false).parseCall ∧
      (slice_item_conversion P.Name).storedType = some P ∧
      (type_conversion P.Name false).storedType = some P) ∧
    (slice_item_conversion "uint32").parseCall = (type_conversion "uint32" false).parseCall ∧
    (type_conversion "uint32" false).storedType = some .uint32 ∧
    (slice_item_conversion "uint32").storedType = some .int32 ∧
    (slice_item_conversion "uint32").evalScalar 64 "ids" "4294967295" "4294967295" =
      some (.int .int32 (-1), []) ∧
    (type_conversion "uint32" false).evalScalar 64 "ids" "4294967295" "4294967295" =
      some (.int .uint32 4294967295, []) := by
  refine ⟨?_, rfl, rfl, rfl, ?_, ?_⟩
  · intro P hP
    simp only [List.mem_cons, List.mem_singleton, List.not_mem_nil, or_false] at hP
    rcases hP with h | h | h | h | h | h | h | h | h <;> subst h <;> exact ⟨rfl, rfl, rfl⟩
  · decide
  · decide

/-- C15 (counterexample): for `bytes` with the pointer flag true, `type_conversion`
renders `<var> = []byte(<var>Raw)`, the same code as with the flag false: the variable
gets the byte slice itself, not its address. -/
theorem type_conversion_bytes_ignores_pointer :
    type_conversion "bytes" true = type_conversion "bytes" false ∧
    (type_conversion "bytes" true).takesAddress = false ∧
    (type_conversion "bytes" true).assign 64 "b" "abc" =
      (some (.scalar (.bytes "abc")), []) := by
  decide

/-- C15 (amended): for the nine supported types other than `bytes`, the code of
`type_conversion` assigns the address of the converted value exactly when the pointer
flag is true, and the value itself on the data of `conversionData`, which has no pointer
flag; for `bytes` it assigns the byte slice itself whatever the flag. -/
theorem type_conversion_pointer :
    (∀ P ∈ [Primitive.int, .int32, .int64, .uint, .uint32, .uint64, .float32, .float64,
            .boolean],
      (∀ pointer, (type_conversion P.Name pointer).takesAddress = pointer) ∧
      (∀ varName name,
        (conversionData varName name (.primitive P)).type_conversion.takesAddress = false) ∧
      (∀ p : ParamData, p.Type_ = .primitive P →
        p.conversionData.type_conversion.takesAddress = p.Pointer)) ∧
    (∀ pointer, type_conversion "bytes" pointer = .bytes ∧
      (type_conversion "bytes" pointer).takesAddress = false) := by
  refine ⟨?_, fun pointer => ⟨rfl, rfl⟩⟩
  intro P hP
  simp only [List.mem_cons, List.mem_singleton, List.not_mem_nil, or_false] at hP
  rcases hP with h | h | h | h | h | h | h | h | h <;> subst h <;>
    refine ⟨fun _ => rfl, fun _ _ => rfl, fun p hp => ?_⟩ <;>
    simp [ParamData.conversionData, ConversionData.type_conversion, hp, DataType.Name,
      Primitive.Name, type_conversion, Conversion.takesAddress]

theorem digitValue_digitChar (d : Nat) (h : d < 10) : digitValue (digitChar d) = some d := by
  interval_cases d <;> decide

theorem digitChar_not_sign (d : Nat) (h : d < 10) :
    digitChar d ≠ '+' ∧ digitChar d ≠ '-' ∧ digitChar d ≠ ',' := by
  interval_cases d <;> decide

theorem decimalValue_append (l : List Char) (c : Char) (n : Nat) :
    decimalValue (l ++ [c]) n =
      (decimalValue l n).bind (fun t => (digitValue c).map (fun d => t * 10 + d)) := by
  induction l generalizing n with
  | nil =>
    simp only [List.nil_append, decimalValue, Option.some_bind]
    cases digitValue c <;> rfl
  | cons a l ih =>
    simp only [List.cons_append, decimalValue]
    cases digitValue a with
    | none => rfl
    | some d => exact ih _

theorem decimalValue_natDigits (fuel n : Nat) (h : n < fuel) :
    decimalValue (natDigits fuel n) 0 = some n := by
  induction fuel generalizing n with
  | zero => omega
  | succ fuel ih =>
    unfold natDigits
    by_cases hn : n < 10
    · rw [if_pos hn]
      simp [decimalValue, digitValue_digitChar n hn]
    · rw [if_neg hn, decimalValue_append, ih (n / 10) (by omega),
        digitValue_digitChar (n % 10) (by omega)]
      simp only [Option.some_bind, Option.map_some']
      congr 1
      omega

theorem decimalValue_le (cs : List Char) (n t : Nat) (h : decimalValue cs n = some t) :
    n ≤ t := by
  induction cs generalizing n with
  | nil => simp [decimalValue] at h; omega
  | cons c cs ih =>
    simp only [decimalValue] at h
    cases hd : digitValue c with
    | none => simp [hd] at h
    | some d =>
      rw [hd] at h
      have := ih _ h
      omega

theorem parseUintLoop_spec (maxVal : Nat) (cs : List Char) (n : Nat) (hn : n ≤ maxVal) :
    match decimalValue cs n with
    | some t =>
      if t ≤ maxVal then parseUintLoop maxVal cs n = (t, none)
      else parseUintLoop maxVal cs n = (maxVal, some .outOfRange)
    | none =>
      (parseUintLoop maxVal cs n).2 ≠ none ∧
      ((parseUintLoop maxVal cs n).2 = some .outOfRange →
        (parseUintLoop maxVal cs n).1 = maxVal) := by
  induction cs generalizing n with
  | nil => simp [decimalValue, parseUintLoop, hn]
  | cons c cs ih =>
    simp only [decimalValue, parseUintLoop]
    cases hd : digitValue c with
    | none => simp
    | some d =>
      simp only []
      by_cases hov : n * 10 + d > maxVal
      · rw [if_pos hov]
        cases ht : decimalValue cs (n * 10 + d) with
        | none => simp
        | some t =>
          have := decimalValue_le _ _ _ ht
          simp only []
          rw [if_neg (by omega)]
          trivial
      · rw [if_neg hov]
        exact ih _ (by omega)

theorem parseUintChars_spec (cs : List Char) (b : Nat) (hcs : cs ≠ []) :
    match decimalValue cs 0 with
    | some t =>
      if t ≤ 2 ^ b - 1 then parseUintChars cs b = (t, none)
      else parseUintChars cs b = (2 ^ b - 1, some .outOfRange)
    | none =>
      (parseUintChars cs b).2 ≠ none ∧
      ((parseUintChars cs b).2 = some .outOfRange → (parseUintChars cs b).1 = 2 ^ b - 1) := by
  have h := parseUintLoop_spec (2 ^ b - 1) cs 0 (Nat.zero_le _)
  cases cs with
  | nil => exact absurd rfl hcs
  | cons c cs => exact h

/-- The part of `ParseInt` after the sign. -/
theorem parseInt_core (neg : Bool) (digits : List Char) (b : Nat) (hb : 2 ≤ b)
    (hne : digits ≠ []) (r : Int × Option NumError)
    (hr : r = match parseUintChars digits b with
      | (_, some .badSyntax) => (0, some .badSyntax)
      | (un, _) =>
        if !neg && decide (un ≥ 2 ^ (b - 1)) then
          (((2 ^ (b - 1) : Nat) : Int) - 1, some .outOfRange)
        else if neg && decide (un > 2 ^ (b - 1)) then
          (-((2 ^ (b - 1) : Nat) : Int), some .outOfRange)
        else (if neg then -(un : Int) else (un : Int), none)) :
    match decimalValue digits 0 with
    | some t =>
      if -(2 : Int) ^ (b - 1) ≤ (if neg then -(t : Int) else (t : Int)) ∧
          (if neg then -(t : Int) else (t : Int)) < (2 : Int) ^ (b - 1) then
        r = ((if neg then -(t : Int) else (t : Int)), none)
      else r.2 ≠ none
    | none => r.2 ≠ none := by
  obtain ⟨k, rfl⟩ : ∃ k, b = k + 1 := ⟨b - 1, by omega⟩
  have hpow : 2 ^ (k + 1) = 2 * 2 ^ k := by rw [pow_succ]; ring
  have hk : 2 ≤ 2 ^ k := by
    obtain ⟨j, rfl⟩ : ∃ j, k = j + 1 := ⟨k - 1, by omega⟩
    have : 1 ≤ 2 ^ j := Nat.one_le_two_pow
    rw [pow_succ]; omega
  simp only [Nat.add_sub_cancel] at hr ⊢
  have hcast : ((2 : Int) ^ k) = ((2 ^ k : Nat) : Int) := by push_cast; rfl
  rw [hcast]
  generalize 2 ^ k = C at hr hpow hk ⊢
  have h := parseUintChars_spec digits (k + 1) hne
  rw [hpow] at h
  cases hdv : decimalValue digits 0 with
  | none =>
    rw [hdv] at h
    simp only [] at h ⊢
    rcases hp : parseUintChars digits (k + 1) with ⟨un, e⟩
    rw [hp] at h hr
    cases e with
    | none => exact absurd rfl h.1
    | some e =>
      cases e with
      | badSyntax => simp [hr]
      | outOfRange =>
        have hun : un = 2 * C - 1 := h.2 rfl
        subst hun
        cases neg
        · have : 2 * C - 1 ≥ C := by omega
          simp [hr, this]
        · have : 2 * C - 1 > C := by omega
          simp [hr, this]
  | some t =>
    rw [hdv] at h
    simp only [] at h ⊢
    by_cases ht : t ≤ 2 * C - 1
    · rw [if_pos ht] at h
      rw [h] at hr
      cases neg
      · simp only [Bool.not_false, Bool.true_and, Bool.false_and, Bool.false_eq_true,
          if_false] at hr ⊢
        by_cases hc : t ≥ C
        · have : ¬ ((t : Int) < (C : Int)) := by omega
          simp [hr, hc, this]
        · have : ((t : Int) < (C : Int)) := by omega
          have h2 : -(C : Int) ≤ (t : Int) := by omega
          simp [hr, hc, this, h2]
      · simp only [Bool.not_true, Bool.false_and, Bool.true_and, Bool.false_eq_true,
          if_false, if_true] at hr ⊢
        by_cases hc : t > C
        · have : ¬ (-(C : Int) ≤ -(t : Int)) := by omega
          simp [hr, hc, this]
        · have : (-(C : Int) ≤ -(t : Int)) := by omega
          have h2 : -(t : Int) < (C : Int) := by omega
          simp [hr, hc, this, h2]
    · rw [if_neg ht] at h
      rw [h] at hr
      cases neg
      · have h1 : 2 * C - 1 ≥ C := by omega
        have : ¬ ((t : Int) < (C : Int)) := by omega
        simp [hr, h1, this]
      · have h1 : 2 * C - 1 > C := by omega
        have : ¬ (-(C : Int) ≤ -(t : Int)) := by omega
        simp [hr, h1, this]

theorem ParseInt_spec (s : String) (b : Nat) (hb : 2 ≤ b) :
    match numeral true s with
    | some z =>
      if -(2 : Int) ^ (b - 1) ≤ z ∧ z < (2 : Int) ^ (b - 1) then ParseInt s b = (z, none)
      else (ParseInt s b).2 ≠ none
    | none => (ParseInt s b).2 ≠ none := by
  unfold numeral ParseInt
  cases hs : s.data with
  | nil => simp
  | cons c cs =>
    simp only [Bool.true_and]
    by_cases hsign : (c == '+' || c == '-') = true
    · rw [if_pos hsign, if_pos hsign]
      cases cs with
      | nil => simp [parseUintChars]
      | cons d ds =>
        have h := parseInt_core (c == '-') (d :: ds) b hb (List.cons_ne_nil _ _) _ rfl
        cases hdv : decimalValue (d :: ds) 0 with
        | none => rw [hdv] at h; simpa using h
        | some t => rw [hdv] at h; simpa using h
    · rw [if_neg hsign, if_neg hsign]
      have hneg : (c == '-') = false := by
        cases hc : (c == '-')
        · rfl
        · simp [hc] at hsign
      have h := parseInt_core false (c :: cs) b hb (List.cons_ne_nil _ _) _ rfl
      rw [hneg]
      cases hdv : decimalValue (c :: cs) 0 with
      | none => rw [hdv] at h; simpa using h
      | some t => rw [hdv] at h; simpa using h

theorem ParseUint_spec (s : String) (b : Nat) :
    match numeral false s with
    | some z =>
      if z < (2 : Int) ^ b then ParseUint s b = (z.toNat, none) ∧ 0 ≤ z
      else (ParseUint s b).2 ≠ none
    | none => (ParseUint s b).2 ≠ none := by
  unfold numeral ParseUint
  cases hs : s.data with
  | nil => simp [parseUintChars]
  | cons c cs =>
    simp only [Bool.false_and, Bool.false_eq_true, if_false]
    have h := parseUintChars_spec (c :: cs) b (List.cons_ne_nil _ _)
    have hpos : 1 ≤ 2 ^ b := Nat.one_le_two_pow
    have hcast : ((2 : Int) ^ b) = ((2 ^ b : Nat) : Int) := by push_cast; rfl
    rw [hcast]
    generalize 2 ^ b = M at h hpos ⊢
    cases hdv : decimalValue (c :: cs) 0 with
    | none => rw [hdv] at h; simpa using h.1
    | some t =>
      rw [hdv] at h
      simp only [Option.map_some'] at h ⊢
      by_cases ht : t ≤ M - 1
      · rw [if_pos ht] at h
        have : (t : Int) < (M : Int) := by omega
        simp [h, this]
      · rw [if_neg ht] at h
        have : ¬ (t : Int) < (M : Int) := by omega
        simp [h, this]

theorem wrapTo_of_inRange (intSize : Nat) (P : Primitive) (z : Int)
    (hb : ∀ s b, bitsOf intSize P = some (s, b) → 1 ≤ b)
    (h : inRange intSize P z = true) : wrapTo intSize P z = z := by
  unfold inRange at h
  unfold wrapTo
  cases hP : bitsOf intSize P with
  | none => rfl
  | some sb =>
    obtain ⟨sg, b⟩ := sb
    have hb1 := hb sg b hP
    rw [hP] at h
    obtain ⟨k, rfl⟩ : ∃ k, b = k + 1 := ⟨b - 1, by omega⟩
    cases sg
    · simp only [Bool.and_eq_true, decide_eq_true_eq] at h ⊢
      exact Int.emod_eq_of_lt h.1 h.2
    · simp only [Bool.and_eq_true, decide_eq_true_eq, Nat.add_sub_cancel] at h ⊢
      have hpow : (2 : Int) ^ (k + 1) = 2 * 2 ^ k := by rw [pow_succ]; ring
      rw [hpow, Int.emod_eq_of_lt (by omega) (by omega)]
      omega

theorem signed_conversion (intSize b : Nat) (hb : 2 ≤ b) (P : Primitive)
    (hP : bitsOf intSize P = some (true, b)) (cast : Option Primitive)
    (hcast : cast.getD .int64 = P) (bs : BitSize) (hbs : bs.value intSize = b)
    (kind : String) (pointer : Bool) (name rep s : String) :
    ∃ v errs,
      (Conversion.parse .ParseInt (some 10) (some bs) kind cast pointer).evalScalar
        intSize name rep s = some (.int P v, errs) ∧
      (errs = [] ↔ ∃ z, numeral true s = some z ∧ inRange intSize P z = true) ∧
      (∀ z, numeral true s = some z → inRange intSize P z = true → v = z) := by
  have hspec := ParseInt_spec s b hb
  have hwrap : ∀ z, inRange intSize P z = true → wrapTo intSize P z = z := fun z hz =>
    wrapTo_of_inRange intSize P z (fun s2 b2 h2 => by rw [hP] at h2; cases h2; omega) hz
  have hrange : ∀ z, inRange intSize P z = true ↔
      (-(2 : Int) ^ (b - 1) ≤ z ∧ z < (2 : Int) ^ (b - 1)) := by
    intro z
    simp [inRange, hP]
  simp only [Conversion.evalScalar, hbs, hcast]
  refine ⟨_, _, rfl, ?_, ?_⟩
  · cases hn : numeral true s with
    | none =>
      rw [hn] at hspec
      simp only [] at hspec
      cases he : (ParseInt s b).2 with
      | none => exact absurd he hspec
      | some e => simp
    | some z =>
      rw [hn] at hspec
      simp only [] at hspec
      by_cases hz : -(2 : Int) ^ (b - 1) ≤ z ∧ z < (2 : Int) ^ (b - 1)
      · rw [if_pos hz] at hspec
        simp [hspec, (hrange z).2 hz]
      · rw [if_neg hz] at hspec
        have hz2 : ¬ inRange intSize P z = true := fun h => hz ((hrange z).1 h)
        cases he : (ParseInt s b).2 with
        | none => exact absurd he hspec
        | some e => simp [hz2]
  · intro z hn hz
    rw [hn] at hspec
    simp only [] at hspec
    rw [if_pos ((hrange z).1 hz)] at hspec
    rw [hspec]
    cases cast with
    | none => rfl
    | some t =>
      simp only [Option.getD_some] at hcast
      subst hcast
      exact hwrap z hz

theorem unsigned_conversion (intSize b : Nat) (hb : 1 ≤ b) (P : Primitive)
    (hP : bitsOf intSize P = some (false, b)) (cast : Option Primitive)
    (hcast : cast.getD .uint64 = P) (bs : BitSize) (hbs : bs.value intSize = b)
    (kind : String) (pointer : Bool) (name rep s : String) :
    ∃ v errs,
      (Conversion.parse .ParseUint (some 10) (some bs) kind cast pointer).evalScalar
        intSize name rep s = some (.int P v, errs) ∧
      (errs = [] ↔ ∃ z, numeral false s = some z ∧ inRange intSize P z = true) ∧
      (∀ z, numeral false s = some z → inRange intSize P z = true → v = z) := by
  have hspec := ParseUint_spec s b
  have hwrap : ∀ z, inRange intSize P z = true → wrapTo intSize P z = z := fun z hz =>
    wrapTo_of_inRange intSize P z (fun s2 b2 h2 => by rw [hP] at h2; cases h2; omega) hz
  have hrange : ∀ z, inRange intSize P z = true ↔ (0 ≤ z ∧ z < (2 : Int) ^ b) := by
    intro z
    simp [inRange, hP]
  simp only [Conversion.evalScalar, hbs, hcast]
  refine ⟨_, _, rfl, ?_, ?_⟩
  · cases hn : numeral false s with
    | none =>
      rw [hn] at hspec
      simp only [] at hspec
      cases he : (ParseUint s b).2 with
      | none => exact absurd he hspec
      | some e => simp
    | some z =>
      rw [hn] at hspec
      simp only [] at hspec
      by_cases hz : z < (2 : Int) ^ b
      · rw [if_pos hz] at hspec
        simp [hspec.1, (hrange z).2 ⟨hspec.2, hz⟩]
      · rw [if_neg hz] at hspec
        have hz2 : ¬ inRange intSize P z = true := fun h => hz ((hrange z).1 h).2
        cases he : (ParseUint s b).2 with
        | none => exact absurd he hspec
        | some e => simp [hz2]
  · intro z hn hz
    rw [hn] at hspec
    simp only [] at hspec
    rw [if_pos ((hrange z).1 hz).2] at hspec
    rw [hspec.1]
    have hzz : ((z.toNat : Nat) : Int) = z := Int.toNat_of_nonneg hspec.2
    cases cast with
    | none => exact hzz
    | some t =>
      simp only [Option.getD_some] at hcast
      subst hcast
      simp only [hzz]
      exact hwrap z hz

/-- C14 (counterexample): the string `+5` denotes 5, a value in the range of `uint`; the
code `type_conversion` renders for `uint` calls `strconv.ParseUint`, which allows no sign,
and merges an `InvalidFieldType` error. -/
theorem unsigned_rejects_plus_sign :
    numeral true "+5" = some 5 ∧ inRange 64 .uint 5 = true ∧
    (type_conversion "uint" false).parseCall = some (.ParseUint, some 10, some .IntSize) ∧
    (type_conversion "uint" false).evalScalar 64 "n" "+5" "+5" =
      some (.int .uint 0, [.invalidFieldType "n" "+5" "unsigned integer"]) := by
  decide

/-- C14 (amended): the parse `type_conversion` renders for a numeric type is in base 10 for
the integers, with the bit size of the type (`strconv.IntSize` for `int` and `uint`, 32
for `int32`, `uint32` and `float32`, 64 for `int64`, `uint64` and `float64`), `ParseInt`
for the signed and `ParseUint` for the unsigned types, `ParseFloat` for the floats, whose
result is assigned as `float32(v)` and as `v`; and on a platform of 32 or 64 bits the code
for an integer type `P` merges no error on a string exactly when the string is a decimal
numeral of a value in the range of `P` (digits after an optional sign when `P` is signed,
digits alone when it is unsigned), and then assigns that value. -/
theorem type_conversion_numeric (intSize : Nat) (hi : intSize = 32 ∨ intSize = 64) :
    (∀ pointer,
      (type_conversion "int" pointer).parseCall = some (.ParseInt, some 10, some .IntSize) ∧
      (type_conversion "int32" pointer).parseCall =
        some (.ParseInt, some 10, some (.bits 32)) ∧
      (type_conversion "int64" pointer).parseCall =
        some (.ParseInt, some 10, some (.bits 64)) ∧
      (type_conversion "uint" pointer).parseCall =
        some (.ParseUint, some 10, some .IntSize) ∧
      (type_conversion "uint32" pointer).parseCall =
        some (.ParseUint, some 10, some (.bits 32)) ∧
      (type_conversion "uint64" pointer).parseCall =
        some (.ParseUint, some 10, some (.bits 64)) ∧
      (type_conversion "float32" pointer).parseCall =
        some (.ParseFloat, none, some (.bits 32)) ∧
      (type_conversion "float64" pointer).parseCall =
        some (.ParseFloat, none, some (.bits 64)) ∧
      (type_conversion "float32" pointer).storedType = some .float32 ∧
      (type_conversion "float64" pointer).storedType = some .float64) ∧
    BitSize.IntSize.value intSize = intSize ∧
    (∀ P signed b, bitsOf intSize P = some (signed, b) →
      ∀ pointer name s, ∃ v errs,
        (type_conversion P.Name pointer).evalScalar intSize name s s =
          some (.int P v, errs) ∧
        (errs = [] ↔ ∃ z, numeral signed s = some z ∧ inRange intSize P z = true) ∧
        (∀ z, numeral signed s = some z → inRange intSize P z = true → v = z)) := by
  refine ⟨fun pointer => ⟨rfl, rfl, rfl, rfl, rfl, rfl, rfl, rfl, rfl, rfl⟩, rfl, ?_⟩
  intro P signed b hP pointer name s
  have h2 : 2 ≤ intSize := by rcases hi with h | h <;> omega
  cases P <;> simp [bitsOf] at hP
  · obtain ⟨rfl, rfl⟩ := hP
    exact signed_conversion intSize intSize h2 .int rfl (some .int) rfl .IntSize rfl _ _ _ _ _
  · obtain ⟨rfl, rfl⟩ := hP
    exact signed_conversion intSize 32 (by omega) .int32 rfl (some .int32) rfl (.bits 32) rfl
      _ _ _ _ _
  · obtain ⟨rfl, rfl⟩ := hP
    exact signed_conversion intSize 64 (by omega) .int64 rfl none rfl (.bits 64) rfl
      _ _ _ _ _
  · obtain ⟨rfl, rfl⟩ := hP
    exact unsigned_conversion intSize intSize (by omega) .uint rfl (some .uint) rfl .IntSize
      rfl _ _ _ _ _
  · obtain ⟨rfl, rfl⟩ := hP
    exact unsigned_conversion intSize 32 (by omega) .uint32 rfl (some .uint32) rfl (.bits 32)
      rfl _ _ _ _ _
  · obtain ⟨rfl, rfl⟩ := hP
    exact unsigned_conversion intSize 64 (by omega) .uint64 rfl none rfl (.bits 64) rfl
      _ _ _ _ _

/-- C14 (amended, witness): the platform of 64 bits. -/
theorem type_conversion_numeric_witness :
    (64 = 32 ∨ 64 = 64) ∧
    ∀ P signed b, bitsOf 64 P = some (signed, b) →
      ∀ pointer name s, ∃ v errs,
        (type_conversion P.Name pointer).evalScalar 64 name s s = some (.int P v, errs) ∧
        (errs = [] ↔ ∃ z, numeral signed s = some z ∧ inRange 64 P z = true) ∧
        (∀ z, numeral signed s = some z → inRange 64 P z = true → v = z) :=
  ⟨Or.inr rfl, (type_conversion_numeric 64 (Or.inr rfl)).2.2⟩

theorem evalSource_typedWorld (intSize : Nat) (p : ParamData) (w : World) (src : Source) :
    evalSource (typedWorld intSize p w) src = evalSource w src := by
  cases src <;> rfl

theorem decodeQueryParam_converted (intSize : Nat) (w : World) (p : ParamData)
    (hs : isStringOrAny p.Type_ = false)
    (h1 : p.StringSlice = false) (h2 : p.Slice = false) (h3 : p.MapStringSlice = false)
    (h4 : p.Map = false) (h5 : p.MapQueryParams = false) (hv : p.Validate = "")
    (raw : String) (hget : evalSource w (.queryGet p.Name) = .str raw) (hraw : raw ≠ "")
    (val : GoVal) (errs : List GoError)
    (hc : (type_conversion p.Type_.Name p.Pointer).assign intSize p.VarName raw =
      (some val, errs)) :
    decodeQueryParam intSize w p = some (some val, errs) := by
  have hne : (GoVal.str raw == GoVal.str "") = false := by
    simp [hraw]
  have hconv : (typedWorld intSize p w).conversion "type_conversion" p.VarName
      (some (.str raw)) = (some val, errs) := by
    simp [typedWorld, hc]
  unfold decodeQueryParam renderQueryParam
  cases hreq : p.Required <;>
    simp [hs, h1, h2, h3, h4, h5, hv, renderValidate, renderConversion, execDec, execDecStmt,
      evalCond, evalSource_typedWorld, hget, hraw, MergeErrors, convertVars, hconv]

theorem integer_conversion_spec (intSize : Nat) (hi : intSize = 32 ∨ intSize = 64)
    (P : Primitive) (signed : Bool) (b : Nat) (hP : bitsOf intSize P = some (signed, b))
    (pointer : Bool) (name s : String) :
    ∃ v errs,
      (type_conversion P.Name pointer).evalScalar intSize name s s = some (.int P v, errs) ∧
      (errs = [] ↔ ∃ z, numeral signed s = some z ∧ inRange intSize P z = true) ∧
      (∀ z, numeral signed s = some z → inRange intSize P z = true → v = z) := by
  have h2 : 2 ≤ intSize := by rcases hi with h | h <;> omega
  cases P <;> simp [bitsOf] at hP
  · obtain ⟨rfl, rfl⟩ := hP
    exact signed_conversion intSize intSize h2 .int rfl (some .int) rfl .IntSize rfl _ _ _ _ _
  · obtain ⟨rfl, rfl⟩ := hP
    exact signed_conversion intSize 32 (by omega) .int32 rfl (some .int32) rfl (.bits 32) rfl
      _ _ _ _ _
  · obtain ⟨rfl, rfl⟩ := hP
    exact signed_conversion intSize 64 (by omega) .int64 rfl none rfl (.bits 64) rfl
      _ _ _ _ _
  · obtain ⟨rfl, rfl⟩ := hP
    exact unsigned_conversion intSize intSize (by omega) .uint rfl (some .uint) rfl .IntSize
      rfl _ _ _ _ _
  · obtain ⟨rfl, rfl⟩ := hP
    exact unsigned_conversion intSize 32 (by omega) .uint32 rfl (some .uint32) rfl (.bits 32)
      rfl _ _ _ _ _
  · obtain ⟨rfl, rfl⟩ := hP
    exact unsigned_conversion intSize 64 (by omega) .uint64 rfl none rfl (.bits 64) rfl
      _ _ _ _ _

theorem natDigits_digit (fuel n : Nat) (c : Char) (h : c ∈ natDigits fuel n) :
    ∃ d, d < 10 ∧ c = digitChar d := by
  induction fuel generalizing n with
  | zero => simp [natDigits] at h
  | succ fuel ih =>
    unfold natDigits at h
    by_cases hn : n < 10
    · rw [if_pos hn] at h
      simp only [List.mem_singleton] at h
      exact ⟨n, hn, h⟩
    · rw [if_neg hn] at h
      simp only [List.mem_append, List.mem_singleton] at h
      rcases h with h | h
      · exact ih _ h
      · exact ⟨n % 10, by omega, h⟩

theorem natDigits_ne_nil (fuel n : Nat) : natDigits (fuel + 1) n ≠ [] := by
  unfold natDigits
  by_cases hn : n < 10
  · rw [if_pos hn]; simp
  · rw [if_neg hn]; simp

theorem numeral_FormatUint (sg : Bool) (n : Nat) : numeral sg (FormatUint n) = some (n : Int) := by
  unfold numeral FormatUint
  have hval := decimalValue_natDigits (n + 1) n (by omega)
  have hne := natDigits_ne_nil n n
  cases hd : natDigits (n + 1) n with
  | nil => exact absurd hd hne
  | cons c cs =>
    have hc : c ∈ natDigits (n + 1) n := by rw [hd]; simp
    obtain ⟨d, hd10, rfl⟩ := natDigits_digit _ _ _ hc
    have hns := digitChar_not_sign d hd10
    rw [hd] at hval
    simp [hns.1, hns.2.1, hval]

theorem numeral_FormatInt (v : Int) : numeral true (FormatInt v) = some v := by
  by_cases hv : v < 0
  · unfold numeral FormatInt
    rw [if_pos hv]
    have hval := decimalValue_natDigits (v.natAbs + 1) v.natAbs (by omega)
    have hne := natDigits_ne_nil v.natAbs v.natAbs
    cases hd : natDigits (v.natAbs + 1) v.natAbs with
    | nil => exact absurd hd hne
    | cons c cs =>
      rw [hd] at hval
      simp [hval]
      rw [abs_of_neg hv]
      omega
  · have h := numeral_FormatUint true v.toNat
    unfold FormatInt
    rw [if_neg hv, h, Int.toNat_of_nonneg (by omega)]

theorem FormatUint_ne_empty (n : Nat) : FormatUint n ≠ "" := by
  intro h
  have := congrArg String.data h
  exact natDigits_ne_nil n n this

theorem FormatInt_ne_empty (v : Int) : FormatInt v ≠ "" := by
  unfold FormatInt
  by_cases hv : v < 0
  · rw [if_pos hv]
    intro h
    have := congrArg String.data h
    simp at this
  · rw [if_neg hv]
    exact FormatUint_ne_empty _

theorem integer_round_trip (intSize : Nat) (hi : intSize = 32 ∨ intSize = 64)
    (P : Primitive) (signed : Bool) (b : Nat) (hP : bitsOf intSize P = some (signed, b))
    (z : Int) (hz : inRange intSize P z = true) (raw : String)
    (hnum : numeral signed raw = some z) (pointer : Bool) (name : String) :
    (type_conversion P.Name pointer).evalScalar intSize name raw raw =
      some (.int P z, []) := by
  obtain ⟨v, errs, he, hiff, hval⟩ :=
    integer_conversion_spec intSize hi P signed b hP pointer name raw
  have h1 : errs = [] := hiff.2 ⟨z, hnum, hz⟩
  have h2 : v = z := hval z hnum hz
  rw [he, h1, h2]

theorem inRange_unsigned_nonneg (intSize : Nat) (P : Primitive) (b : Nat)
    (hP : bitsOf intSize P = some (false, b)) (z : Int) (hz : inRange intSize P z = true) :
    0 ≤ z := by
  simp [inRange, hP] at hz
  exact hz.1

theorem converted_round_trip (intSize : Nat) (hi : intSize = 32 ∨ intSize = 64)
    (P : Primitive)
    (hP : P ∈ [Primitive.int, .int32, .int64, .uint, .uint32, .uint64, .boolean, .bytes])
    (required pointer : Bool) (name : String) (v : Scalar)
    (hv : hasType intSize P v = true) (hne : v ≠ .bytes "") :
    ∃ e raw, header_conversion (.primitive P) required = some e ∧
      e.formatScalar v = some raw ∧ raw ≠ "" ∧
      (type_conversion P.Name pointer).evalScalar intSize name raw raw = some (v, []) := by
  simp only [List.mem_cons, List.mem_singleton, List.not_mem_nil, or_false] at hP
  rcases hP with h | h | h | h | h | h | h | h <;> subst h <;> cases v <;>
    simp [hasType] at hv
  · obtain ⟨rfl, hz⟩ := hv
    exact ⟨_, FormatInt _, rfl, rfl, FormatInt_ne_empty _,
      integer_round_trip intSize hi .int true intSize rfl _ hz _ (numeral_FormatInt _) _ _⟩
  · obtain ⟨rfl, hz⟩ := hv
    exact ⟨_, FormatInt _, rfl, rfl, FormatInt_ne_empty _,
      integer_round_trip intSize hi .int32 true 32 rfl _ hz _ (numeral_FormatInt _) _ _⟩
  · obtain ⟨rfl, hz⟩ := hv
    exact ⟨_, FormatInt _, rfl, rfl, FormatInt_ne_empty _,
      integer_round_trip intSize hi .int64 true 64 rfl _ hz _ (numeral_FormatInt _) _ _⟩
  · obtain ⟨rfl, hz⟩ := hv
    have h0 := inRange_unsigned_nonneg intSize .uint intSize rfl _ hz
    refine ⟨_, FormatUint _, rfl, rfl, FormatUint_ne_empty _,
      integer_round_trip intSize hi .uint false intSize rfl _ hz _ ?_ _ _⟩
    rw [numeral_FormatUint, Int.toNat_of_nonneg h0]
  · obtain ⟨rfl, hz⟩ := hv
    have h0 := inRange_unsigned_nonneg intSize .uint32 32 rfl _ hz
    refine ⟨_, FormatUint _, rfl, rfl, FormatUint_ne_empty _,
      integer_round_trip intSize hi .uint32 false 32 rfl _ hz _ ?_ _ _⟩
    rw [numeral_FormatUint, Int.toNat_of_nonneg h0]
  · obtain ⟨rfl, hz⟩ := hv
    have h0 := inRange_unsigned_nonneg intSize .uint64 64 rfl _ hz
    refine ⟨_, FormatUint _, rfl, rfl, FormatUint_ne_empty _,
      integer_round_trip intSize hi .uint64 false 64 rfl _ hz _ ?_ _ _⟩
    rw [numeral_FormatUint, Int.toNat_of_nonneg h0]
  · exact absurd hv.2 (by simp [inRange, bitsOf])
  · rename_i b
    refine ⟨_, FormatBool b, rfl, rfl, ?_, ?_⟩
    · cases b <;> decide
    · cases b <;>
        simp [type_conversion, Primitive.Name, Conversion.evalScalar, FormatBool, ParseBool]
  · exact absurd hv.2 (by simp [inRange, bitsOf])
  · rename_i s
    refine ⟨_, s, rfl, rfl, ?_, rfl⟩
    intro h
    exact hne (by rw [h])

theorem typedWorld_query (intSize : Nat) (p : ParamData) (w : World) :
    (typedWorld intSize p w).query = w.query := rfl

theorem assign_heldValue (intSize : Nat) (P : Primitive)
    (hP : P ∈ [Primitive.int, .int32, .int64, .uint, .uint32, .uint64, .boolean, .bytes])
    (required : Bool) (name raw : String) (v : Scalar) (hv : hasType intSize P v = true)
    (he : (type_conversion P.Name (!required)).evalScalar intSize name raw raw =
      some (v, [])) :
    (type_conversion P.Name (!required)).assign intSize name raw =
      (some (heldValue required v), []) := by
  unfold Conversion.assign
  rw [he]
  simp only [List.mem_cons, List.mem_singleton, List.not_mem_nil, or_false] at hP
  rcases hP with h | h | h | h | h | h | h | h <;> subst h <;> cases v <;>
    simp [hasType, inRange, bitsOf] at hv <;> cases required <;>
    simp [type_conversion, Primitive.Name, Conversion.takesAddress, heldValue]

/-- C11 (counterexample): the required string parameter `q` and the value `""`:
`header_conversion` gives the empty string, and the decoder, reading an empty value,
merges a missing-field error. -/
theorem empty_string_not_round_tripped :
    header_conversion (.primitive .string) true = some .target ∧
    FormatExpr.target.formatScalar (.str "") = some "" ∧
    hasType 64 .string (.str "") = true ∧
    decodeQueryParam 64 { query := [("q", [""])] } (queryParamOf "q" "q" .string true) =
      some (some (.str ""), [.missingField "q" "query string"]) := by
  decide

/-- C11 (amended): on a platform of 32 or 64 bits, for each of the types int, int32,
int64, uint, uint32, uint64, boolean, string and bytes, both values of the required flag
and every value of the type other than the empty string and the empty byte slice: the
query-parameter rule of the decoder, run on the string `header_conversion` produces from
the value, assigns the value again (a pointer to it when the parameter is optional, but a
byte slice always as itself) and merges no error. -/
theorem query_round_trip (intSize : Nat) (hi : intSize = 32 ∨ intSize = 64)
    (P : Primitive)
    (hP : P ∈ [Primitive.int, .int32, .int64, .uint, .uint32, .uint64, .boolean, .string,
               .bytes])
    (required : Bool) (name varName : String) (v : Scalar)
    (hv : hasType intSize P v = true) (hne : v ≠ .str "" ∧ v ≠ .bytes "") :
    ∃ e raw, header_conversion (.primitive P) required = some e ∧
      e.formatScalar v = some raw ∧
      decodeQueryParam intSize { query := [(name, [raw])] }
        (queryParamOf name varName P required) = some (some (heldValue required v), []) := by
  by_cases hstr : P = .string
  · subst hstr
    cases v <;> simp [hasType, inRange, bitsOf] at hv
    rename_i s
    have hs : s ≠ "" := fun h => hne.1 (by rw [h])
    refine ⟨.target, s, rfl, rfl, ?_⟩
    unfold decodeQueryParam renderQueryParam queryParamOf
    cases required <;>
      simp [isStringOrAny, DataType.Name, Primitive.Name, renderValidate, execDec,
        execDecStmt, evalCond, typedWorld_query, evalSource, hs, assignRawVars,
        heldValue, MergeErrors]
  · have hP8 : P ∈ [Primitive.int, .int32, .int64, .uint, .uint32, .uint64, .boolean,
        .bytes] := by
      simp only [List.mem_cons, List.mem_singleton, List.not_mem_nil, or_false] at hP ⊢
      tauto
    obtain ⟨e, raw, he, hf, hraw, hev⟩ :=
      converted_round_trip intSize hi P hP8 required (!required) varName v hv hne.2
    refine ⟨e, raw, he, hf, ?_⟩
    have hiso : isStringOrAny (DataType.primitive P) = false := by
      simp only [List.mem_cons, List.mem_singleton, List.not_mem_nil, or_false] at hP8
      rcases hP8 with h | h | h | h | h | h | h | h <;> subst h <;> decide
    exact decodeQueryParam_converted intSize _ (queryParamOf name varName P required)
      hiso rfl rfl rfl rfl rfl rfl raw (by simp [evalSource, queryParamOf]) hraw _ _
      (assign_heldValue intSize P hP8 required varName raw v hv hev)

/-- C11 (witness): the optional `int32` parameter `n` holding `-7` on 64 bits. -/
theorem query_round_trip_witness :
    (64 = 32 ∨ 64 = 64) ∧
    Primitive.int32 ∈ [Primitive.int, .int32, .int64, .uint, .uint32, .uint64, .boolean,
      .string, .bytes] ∧
    hasType 64 .int32 (.int .int32 (-7)) = true ∧
    (Scalar.int .int32 (-7) ≠ .str "" ∧ Scalar.int .int32 (-7) ≠ .bytes "") ∧
    ∃ e raw, header_conversion (.primitive .int32) false = some e ∧
      e.formatScalar (.int .int32 (-7)) = some raw ∧
      decodeQueryParam 64 { query := [("n", [raw])] } (queryParamOf "n" "n" .int32 false) =
        some (some (heldValue false (.int .int32 (-7))), []) :=
  ⟨Or.inr rfl, by decide, by decide, by decide,
    query_round_trip 64 (Or.inr rfl) .int32 (by decide) false "n" "n" (.int .int32 (-7))
      (by decide) (by decide)⟩

theorem splitComma_no_comma (cs : List Char) (h : ∀ c ∈ cs, c ≠ ',') :
    splitComma cs = [cs] := by
  induction cs with
  | nil => rfl
  | cons c cs ih =>
    have hc : c ≠ ',' := h c (by simp)
    have ih2 := ih (fun d hd => h d (by simp [hd]))
    simp [splitComma, hc, ih2]

theorem FormatUint_no_comma (n : Nat) : ∀ c ∈ (FormatUint n).data, c ≠ ',' := by
  intro c hc
  obtain ⟨d, hd, rfl⟩ := natDigits_digit _ _ _ hc
  exact (digitChar_not_sign d hd).2.2

theorem FormatInt_no_comma (v : Int) : ∀ c ∈ (FormatInt v).data, c ≠ ',' := by
  unfold FormatInt
  by_cases hv : v < 0
  · rw [if_pos hv]
    intro c hc
    simp only [List.mem_cons] at hc
    rcases hc with rfl | hc
    · decide
    · obtain ⟨d, hd, rfl⟩ := natDigits_digit _ _ _ hc
      exact (digitChar_not_sign d hd).2.2
  · rw [if_neg hv]
    exact FormatUint_no_comma _

theorem item_round_trip (intSize : Nat) (hi : intSize = 32 ∨ intSize = 64) (P : Primitive)
    (hP : P ∈ [Primitive.int, .int32, .int64, .uint, .uint64, .boolean])
    (required : Bool) (name : String) (v : Scalar) (hv : hasType intSize P v = true) :
    ∃ e raw, header_conversion (.primitive P) required = some e ∧
      e.formatScalar v = some raw ∧ (∀ c ∈ raw.data, c ≠ ',') ∧
      ∀ rep, (slice_item_conversion P.Name).evalScalar intSize name rep raw =
        some (v, []) := by
  have h2 : 2 ≤ intSize := by rcases hi with h | h <;> omega
  have key : ∀ (sg : Bool) (b : Nat) (fn : ParseFn) (bs : BitSize) (kind : String)
      (cast : Option Primitive) (Q : Primitive) (z : Int) (raw rep : String),
      (∃ v errs, (Conversion.parse fn (some 10) (some bs) kind cast false).evalScalar
          intSize name rep raw = some (.int Q v, errs) ∧
        (errs = [] ↔ ∃ z, numeral sg raw = some z ∧ inRange intSize Q z = true) ∧
        (∀ z, numeral sg raw = some z → inRange intSize Q z = true → v = z)) →
      numeral sg raw = some z → inRange intSize Q z = true →
      (Conversion.parse fn (some 10) (some bs) kind cast false).evalScalar
          intSize name rep raw = some (.int Q z, []) := by
    intro sg b fn bs kind cast Q z raw rep ⟨v, errs, he, hiff, hval⟩ hnum hz
    rw [he, hiff.2 ⟨z, hnum, hz⟩, hval z hnum hz]
  simp only [List.mem_cons, List.mem_singleton, List.not_mem_nil, or_false] at hP
  rcases hP with h | h | h | h | h | h <;> subst h <;> cases v <;>
    simp [hasType] at hv
  · obtain ⟨rfl, hz⟩ := hv
    exact ⟨_, FormatInt _, rfl, rfl, FormatInt_no_comma _,
      fun rep => key true intSize _ _ _ _ _ _ _ rep
        (signed_conversion intSize intSize h2 .int rfl (some .int) rfl .IntSize rfl _ _ _ _ _)
        (numeral_FormatInt _) hz⟩
  · obtain ⟨rfl, hz⟩ := hv
    exact ⟨_, FormatInt _, rfl, rfl, FormatInt_no_comma _,
      fun rep => key true 32 _ _ _ _ _ _ _ rep
        (signed_conversion intSize 32 (by omega) .int32 rfl (some .int32) rfl (.bits 32) rfl
          _ _ _ _ _)
        (numeral_FormatInt _) hz⟩
  · obtain ⟨rfl, hz⟩ := hv
    exact ⟨_, FormatInt _, rfl, rfl, FormatInt_no_comma _,
      fun rep => key true 64 _ _ _ _ _ _ _ rep
        (signed_conversion intSize 64 (by omega) .int64 rfl none rfl (.bits 64) rfl
          _ _ _ _ _)
        (numeral_FormatInt _) hz⟩
  · rename_i t z
    obtain ⟨rfl, hz⟩ := hv
    have h0 := inRange_unsigned_nonneg intSize .uint intSize rfl _ hz
    have hnum : numeral false (FormatUint z.toNat) = some z := by
      rw [numeral_FormatUint, Int.toNat_of_nonneg h0]
    exact ⟨_, FormatUint _, rfl, rfl, FormatUint_no_comma _,
      fun rep => key false intSize _ _ _ _ _ _ _ rep
        (unsigned_conversion intSize intSize (by omega) .uint rfl (some .uint) rfl .IntSize
          rfl _ _ _ _ _) hnum hz⟩
  · rename_i t z
    obtain ⟨rfl, hz⟩ := hv
    have h0 := inRange_unsigned_nonneg intSize .uint64 64 rfl _ hz
    have hnum : numeral false (FormatUint z.toNat) = some z := by
      rw [numeral_FormatUint, Int.toNat_of_nonneg h0]
    exact ⟨_, FormatUint _, rfl, rfl, FormatUint_no_comma _,
      fun rep => key false 64 _ _ _ _ _ _ _ rep
        (unsigned_conversion intSize 64 (by omega) .uint64 rfl none rfl (.bits 64)
          rfl _ _ _ _ _) hnum hz⟩
  · exact absurd hv.2 (by simp [inRange, bitsOf])
  · rename_i b
    refine ⟨_, FormatBool b, rfl, rfl, ?_, ?_⟩
    · cases b <;> decide
    · intro rep
      cases b <;>
        simp [slice_item_conversion, Primitive.Name, Conversion.evalScalar, FormatBool,
          ParseBool]

theorem typedWorld_path (intSize : Nat) (p : ParamData) (w : World) :
    (typedWorld intSize p w).path = w.path := rfl

/-- C12 (counterexample): the array `[1, 2]` of `int`: `header_conversion` gives
`"1, 2"`; the decoder splits it into `"1"` and `" 2"`, the second piece does not parse, the
decoded array is `[1, 0]` and an `InvalidFieldType` error is merged. -/
theorem array_not_round_tripped :
    header_conversion (.array (.primitive .int)) true = some (.joinConverted (.itoa false)) ∧
    (FormatExpr.joinConverted (.itoa false)).formatList [.int .int 1, .int .int 2] =
      some "1, 2" ∧
    path_conversion (.array (.primitive .int)) false =
      some (.array (slice_item_conversion "int")) ∧
    decodePathParam 64 { path := [("ids", "1, 2")] } (arrayParamOf "ids" "ids" .int) =
      some (some (.scalars [.int .int 1, .int .int 0]),
            [.invalidFieldType "ids" "1, 2" "array of integers"]) := by
  decide

/-- C12 (amended): on a platform of 32 or 64 bits, for every array of exactly one element
of type int, int32, int64, uint, uint64 or boolean, the array rule of the decoder
(`path_conversion`: split on the comma, convert each piece with
`slice_item_conversion`), run on the string `header_conversion` produces for the array,
gives the array again and merges no error. -/
theorem array_round_trip (intSize : Nat) (hi : intSize = 32 ∨ intSize = 64) (P : Primitive)
    (hP : P ∈ [Primitive.int, .int32, .int64, .uint, .uint64, .boolean])
    (required : Bool) (name varName : String) (v : Scalar)
    (hv : hasType intSize P v = true) :
    ∃ e raw, header_conversion (.array (.primitive P)) required = some e ∧
      e.formatList [v] = some raw ∧
      decodePathParam intSize { path := [(name, raw)] } (arrayParamOf name varName P) =
        some (some (.scalars [v]), []) := by
  obtain ⟨e, raw, he, hf, hcomma, hev⟩ := item_round_trip intSize hi P hP true varName v hv
  have hname : (DataType.primitive P).Name ≠ "string" := by
    simp only [List.mem_cons, List.mem_singleton, List.not_mem_nil, or_false] at hP
    rcases hP with h | h | h | h | h | h <;> subst h <;> decide
  have hraw : String.mk raw.data = raw := rfl
  refine ⟨.joinConverted e, raw, ?_, ?_, ?_⟩
  · have he2 : scalarFormat (DataType.primitive P).Name true = some e := he
    simp [header_conversion, hname, he2]
  · simp [FormatExpr.formatList, allSome, hf, String.intercalate, String.intercalate.go]
  · have hconv : (typedWorld intSize (arrayParamOf name varName P)
        { path := [(name, raw)] }).conversion "path_conversion" varName (some (.str raw)) =
        (some (.scalars [v]), []) := by
      simp [typedWorld, arrayParamOf, path_conversion, DataType.Name, DataType.ElemType,
        PathConversion.assign, splitComma_no_comma raw.data hcomma, convertItems, hev, hraw]
    unfold decodePathParam renderPathParam
    simp [arrayParamOf, isStringOrAny, DataType.Name, renderValidate, execDec, execDecStmt,
      evalSource, typedWorld_path, MergeErrors, convertVars]
    simp [arrayParamOf] at hconv
    simp [hconv]

/-- C12 (witness): the array `[5]` of `uint64` in the path parameter `ids`. -/
theorem array_round_trip_witness :
    (64 = 32 ∨ 64 = 64) ∧
    Primitive.uint64 ∈ [Primitive.int, .int32, .int64, .uint, .uint64, .boolean] ∧
    hasType 64 .uint64 (.int .uint64 5) = true ∧
    ∃ e raw, header_conversion (.array (.primitive .uint64)) true = some e ∧
      e.formatList [.int .uint64 5] = some raw ∧
      decodePathParam 64 { path := [("ids", raw)] } (arrayParamOf "ids" "ids" .uint64) =
        some (some (.scalars [.int .uint64 5]), []) :=
  ⟨Or.inr rfl, by decide, by decide,
    array_round_trip 64 (Or.inr rfl) .uint64 (by decide) true "ids" "ids" (.int .uint64 5)
      (by decide)⟩

/-- C21: for an endpoint without result type (`Result.Ref` empty) that has a response, the
encoder `responseEncoderT` renders is `w.WriteHeader(<status of the first response>)` and
`return nil`: on every value it writes that status code alone (no response block, hence
no header and no body) and returns nil, whatever responses follow the first; for the
method of `NoServerDSL`, whose derived data is modelled from the specification, the status
is `http.StatusOK`. -/
theorem responseEncoderT_no_result :
    (∀ (e : EndpointData) (r : ResponseData) (rest : List ResponseData) (res : Result),
      e.Result.Ref = "" → e.Result.Responses = r :: rest →
      responseEncoderT e = some [.writeHeader r.StatusCode, .returnNil] ∧
      execEnc res [.writeHeader r.StatusCode, .returnNil] =
        ([.status r.StatusCode], some .nil)) ∧
    (∀ res : Result,
      (((exampleEnv.HTTPServices noServerService.Name).bind
          (fun d => d.Endpoint "Method")).bind responseEncoderT).map (execEnc res) =
        some ([.status "http.StatusOK"], some .nil)) := by
  refine ⟨?_, fun res => rfl⟩
  intro e r rest res href hresp
  refine ⟨?_, rfl⟩
  unfold responseEncoderT
  rw [if_neg (by simp [href]), hresp]

theorem initDef_checkNil (tagName : String) (h : HeaderData)
    (hi : initDef tagName h = true) : checkNil tagName h = true := by
  unfold checkNil
  unfold initDef at hi
  simp only [Bool.and_eq_true] at hi
  simp [initDef, hi.1.1, hi.1.2, hi.2]

theorem renderHeaderAssign_flat (h : HeaderData) (assign : List RespStmt)
    (ha : renderHeaderAssign h = some assign) : ∀ s ∈ assign, s.isIfNil = false := by
  unfold renderHeaderAssign at ha
  by_cases hs : h.Type_.Name = "string"
  · rw [if_pos hs] at ha
    cases ha
    intro s hmem
    simp only [List.mem_singleton] at hmem
    subst hmem
    rfl
  · rw [if_neg hs] at ha
    cases hc : header_conversion h.Type_ h.Required with
    | none => rw [hc] at ha; cases ha
    | some expr =>
      rw [hc] at ha
      cases ha
      intro s hmem
      simp only [List.mem_cons, List.mem_singleton, List.not_mem_nil, or_false] at hmem
      rcases hmem with rfl | rfl | rfl <;> rfl

theorem renderResponseHeader_form (sprintf : Value → String) (tagName : String)
    (h : HeaderData) (stmts : List RespStmt)
    (hr : renderResponseHeader sprintf tagName h = some stmts) :
    ∃ assign, renderHeaderAssign h = some assign ∧
      ((initDef tagName h = false ∧ checkNil tagName h = false ∧ stmts = assign) ∨
       (initDef tagName h = false ∧ checkNil tagName h = true ∧
          stmts = [.ifNotNil h.FieldName assign]) ∨
       (initDef tagName h = true ∧
          ∃ text, printValue sprintf h.Type_ h.DefaultValue = some text ∧
            stmts = [.ifNotNilElse h.FieldName assign [.setDefault h.Name text]])) := by
  unfold renderResponseHeader at hr
  cases ha : renderHeaderAssign h with
  | none => rw [ha] at hr; cases hr
  | some assign =>
    rw [ha] at hr
    refine ⟨assign, rfl, ?_⟩
    change (if initDef tagName h = true then _ else _) = some stmts at hr
    by_cases hi : initDef tagName h = true
    · rw [if_pos hi] at hr
      have hc := initDef_checkNil tagName h hi
      cases hp : printValue sprintf h.Type_ h.DefaultValue with
      | none => rw [hp] at hr; cases hr
      | some text =>
        rw [hp] at hr
        change (if checkNil tagName h = true then _ else _) = some stmts at hr
        rw [if_pos hc] at hr
        cases hr
        exact Or.inr (Or.inr ⟨hi, text, rfl, rfl⟩)
    · rw [if_neg hi] at hr
      change (if checkNil tagName h = true then _ else _) = some stmts at hr
      have hi2 : initDef tagName h = false := by simpa using hi
      by_cases hc : checkNil tagName h = true
      · rw [if_pos hc] at hr
        cases hr
        exact Or.inr (Or.inl ⟨hi2, hc, rfl⟩)
      · rw [if_neg hc] at hr
        cases hr
        exact Or.inl ⟨hi2, by simpa using hc, rfl⟩

theorem renderResponseHeader_no_ifNil (sprintf : Value → String) (tagName : String)
    (h : HeaderData) (stmts : List RespStmt)
    (hr : renderResponseHeader sprintf tagName h = some stmts) :
    ∀ s ∈ stmts, s.isIfNil = false := by
  obtain ⟨assign, ha, hform⟩ := renderResponseHeader_form sprintf tagName h stmts hr
  rcases hform with ⟨_, _, h3⟩ | ⟨_, _, rfl⟩ | ⟨_, text, _, rfl⟩
  · rw [h3]
    exact renderHeaderAssign_flat h assign ha
  · intro s hmem
    simp only [List.mem_singleton] at hmem
    subst hmem
    rfl
  · intro s hmem
    simp only [List.mem_singleton] at hmem
    subst hmem
    rfl

theorem renderResponseHeaders_no_ifNil (sprintf : Value → String) (tagName : String)
    (hs : List HeaderData) (stmts : List RespStmt)
    (hr : renderResponseHeaders sprintf tagName hs = some stmts) :
    ∀ s ∈ stmts, s.isIfNil = false := by
  induction hs generalizing stmts with
  | nil =>
    simp only [renderResponseHeaders] at hr
    cases hr
    intro s hmem
    cases hmem
  | cons h hs ih =>
    simp only [renderResponseHeaders] at hr
    cases h1 : renderResponseHeader sprintf tagName h with
    | none => rw [h1] at hr; cases hr
    | some a =>
      cases h2 : renderResponseHeaders sprintf tagName hs with
      | none => rw [h1, h2] at hr; cases hr
      | some b =>
        rw [h1, h2] at hr
        cases hr
        intro s hmem
        rcases List.mem_append.1 hmem with hm | hm
        · exact renderResponseHeader_no_ifNil sprintf tagName h a h1 s hm
        · exact ih b h2 s hm

/-- C27: in the `response` template, `$initDef` implies `$checkNil`; so the block rendered
for a header is the assignment alone, the assignment inside `if res.<Field> != nil`, or
that guard with the default as its else branch (exactly when `$initDef`); the stand-alone
form `if res.<Field> == nil` is never rendered, for no header of any response, and the
braces the template writes around a header are balanced for every header and tag. -/
theorem response_default_in_else (sprintf : Value → String) (tagName : String)
    (h : HeaderData) :
    (initDef tagName h = true → checkNil tagName h = true) ∧
    balanced (headerBraces tagName h) 0 = true ∧
    (∀ stmts, renderResponseHeader sprintf tagName h = some stmts →
      ∃ assign, renderHeaderAssign h = some assign ∧
        (∀ s ∈ assign, s.isIfNil = false) ∧
        ((initDef tagName h = false ∧ checkNil tagName h = false ∧ stmts = assign) ∨
         (initDef tagName h = false ∧ checkNil tagName h = true ∧
            stmts = [.ifNotNil h.FieldName assign]) ∨
         (initDef tagName h = true ∧
            ∃ text, printValue sprintf h.Type_ h.DefaultValue = some text ∧
              stmts = [.ifNotNilElse h.FieldName assign [.setDefault h.Name text]]))) ∧
    (∀ (r : ResponseData) (stmts : List RespStmt),
      renderResponseHeaders sprintf r.TagName r.Headers = some stmts →
      ∀ s ∈ stmts, s.isIfNil = false) := by
  refine ⟨initDef_checkNil tagName h, ?_, ?_, ?_⟩
  · unfold headerBraces
    cases hi : initDef tagName h <;> cases hc : checkNil tagName h <;> rfl
  · intro stmts hr
    obtain ⟨assign, ha, hform⟩ := renderResponseHeader_form sprintf tagName h stmts hr
    exact ⟨assign, ha, renderHeaderAssign_flat h assign ha, hform⟩
  · intro r stmts hr
    exact renderResponseHeaders_no_ifNil sprintf r.TagName r.Headers stmts hr

theorem serverType_seen (env : Env) (genpkg : String) (r : ServiceExpr) (seen : Seen)
    (f : File) (s : Seen) (h : serverType env genpkg r seen = some (f, s)) :
    s = seen ∧ ∀ seen2, serverType env genpkg r seen2 = some (f, seen2) := by
  unfold serverType at h ⊢
  simp only [bind, Option.bind_eq_some, pure, Option.some.injEq, Prod.mk.injEq] at h ⊢
  obtain ⟨rdata, h1, svc, h2, acc1, h3, acc2, h4, acc3, h5, h6, h7⟩ := h
  refine ⟨h7.symm, fun seen2 => ?_⟩
  exact ⟨rdata, h1, svc, h2, acc1, h3, acc2, h4, acc3, h5, h6, trivial⟩

/-- C26 (failing input): `serverType` neither reads nor writes `seen`: it hands `seen` back
as it got it and builds the same file for every `seen`. Called for `Blog` with
`PostRequestBody` already in `seen`, it declares `PostRequestBody` again (twice) and
returns `seen` without the names it declared; and `ServerTypeFiles`, over the services
`Blog` and `Admin` that use the same body types, declares these types in both files. -/
theorem serverType_ignores_seen :
    (∀ env genpkg r seen f s, serverType env genpkg r seen = some (f, s) →
      s = seen ∧ ∀ seen2, serverType env genpkg r seen2 = some (f, seen2)) ∧
    (serverType blogEnv "goa.design/gen" blogService ["PostRequestBody"]).map
        (fun p => (p.1.declaredTypes, p.2)) =
      some (["PostRequestBody", "PostRequestBody", "PostResponseBody", "PostResponseBody"],
            ["PostRequestBody"]) ∧
    (ServerTypeFiles sharedEnv "goa.design/gen" sharedRoot).map
        (fun fw => fw.map (Option.map File.declaredTypes)) =
      some [some ["PostRequestBody", "PostRequestBody", "PostResponseBody",
                  "PostResponseBody"],
            some ["PostRequestBody", "PostRequestBody", "PostResponseBody",
                  "PostResponseBody"]] := by
  refine ⟨fun env genpkg r seen f s h => serverType_seen env genpkg r seen f s h, ?_, ?_⟩
  · rfl
  · rfl

theorem rangeAssign_none (f : ServiceExpr → Option File) (off : Nat) (l : List ServiceExpr)
    (s : ServiceExpr) (hs : s ∈ l) (hf : f s = none) (i : Nat) (fw : List (Option File)) :
    rangeAssign f off i l fw = none := by
  induction l generalizing i fw with
  | nil => cases hs
  | cons x xs ih =>
    simp only [rangeAssign]
    cases hx : f x with
    | none => rfl
    | some file =>
      simp only []
      rcases List.mem_cons.1 hs with h | h
      · subst h
        rw [hf] at hx
        cases hx
      · exact ih h _ _

theorem serverType_none (env : Env) (genpkg : String) (r : ServiceExpr) (seen : Seen)
    (h : env.HTTPServices r.Name = none) : serverType env genpkg r seen = none := by
  unfold serverType
  simp [bind, h]

theorem typeRange_none (env : Env) (genpkg : String) (l : List ServiceExpr)
    (s : ServiceExpr) (hs : s ∈ l) (hf : ∀ seen, serverType env genpkg s seen = none)
    (i : Nat) (fw : List (Option File)) (seen : Seen) :
    typeRange env genpkg i l fw seen = none := by
  induction l generalizing i fw seen with
  | nil => cases hs
  | cons x xs ih =>
    simp only [typeRange]
    cases hx : serverType env genpkg x seen with
    | none => rfl
    | some p =>
      obtain ⟨file, seen2⟩ := p
      simp only []
      rcases List.mem_cons.1 hs with h | h
      · subst h
        rw [hf] at hx
        cases hx
      · exact ih h _ _ _

/-- C24 (counterexample): the root with the service `Service`, whose files are built, and
the service `Unknown`, absent from the registry: `ServerFiles` and `ServerTypeFiles`
return nothing, not even the files of `Service`. -/
theorem missing_service_aborts_all :
    (server exampleEnv "goa.design/gen" noServerService).isSome = true ∧
    (serverEncodeDecode exampleEnv "goa.design/gen" noServerService).isSome = true ∧
    (serverType exampleEnv "goa.design/gen" noServerService []).isSome = true ∧
    noServerService ∈ partialRoot.HTTPServices ∧
    ServerFiles exampleEnv "goa.design/gen" partialRoot = none ∧
    ServerTypeFiles exampleEnv "goa.design/gen" partialRoot = none := by
  refine ⟨rfl, rfl, rfl, by decide, rfl, rfl⟩

/-- C24 (amended): a failed service aborts the whole generation: when the derived data of
one service of the root is absent from the `HTTPServices` registry, `ServerFiles` and
`ServerTypeFiles` return no file at all. -/
theorem failed_service_aborts (env : Env) (genpkg : String) (root : RootExpr)
    (s : ServiceExpr) (hs : s ∈ root.HTTPServices) (hmiss : env.HTTPServices s.Name = none) :
    ServerFiles env genpkg root = none ∧ ServerTypeFiles env genpkg root = none := by
  constructor
  · unfold ServerFiles
    have hsv : server env genpkg s = none := by
      have := server_isSome env genpkg s
      rw [hmiss] at this
      cases h : server env genpkg s with
      | none => rfl
      | some f => rw [h] at this; cases this
    simp only []
    rw [rangeAssign_none (server env genpkg) 0 root.HTTPServices s hs hsv]
  · unfold ServerTypeFiles
    rw [typeRange_none env genpkg root.HTTPServices s hs
      (fun seen => serverType_none env genpkg s seen hmiss)]
    rfl

/-- C24 (witness): the service `Unknown` of the root above. -/
theorem failed_service_aborts_witness :
    (({ Name := "Unknown", HTTPEndpoints := [{ Name := "Method" }] } : ServiceExpr) ∈
        partialRoot.HTTPServices ∧
      exampleEnv.HTTPServices "Unknown" = none) ∧
    ServerFiles exampleEnv "goa.design/gen" partialRoot = none ∧
    ServerTypeFiles exampleEnv "goa.design/gen" partialRoot = none :=
  ⟨⟨by decide, rfl⟩,
   failed_service_aborts exampleEnv "goa.design/gen" partialRoot
     { Name := "Unknown", HTTPEndpoints := [{ Name := "Method" }] } (by decide) rfl⟩

theorem intercalate_go_append (s : String) (l : List String) (acc x : String) :
    String.intercalate.go acc s (l ++ [x]) = String.intercalate.go acc s l ++ s ++ x := by
  induction l generalizing acc with
  | nil => simp [String.intercalate.go]
  | cons a l ih => simp only [List.cons_append, String.intercalate.go]; exact ih _

theorem string_append_left_cancel (p x y : String) (h : p ++ x = p ++ y) : x = y := by
  have := congrArg String.data h
  simp only [String.data_append] at this
  exact String.ext (List.append_cancel_left this)

theorem intercalate_last_inj (s : String) (dir : List String) (x y : String)
    (h : String.intercalate s (dir ++ [x]) = String.intercalate s (dir ++ [y])) : x = y := by
  cases dir with
  | nil => simpa [String.intercalate, String.intercalate.go] using h
  | cons a l =>
    simp only [List.cons_append, String.intercalate, intercalate_go_append] at h
    exact string_append_left_cancel _ _ _ h

/-- C22: the file `server` returns (it returns one exactly when the registry holds the
service) has the path `<Gendir>/http/<SnakeCase(N)>/server/server.go`, the file of
`serverEncodeDecode` the path `.../server/encode_decode.go` and the file of `serverType`
the path `.../server/types.go`, all built by `filepath.Join` from the service name alone,
whatever `genpkg`; the three paths differ from one another, `filepath.Join` keeping apart
paths that differ in their last element among the three file names. -/
theorem generated_paths (env : Env) (svc : ServiceExpr)
    (hJoin : ∀ dir x y, x ∈ ["server.go", "encode_decode.go", "types.go"] →
      y ∈ ["server.go", "encode_decode.go", "types.go"] →
      env.Join (dir ++ [x]) = env.Join (dir ++ [y]) → x = y) :
    (∀ genpkg, (server env genpkg svc).map File.Path =
      (env.HTTPServices svc.Name).map (fun _ =>
        env.Join [env.Gendir, "http", env.SnakeCase svc.Name, "server", "server.go"])) ∧
    (∀ genpkg, (serverEncodeDecode env genpkg svc).map File.Path =
      (env.HTTPServices svc.Name).map (fun _ =>
        env.Join [env.Gendir, "http", env.SnakeCase svc.Name, "server",
          "encode_decode.go"])) ∧
    (∀ genpkg seen t s, serverType env genpkg svc seen = some (t, s) →
      t.Path = env.Join [env.Gendir, "http", env.SnakeCase svc.Name, "server",
        "types.go"]) ∧
    env.Join [env.Gendir, "http", env.SnakeCase svc.Name, "server", "server.go"] ≠
      env.Join [env.Gendir, "http", env.SnakeCase svc.Name, "server", "encode_decode.go"] ∧
    env.Join [env.Gendir, "http", env.SnakeCase svc.Name, "server", "server.go"] ≠
      env.Join [env.Gendir, "http", env.SnakeCase svc.Name, "server", "types.go"] ∧
    env.Join [env.Gendir, "http", env.SnakeCase svc.Name, "server", "encode_decode.go"] ≠
      env.Join [env.Gendir, "http", env.SnakeCase svc.Name, "server", "types.go"] := by
  refine ⟨?_, ?_, ?_, ?_, ?_, ?_⟩
  · intro genpkg
    unfold server
    cases env.HTTPServices svc.Name <;> rfl
  · intro genpkg
    unfold serverEncodeDecode
    cases env.HTTPServices svc.Name <;> rfl
  · intro genpkg seen t s h
    unfold serverType at h
    simp only [bind, Option.bind_eq_some, pure, Option.some.injEq, Prod.mk.injEq] at h
    obtain ⟨rdata, h1, sv, h2, acc1, h3, acc2, h4, acc3, h5, h6, h7⟩ := h
    rw [← h6]
  · intro h
    have := hJoin [env.Gendir, "http", env.SnakeCase svc.Name, "server"] "server.go"
      "encode_decode.go" (by simp) (by simp) h
    exact absurd this (by decide)
  · intro h
    have := hJoin [env.Gendir, "http", env.SnakeCase svc.Name, "server"] "server.go"
      "types.go" (by simp) (by simp) h
    exact absurd this (by decide)
  · intro h
    have := hJoin [env.Gendir, "http", env.SnakeCase svc.Name, "server"] "encode_decode.go"
      "types.go" (by simp) (by simp) h
    exact absurd this (by decide)

/-- C22 (witness): the service `Service` of `NoServerDSL` with the output directory `gen`:
the paths are `gen/http/service/server/server.go`, `.../encode_decode.go` and
`.../types.go`. -/
theorem generated_paths_witness :
    (∀ dir x y, exampleEnv.Join (dir ++ [x]) = exampleEnv.Join (dir ++ [y]) → x = y) ∧
    (server exampleEnv "goa.design/gen" noServerService).map File.Path =
      some "gen/http/service/server/server.go" ∧
    (serverEncodeDecode exampleEnv "goa.design/gen" noServerService).map File.Path =
      some "gen/http/service/server/encode_decode.go" ∧
    (serverType exampleEnv "goa.design/gen" noServerService []).map (fun p => p.1.Path) =
      some "gen/http/service/server/types.go" ∧
    exampleEnv.Join [exampleEnv.Gendir, "http", exampleEnv.SnakeCase noServerService.Name,
        "server", "server.go"] ≠
      exampleEnv.Join [exampleEnv.Gendir, "http",
        exampleEnv.SnakeCase noServerService.Name, "server", "types.go"] :=
  ⟨fun dir x y h => intercalate_last_inj "/" dir x y h, rfl, rfl, rfl,
   (generated_paths exampleEnv noServerService
     (fun dir x y _ _ h => intercalate_last_inj "/" dir x y h)).2.2.2.2.1⟩

theorem foldlM_option_invariant {α β : Type} (P : β → Prop) (f : β → α → Option β)
    (l : List α) (init r : β) (hP : P init)
    (hstep : ∀ b a b2, P b → f b a = some b2 → P b2)
    (h : l.foldlM f init = some r) : P r := by
  induction l generalizing init with
  | nil =>
    simp only [List.foldlM_nil, pure, Option.some.injEq] at h
    rw [← h]
    exact hP
  | cons a l ih =>
    simp only [List.foldlM_cons, bind, Option.bind_eq_some] at h
    obtain ⟨b, hb, hr⟩ := h
    exact ih b (hstep init a b hP hb) hr

theorem foldl_invariant {α β : Type} (P : β → Prop) (f : β → α → β)
    (l : List α) (init : β) (hP : P init) (hstep : ∀ b a, P b → P (f b a)) :
    P (l.foldl f init) := by
  induction l generalizing init with
  | nil => exact hP
  | cons a l ih => exact ih _ (hstep init a hP)

theorem head_append_single {α : Type} (l : List α) (x y : α) (h : l.head? = some x) :
    (l ++ [y]).head? = some x := by
  cases l with
  | nil => cases h
  | cons a l => simpa using h

theorem bodyTypeStep_head (name : String) (acc : TypeAcc) (data : TypeData)
    (hd : SectionTemplate) (h : acc.sections.head? = some hd) :
    (bodyTypeStep name acc data).sections.head? = some hd := by
  unfold bodyTypeStep
  by_cases h1 : data.Def ≠ "" <;> cases h2 : data.Init <;>
    by_cases h3 : data.ValidateDef ≠ "" <;>
    simp [h1, h3, head_append_single _ _ _ h, h]

theorem serverType_head (env : Env) (genpkg : String) (r : ServiceExpr) (seen : Seen)
    (t : File) (s : Seen) (h : serverType env genpkg r seen = some (t, s)) :
    ∃ info, env.Services r.Name = some info ∧
      t.SectionTemplates.head? = some (Header (r.Name ++ " HTTP server types") "server" [
        { Path := "unicode/utf8" },
        { Path := genpkg ++ "/" ++ info.PkgName },
        { Path := "goa.design/goa", Name := "goa" }]) := by
  unfold serverType at h
  simp only [bind, Option.bind_eq_some, pure, Option.some.injEq, Prod.mk.injEq] at h
  obtain ⟨rdata, h1, info, h2, acc1, h3, acc2, h4, acc3, h5, h6, h7⟩ := h
  refine ⟨info, h2, ?_⟩
  have p1 : acc1.sections.head? = some (Header (r.Name ++ " HTTP server types")
      "server" [{ Path := "unicode/utf8" }, { Path := genpkg ++ "/" ++ info.PkgName },
        { Path := "goa.design/goa", Name := "goa" }]) := by
    refine foldlM_option_invariant (fun acc : TypeAcc => acc.sections.head? = some _)
      _ _ _ _ ?_ ?_ h3
    · rfl
    · intro b a b2 hb hf
      cases he : rdata.Endpoint a.Name with
      | none => rw [he] at hf; cases hf
      | some adata =>
        rw [he] at hf
        simp only [Option.some_bind] at hf
        cases hsb : adata.Payload.Request.ServerBody with
        | none =>
          rw [hsb] at hf
          cases hf
          exact hb
        | some data =>
          rw [hsb] at hf
          simp only [] at hf
          split at hf <;> cases hf <;> (try simp only []) <;> split <;>
            first
              | exact hb
              | exact head_append_single _ _ _ hb
  have p2 : acc2.sections.head? = some (Header (r.Name ++ " HTTP server types")
      "server" [{ Path := "unicode/utf8" }, { Path := genpkg ++ "/" ++ info.PkgName },
        { Path := "goa.design/goa", Name := "goa" }]) := by
    refine foldlM_option_invariant (fun acc : TypeAcc => acc.sections.head? = some _)
      _ _ _ _ p1 ?_ h4
    intro b a b2 hb hf
    cases he : rdata.Endpoint a.Name with
    | none => rw [he] at hf; cases hf
    | some adata =>
      rw [he] at hf
      simp only [Option.some_bind, Option.some.injEq] at hf
      subst hf
      refine foldl_invariant (fun acc : TypeAcc => acc.sections.head? = some _) _ _ _ hb ?_
      intro c resp hc
      cases hsb : resp.ServerBody with
      | none => exact hc
      | some data => exact bodyTypeStep_head _ _ _ _ hc
  have p3 : acc3.sections.head? = some (Header (r.Name ++ " HTTP server types")
      "server" [{ Path := "unicode/utf8" }, { Path := genpkg ++ "/" ++ info.PkgName },
        { Path := "goa.design/goa", Name := "goa" }]) := by
    refine foldlM_option_invariant (fun acc : TypeAcc => acc.sections.head? = some _)
      _ _ _ _ p2 ?_ h5
    intro b a b2 hb hf
    cases he : rdata.Endpoint a.Name with
    | none => rw [he] at hf; cases hf
    | some adata =>
      rw [he] at hf
      simp only [Option.some_bind, Option.some.injEq] at hf
      subst hf
      refine foldl_invariant (fun acc : TypeAcc => acc.sections.head? = some _) _ _ _ hb ?_
      intro c herr hc
      cases hsb : herr.Response.ServerBody with
      | none => exact hc
      | some data => exact bodyTypeStep_head _ _ _ _ hc
  rw [← h6]
  simp only []
  refine foldl_invariant (fun l : List SectionTemplate => l.head? = some _) _ _ _ ?_ ?_
  · refine foldl_invariant (fun l : List SectionTemplate => l.head? = some _) _ _ _ ?_ ?_
    · refine foldl_invariant (fun l : List SectionTemplate => l.head? = some _) _ _ _ ?_ ?_
      · refine foldl_invariant (fun acc : TypeAcc => acc.sections.head? = some _) _ _ _ p3 ?_
        intro c data hc
        split <;> (try simp only []) <;> split <;>
          first
            | exact hc
            | exact head_append_single _ _ _ hc
      · intro l init hl
        exact head_append_single _ _ _ hl
    · intro l adata hl
      cases hpi : adata.Payload.Request.PayloadInit with
      | none => exact hl
      | some init => exact head_append_single _ _ _ hl
  · intro l data hl
    exact head_append_single _ _ _ hl

theorem imports_of_head (f : File) (title pack : String) (imports : List ImportSpec)
    (h : f.SectionTemplates.head? = some (Header title pack imports)) :
    f.imports = imports := by
  unfold File.imports
  cases hs : f.SectionTemplates with
  | nil => rw [hs] at h; cases h
  | cons a l =>
    rw [hs] at h
    simp only [List.head?_cons, Option.some.injEq] at h
    subst h
    rfl

theorem server_head (env : Env) (genpkg : String) (svc : ServiceExpr) (f : File)
    (h : server env genpkg svc = some f) :
    ∃ d, env.HTTPServices svc.Name = some d ∧
      f.SectionTemplates.head? = some (Header (svc.Name ++ " HTTP server") "server" [
        { Path := "context" }, { Path := "fmt" }, { Path := "io" },
        { Path := "mime/multipart" }, { Path := "net/http" },
        { Path := "goa.design/goa", Name := "goa" },
        { Path := "goa.design/goa/http", Name := "goahttp" },
        { Path := genpkg ++ "/" ++ env.SnakeCase svc.Name, Name := d.Service.PkgName }]) := by
  unfold server at h
  cases hd : env.HTTPServices svc.Name with
  | none => rw [hd] at h; cases h
  | some d =>
    rw [hd] at h
    simp only [Option.some.injEq] at h
    refine ⟨d, rfl, ?_⟩
    rw [← h]
    simp only []
    refine foldl_invariant (fun l : List SectionTemplate => l.head? = some _) _ _ _ ?_ ?_
    · refine foldl_invariant (fun l : List SectionTemplate => l.head? = some _) _ _ _ ?_ ?_
      · refine head_append_single _ _ _ (head_append_single _ _ _
          (head_append_single _ _ _ ?_))
        refine foldl_invariant (fun l : List SectionTemplate => l.head? = some _) _ _ _ ?_ ?_
        · rfl
        · intro l e hl
          cases hm : e.MultipartRequestDecoder with
          | none => exact hl
          | some m => exact head_append_single _ _ _ hl
      · intro l e hl
        exact head_append_single _ _ _ (head_append_single _ _ _ hl)
    · intro l fs hl
      exact head_append_single _ _ _ hl

theorem serverEncodeDecode_head (env : Env) (genpkg : String) (svc : ServiceExpr) (f : File)
    (h : serverEncodeDecode env genpkg svc = some f) :
    ∃ d, env.HTTPServices svc.Name = some d ∧
      f.SectionTemplates.head? =
        some (Header (svc.Name ++ " HTTP server encoders and decoders") "server" [
          { Path := "context" }, { Path := "fmt" }, { Path := "io" },
          { Path := "net/http" }, { Path := "strconv" }, { Path := "strings" },
          { Path := "encoding/json" }, { Path := "mime/multipart" },
          { Path := "unicode/utf8" },
          { Path := "goa.design/goa", Name := "goa" },
          { Path := "goa.design/goa/http", Name := "goahttp" },
          { Path := genpkg ++ "/" ++ env.SnakeCase svc.Name, Name := d.Service.PkgName }]) := by
  unfold serverEncodeDecode at h
  cases hd : env.HTTPServices svc.Name with
  | none => rw [hd] at h; cases h
  | some d =>
    rw [hd] at h
    simp only [Option.some.injEq] at h
    refine ⟨d, rfl, ?_⟩
    rw [← h]
    simp only []
    refine foldl_invariant (fun l : List SectionTemplate => l.head? = some _) _ _ _ ?_ ?_
    · refine foldl_invariant (fun l : List SectionTemplate => l.head? = some _) _ _ _ ?_ ?_
      · rfl
      · intro l e hl
        have s1 := head_append_single l _
          ({ Name := "response-encoder", FuncMap := .transTmplFuncs svc.Name,
             Source := .responseEncoderT, Data := .endpoint e } : SectionTemplate) hl
        split <;> split <;> split <;>
          first
            | exact s1
            | exact head_append_single _ _ _ s1
            | exact head_append_single _ _ _ (head_append_single _ _ _ s1)
            | exact head_append_single _ _ _ (head_append_single _ _ _
                (head_append_single _ _ _ s1))
    · intro l t hl
      exact head_append_single _ _ _ hl

/-- C23 (failing input): `server.go` and `encode_decode.go` import the service package at
`<genpkg>/<SnakeCase(name)>` under the alias `PkgName`, with `goa` and `goahttp` under
their aliases; `types.go` imports it at `<genpkg>/<PkgName>` and without alias. For
`IgnoredService` (snake case `ignored_service`, package `ignoredservice`) the two paths
differ. -/
theorem types_service_import :
    (∀ env genpkg svc f, server env genpkg svc = some f →
      ∃ d, env.HTTPServices svc.Name = some d ∧
        f.imports = [
          { Path := "context" }, { Path := "fmt" }, { Path := "io" },
          { Path := "mime/multipart" }, { Path := "net/http" },
          { Path := "goa.design/goa", Name := "goa" },
          { Path := "goa.design/goa/http", Name := "goahttp" },
          { Path := genpkg ++ "/" ++ env.SnakeCase svc.Name, Name := d.Service.PkgName }]) ∧
    (∀ env genpkg svc f, serverEncodeDecode env genpkg svc = some f →
      ∃ d, env.HTTPServices svc.Name = some d ∧
        f.imports = [
          { Path := "context" }, { Path := "fmt" }, { Path := "io" },
          { Path := "net/http" }, { Path := "strconv" }, { Path := "strings" },
          { Path := "encoding/json" }, { Path := "mime/multipart" },
          { Path := "unicode/utf8" },
          { Path := "goa.design/goa", Name := "goa" },
          { Path := "goa.design/goa/http", Name := "goahttp" },
          { Path := genpkg ++ "/" ++ env.SnakeCase svc.Name, Name := d.Service.PkgName }]) ∧
    (∀ env genpkg svc seen t s, serverType env genpkg svc seen = some (t, s) →
      ∃ info, env.Services svc.Name = some info ∧
        t.imports = [
          { Path := "unicode/utf8" },
          { Path := genpkg ++ "/" ++ info.PkgName },
          { Path := "goa.design/goa", Name := "goa" }]) ∧
    (server exampleEnv "goa.design/gen" ignoredService).map (fun f => f.imports.getLast?) =
      some (some { Path := "goa.design/gen/ignored_service", Name := "ignoredservice" }) ∧
    (serverEncodeDecode exampleEnv "goa.design/gen" ignoredService).map
        (fun f => f.imports.getLast?) =
      some (some { Path := "goa.design/gen/ignored_service", Name := "ignoredservice" }) ∧
    (serverType exampleEnv "goa.design/gen" ignoredService []).map (fun p => p.1.imports) =
      some [{ Path := "unicode/utf8" },
            { Path := "goa.design/gen/ignoredservice" },
            { Path := "goa.design/goa", Name := "goa" }] := by
  refine ⟨?_, ?_, ?_, rfl, rfl, rfl⟩
  · intro env genpkg svc f h
    obtain ⟨d, hd, hh⟩ := server_head env genpkg svc f h
    exact ⟨d, hd, imports_of_head f _ _ _ hh⟩
  · intro env genpkg svc f h
    obtain ⟨d, hd, hh⟩ := serverEncodeDecode_head env genpkg svc f h
    exact ⟨d, hd, imports_of_head f _ _ _ hh⟩
  · intro env genpkg svc seen t s h
    obtain ⟨info, hi, hh⟩ := serverType_head env genpkg svc seen t s h
    exact ⟨info, hi, imports_of_head t _ _ _ hh⟩

end Goa
